import Mathlib

/-!
Shallow embedding of the supply-chain generator in
`src/Generator_Final_v1/data_generator.py` (class `SupplyChainGenerator`),
together with proofs settling the frozen claims C1..C10.

Modelling conventions, fixed once here:

* Python floats are modelled as exact rationals (`ℚ`).  The only
  transcendental operation the engine uses is
  `math.sin(2 * math.pi * (time_period - 3) / 12)`, whose argument depends on
  the period index alone; it is abstracted as a configuration field
  `sin_seasonal : ℕ → ℚ` (the value of that sine at period `t`).
* The module-level `config.py` imported by `data_generator.py`
  (`TEMPORAL_VARIATION`, `BASE_DATE`, `PART_VALIDITY_RANGE`, the numeric
  ranges, catalogs and size tables) is not part of the repository sources;
  the spec treats it as an injected read-only configuration object (§6).
  It is therefore a parameter (`Cfg`) of the whole development.
* Dates are day numbers (`ℤ`); `BASE_DATE + timedelta(days = 30 * t)` becomes
  `BASE_DATE + 30 * t`.
* The ambient `random` module is a stream `rng : ℕ → ℚ` of raw draws in
  `[0, 1)` consumed left to right; the generator state carries the position
  `rngIx` of the next draw.  `random.uniform`, `random.randint` and
  `random.choice` consume one draw each; `random.sample l k` is modelled as
  the first `k` elements of `l` (which elements a sample returns never
  matters to the claims) and, like Python, it fails when `k` exceeds the
  population size.  That failure is the only exception the modelled code can
  raise, so fallible functions return `Except String _`.
* Node attributes of the `networkx` graph are stored positionally: every
  entity id is unique by construction (distinct zero-padded counters per
  type prefix), so a node-attribute table keyed by id is represented by one
  list per attribute, parallel to the flattened entity lists in Python
  iteration order (`supplier`, `subassembly`, `lam` for warehouses; `raw`,
  `subassembly` for parts).  `G.copy()` copies attribute dictionaries one
  level deep, so functional update of these lists is a faithful model of the
  per-period snapshot copies.
-/

namespace SupplyChain

/-- Raw draw streams: every value `random.random()` produces lies in `[0,1)`. -/
def ValidRng (rng : ℕ → ℚ) : Prop := ∀ i, 0 ≤ rng i ∧ rng i < 1

/-- Model of `random.uniform(a, b)`: `a + (b - a) * random()`. -/
def pyuniform (a b r : ℚ) : ℚ := a + (b - a) * r

/-- Model of `random.randint(a, b)` (both endpoints included): the raw draw
`r ∈ [0,1)` is scaled over the `b - a + 1` values. -/
def pyrandint (a b : ℤ) (r : ℚ) : ℤ := a + ⌊r * ((b : ℚ) - (a : ℚ) + 1)⌋

/-- Model of `random.choice(l)` (one raw draw selects the index). -/
def pychoice {α : Type} (l : List α) (d : α) (r : ℚ) : α :=
  l.getD (⌊r * (l.length : ℚ)⌋).toNat d

/-- Model of `random.sample(l, k)`: fails exactly when the requested size
exceeds the population size, as in Python; the selection itself is
abstracted to the first `k` elements. -/
def pysample {α : Type} (l : List α) (k : ℕ) : Except String (List α) :=
  if k ≤ l.length then .ok (l.take k) else
    .error "Sample larger than population or is negative"

theorem pyuniform_zero (r : ℚ) : pyuniform (-0) 0 r = 0 := by
  simp [pyuniform]

theorem pyrandint_mem {a b : ℤ} {r : ℚ} (hab : a ≤ b) (h0 : 0 ≤ r) (h1 : r < 1) :
    a ≤ pyrandint a b r ∧ pyrandint a b r ≤ b := by
  unfold pyrandint
  constructor
  · have : (0 : ℤ) ≤ ⌊r * ((b : ℚ) - (a : ℚ) + 1)⌋ := by
      apply Int.floor_nonneg.mpr
      have hba : (0 : ℚ) ≤ (b : ℚ) - (a : ℚ) + 1 := by
        have : (a : ℚ) ≤ (b : ℚ) := by exact_mod_cast hab
        linarith
      exact mul_nonneg h0 hba
    omega
  · have hba : (0 : ℚ) < (b : ℚ) - (a : ℚ) + 1 := by
      have : (a : ℚ) ≤ (b : ℚ) := by exact_mod_cast hab
      linarith
    have hlt : r * ((b : ℚ) - (a : ℚ) + 1) < (b : ℚ) - (a : ℚ) + 1 := by
      have := mul_lt_mul_of_pos_right h1 hba
      simpa using this
    have : ⌊r * ((b : ℚ) - (a : ℚ) + 1)⌋ < b - a + 1 := by
      apply Int.floor_lt.mpr
      push_cast
      linarith
    omega

theorem pysample_ok {α : Type} {l : List α} {k : ℕ} (h : k ≤ l.length) :
    pysample l k = .ok (l.take k) := by
  simp [pysample, h]

/-! ### Configuration (§6 of the spec: injected read-only configuration) -/

/-- One entry of `TEMPORAL_VARIATION`: `{'max_change': …, 'trend': …}`. -/
structure TVCfg where
  max_change : ℚ
  trend : ℚ
deriving DecidableEq

/-- One entry of `SUPPLIER_SIZES`. -/
structure SupplierSizeCfg where
  size_lo : ℤ
  size_hi : ℤ
  max_connections : ℕ
deriving DecidableEq

/-- One entry of `WAREHOUSE_SIZES`. -/
structure WarehouseSizeCfg where
  cap_lo : ℤ
  cap_hi : ℤ
  max_parts : ℕ
deriving DecidableEq

/-- The injected configuration object (the repository's `config.py` module,
which is not among the sources; see the module docstring). -/
structure Cfg where
  TEMPORAL_VARIATION : String → Option TVCfg
  /-- Value of `math.sin(2 * math.pi * (t - 3) / 12)` at period `t`. -/
  sin_seasonal : ℕ → ℚ
  BASE_DATE : ℤ
  PART_VALIDITY_lo : ℤ
  PART_VALIDITY_hi : ℤ
  COST_lo : ℚ
  COST_hi : ℚ
  DEMAND_lo : ℤ
  DEMAND_hi : ℤ
  INVENTORY_lo : ℤ
  INVENTORY_hi : ℤ
  CAPACITY_lo : ℤ
  CAPACITY_hi : ℤ
  RELIABILITY_lo : ℚ
  RELIABILITY_hi : ℚ
  IMPORTANCE_FACTOR_lo : ℚ
  IMPORTANCE_FACTOR_hi : ℚ
  QUANTITY_lo : ℤ
  QUANTITY_hi : ℤ
  DISTANCE_lo : ℤ
  DISTANCE_hi : ℤ
  TRANSPORTATION_COST_lo : ℚ
  TRANSPORTATION_COST_hi : ℚ
  TRANSPORTATION_TIME_lo : ℚ
  TRANSPORTATION_TIME_hi : ℚ
  LOCATIONS : List String
  PART_TYPES_raw : List String
  PART_TYPES_subassembly : List String
  SUPPLIER_SIZES : String → SupplierSizeCfg
  WAREHOUSE_SIZES : String → WarehouseSizeCfg
  BUSINESS_GROUP : String
  PRODUCT_FAMILIES : List String
  PRODUCT_OFFERINGS : String → Option (List String)

/-! ### `_generate_temporal_value` (data_generator.py lines 258-282) -/

/-- `TEMPORAL_VARIATION.get(feature_type, {'max_change': 0.1, 'trend': 0})`. -/
def tv_config (cfg : Cfg) (feature_type : String) : TVCfg :=
  (cfg.TEMPORAL_VARIATION feature_type).getD ⟨0.1, 0⟩

/-- The seasonal factor of `_generate_temporal_value`: `1` unless the feature
type is `demand` or `cost`, in which case
`1 + 0.15 * sin(2π(t - 3)/12)`. -/
def seasonal_factor (cfg : Cfg) (feature_type : String) (time_period : ℕ) : ℚ :=
  if feature_type = "demand" ∨ feature_type = "cost" then
    1 + 0.15 * cfg.sin_seasonal time_period
  else 1

/-- `_generate_temporal_value(base_value, feature_type, time_period)`.
Consumes exactly one raw draw (`random.uniform`); the draw used is `rng ix`
and the function returns the value (the caller advances the stream by 1). -/
def generate_temporal_value (cfg : Cfg) (rng : ℕ → ℚ) (base_value : ℚ)
    (feature_type : String) (time_period : ℕ) (ix : ℕ) : ℚ :=
  let config := tv_config cfg feature_type
  let trend_factor : ℚ := 1 + config.trend * (time_period : ℚ)
  let random_factor : ℚ :=
    1 + pyuniform (-config.max_change) config.max_change (rng ix)
  base_value * trend_factor * seasonal_factor cfg feature_type time_period *
    random_factor

/-! ### `calculate_node_distribution` (data_generator.py lines 193-222) -/

/-- The nested count table produced by `calculate_node_distribution`. -/
structure NodeDist where
  parts : ℤ
  suppliers : ℤ
  warehouses : ℤ
  facilities : ℤ
  raw : ℤ
  subassembly : ℤ
  small : ℤ
  medium : ℤ
  large : ℤ
  wh_supplier : ℤ
  wh_subassembly : ℤ
  wh_lam : ℤ
  external : ℤ
  lam : ℤ
deriving DecidableEq, Repr

/-- `calculate_node_distribution`: pure integer truncation of fixed ratios.
`int(x)` on the non-negative values arising here is `⌊x⌋`. -/
def calculate_node_distribution (total_variable_nodes : ℕ) : NodeDist :=
  let parts : ℤ := ⌊(total_variable_nodes : ℚ) * 0.50⌋
  let suppliers : ℤ := ⌊(total_variable_nodes : ℚ) * 0.15⌋
  let warehouses : ℤ := ⌊(total_variable_nodes : ℚ) * 0.20⌋
  let facilities : ℤ := ⌊(total_variable_nodes : ℚ) * 0.15⌋
  { parts := parts
    suppliers := suppliers
    warehouses := warehouses
    facilities := facilities
    raw := ⌊(parts : ℚ) * 0.6⌋
    subassembly := ⌊(parts : ℚ) * 0.4⌋
    small := ⌊(suppliers : ℚ) * 0.4⌋
    medium := ⌊(suppliers : ℚ) * 0.35⌋
    large := ⌊(suppliers : ℚ) * 0.25⌋
    wh_supplier := ⌊(warehouses : ℚ) * 0.4⌋
    wh_subassembly := ⌊(warehouses : ℚ) * 0.35⌋
    wh_lam := ⌊(warehouses : ℚ) * 0.25⌋
    external := ⌊(facilities : ℚ) * 0.6⌋
    lam := ⌊(facilities : ℚ) * 0.4⌋ }

/-! ### Entities (the per-entity Python dicts stored on `self`) -/

/-- `self.business_group`. -/
structure BG where
  id : String
  name : String
  description : String
  revenue : ℚ
deriving DecidableEq

/-- One element of `self.product_families`. -/
structure Family where
  id : String
  name : String
  revenue : ℚ
deriving DecidableEq

/-- One element of `self.product_offerings`. -/
structure Offering where
  id : String
  name : String
  cost : ℚ
  demand : ℤ
deriving DecidableEq

/-- One element of `self.suppliers`. -/
structure Supplier where
  id : String
  name : String
  location : String
  reliability : ℚ
  size : ℤ
  size_category : String
  supplied_part_types : List String
deriving DecidableEq

/-- One element of `self.warehouses[wtype]`.  `current_capacity` is the value
stored in this dict, which stays `0` after creation: the wiring pass updates
only the graph node attribute, never this dict. -/
structure Warehouse where
  id : String
  name : String
  wtype : String
  location : String
  size_category : String
  max_capacity : ℤ
  current_capacity : ℚ
  safety_stock : ℤ
  max_parts : ℕ
deriving DecidableEq

/-- One element of `self.facilities[ftype]`. -/
structure Facility where
  id : String
  name : String
  ftype : String
  location : String
  max_capacity : ℤ
  operating_cost : ℚ
deriving DecidableEq

/-- One element of `self.parts[ptype]`. -/
structure Part where
  id : String
  name : String
  ptype : String
  subtype : String
  cost : ℚ
  importance_factor : ℚ
  valid_from : ℤ
  valid_till : ℤ
deriving DecidableEq

/-! ### The graph (`self.G` and its per-period snapshots)

Node attributes that the engine ever mutates are stored positionally, one
list per attribute, parallel to the flattened entity lists (see the module
docstring); all other node attributes are immutable copies of the entity
dicts and need no separate storage. -/

/-- One directed attributed edge; absent attributes are `none` (mirroring
`'transportation_cost' in attrs` membership tests). -/
structure Edge where
  source_id : String
  target_id : String
  transportation_cost : Option ℚ := none
  lead_time : Option ℚ := none
  inventory_level : Option ℚ := none
  storage_cost : Option ℚ := none
  quantity : Option ℤ := none
  distance : Option ℤ := none
  transport_cost : Option ℚ := none
  production_cost : Option ℚ := none
  product_cost : Option ℚ := none
  hierarchy : Bool := false
deriving DecidableEq

/-- A graph snapshot: the mutable node attributes plus the edge list (in
insertion order, which is `networkx` iteration order). -/
structure Graph where
  bgRevenue : ℚ
  famRev : List ℚ
  offCost : List ℚ
  offDemand : List ℚ
  whCap : List ℚ
  supRel : List ℚ
  partCost : List ℚ
  whDistances : List (List (String × ℤ))
  edges : List Edge
deriving DecidableEq

/-! ### The operations log (`_log_node_operation` / `_log_edge_operation`) -/

/-- A heterogeneous property value inside a log payload.  Dates are logged in
Python as `strftime('%Y-%m-%d')` strings; here they stay the day numbers
those strings denote. -/
inductive AttrVal where
  | q (x : ℚ)
  | i (n : ℤ)
  | s (v : String)
  | strs (l : List String)
deriving DecidableEq

/-- Log payloads: node records carry `node_id`, `node_type`, `properties`;
edge records carry `source_id`, `target_id`, `edge_type`, `properties`. -/
inductive OpPayload where
  | node (node_id : String) (node_type : String)
      (properties : List (String × AttrVal))
  | edge (source_id : String) (target_id : String) (edge_type : String)
      (properties : List (String × AttrVal))
deriving DecidableEq

/-- One record of `self.operations_log`.  The `type` field is the literal
string `"schema"` in both logging helpers. -/
structure Op where
  action : String
  type : String
  payload : OpPayload
  timestamp : ℕ
  version : String
deriving DecidableEq

/-- `_log_node_operation(action, node_id, node_type, properties)` as a record
constructor (the append itself happens at each use site). -/
def mk_node_op (action node_id node_type : String)
    (properties : List (String × AttrVal)) (ts : ℕ) (ver : String) : Op :=
  ⟨action, "schema", .node node_id node_type properties, ts, ver⟩

/-- `_log_edge_operation(action, source_id, target_id, properties, edge_type)`
as a record constructor. -/
def mk_edge_op (action source_id target_id : String)
    (properties : List (String × AttrVal)) (edge_type : String)
    (ts : ℕ) (ver : String) : Op :=
  ⟨action, "schema", .edge source_id target_id edge_type properties, ts, ver⟩

/-! ### Python dict-by-period stores (`self.temporal_graphs`,
`self.temporal_data`) -/

/-- Assignment `d[k] = v` on an insertion-ordered dict represented as an
association list: replace in place when the key exists, append otherwise. -/
def dictSet {κ α : Type} [DecidableEq κ] (l : List (κ × α)) (k : κ) (v : α) :
    List (κ × α) :=
  match l with
  | [] => [(k, v)]
  | (k0, v0) :: rest =>
      if k0 = k then (k, v) :: rest else (k0, v0) :: dictSet rest k v

/-- Lookup `d.get(k)`. -/
def dictGet {κ α : Type} [DecidableEq κ] (l : List (κ × α)) (k : κ) : Option α :=
  match l with
  | [] => none
  | (k0, v0) :: rest => if k0 = k then some v0 else dictGet rest k

/-- The entry whose key is `max(d.keys())`, or `none` when the dict is empty
(where Python's `max()` raises). -/
def dictLast {α : Type} (l : List (ℕ × α)) : Option (ℕ × α) :=
  match l with
  | [] => none
  | (k, v) :: rest =>
      match dictLast rest with
      | none => some (k, v)
      | some (k2, v2) => if k ≤ k2 then some (k2, v2) else some (k, v)

theorem dictGet_dictSet_self {κ α : Type} [DecidableEq κ] (l : List (κ × α))
    (k : κ) (v : α) : dictGet (dictSet l k v) k = some v := by
  induction l with
  | nil => simp [dictSet, dictGet]
  | cons hd tl ih =>
      obtain ⟨k0, v0⟩ := hd
      by_cases h : k0 = k
      · simp [dictSet, dictGet, h]
      · simp [dictSet, dictGet, h, ih]

theorem dictGet_dictSet_ne {κ α : Type} [DecidableEq κ] (l : List (κ × α))
    (k k2 : κ) (v : α) (h : k2 ≠ k) :
    dictGet (dictSet l k v) k2 = dictGet l k2 := by
  induction l with
  | nil => simp [dictSet, dictGet, Ne.symm h]
  | cons hd tl ih =>
      obtain ⟨k0, v0⟩ := hd
      by_cases h0 : k0 = k
      · subst h0
        simp [dictSet, dictGet, Ne.symm h]
      · simp only [dictSet, if_neg h0]
        by_cases h2 : k0 = k2
        · simp [dictGet, h2]
        · simp [dictGet, h2, ih]

/-- One element of `self.temporal_data[t]`: the period date plus the ordered
numeric entries written into `period_data`. -/
structure PeriodData where
  date : ℤ
  entries : List (String × ℚ)
deriving DecidableEq

/-! ### Generator state (`SupplyChainGenerator` instance fields) -/

/-- The instance fields of `SupplyChainGenerator` that the modelled methods
read or write, plus the position `rngIx` of the next raw draw of the ambient
random stream. -/
structure St where
  total_variable_nodes : ℕ
  base_periods : ℕ
  current_period : ℕ
  business_group : BG
  product_families : List Family
  product_offerings : List Offering
  suppliers : List Supplier
  warehouses_supplier : List Warehouse
  warehouses_subassembly : List Warehouse
  warehouses_lam : List Warehouse
  facilities_external : List Facility
  facilities_lam : List Facility
  parts_raw : List Part
  parts_subassembly : List Part
  G : Graph
  temporal_graphs : List (ℕ × Graph)
  temporal_data : List (ℕ × PeriodData)
  operations_log : List Op
  timestamp : ℕ
  version : String
  rngIx : ℕ
deriving DecidableEq

/-- `sum(self.warehouses.values(), [])` — dict value order `supplier`,
`subassembly`, `lam`. -/
def St.warehouses_all (s : St) : List Warehouse :=
  s.warehouses_supplier ++ s.warehouses_subassembly ++ s.warehouses_lam

/-- The flattened parts in dict order `raw`, `subassembly`. -/
def St.parts_all (s : St) : List Part :=
  s.parts_raw ++ s.parts_subassembly

/-- The flattened facilities in dict order `external`, `lam`. -/
def St.facilities_all (s : St) : List Facility :=
  s.facilities_external ++ s.facilities_lam

/-! ### Full regeneration: `generate_temporal_data` (lines 284-391)

Each loop body below mirrors one `for` block of `generate_temporal_data`;
the accumulators collect, in iteration order, the new attribute values, the
`period_data` entries, the log records, and the next draw position. -/

/-- Result of one sub-loop of the period update (logging variant). -/
structure UpdRes (α : Type) where
  values : α
  pd : List (String × ℚ)
  ops : List Op
  ix : ℕ

section Engine

variable (cfg : Cfg) (rng : ℕ → ℚ)

/-- The product-family block of `generate_temporal_data` (lines 306-311). -/
def upd_families_log (t ts : ℕ) (ver : String) :
    List Family → ℕ → UpdRes (List ℚ)
  | [], ix => ⟨[], [], [], ix⟩
  | f :: fs, ix =>
      let v := generate_temporal_value cfg rng f.revenue "revenue" t ix
      let r := upd_families_log t ts ver fs (ix + 1)
      ⟨v :: r.values,
       ("family_" ++ f.id ++ "_revenue", v) :: r.pd,
       mk_node_op "update" f.id "PRODUCT_FAMILY" [("revenue", .q v)] ts ver
         :: r.ops,
       r.ix⟩

/-- The product-offering block (lines 314-328): cost then demand, one update
record carrying both changed fields. -/
def upd_offerings_log (t ts : ℕ) (ver : String) :
    List Offering → ℕ → UpdRes (List (ℚ × ℚ))
  | [], ix => ⟨[], [], [], ix⟩
  | o :: os, ix =>
      let c := generate_temporal_value cfg rng o.cost "cost" t ix
      let d := generate_temporal_value cfg rng (o.demand : ℚ) "demand" t (ix + 1)
      let r := upd_offerings_log t ts ver os (ix + 2)
      ⟨(c, d) :: r.values,
       ("offering_" ++ o.id ++ "_cost", c)
         :: ("offering_" ++ o.id ++ "_demand", d) :: r.pd,
       mk_node_op "update" o.id "PRODUCT_OFFERING"
           [("demand", .q d), ("cost", .q c)] ts ver :: r.ops,
       r.ix⟩

/-- The warehouse block (lines 331-342).  The base value is
`warehouse['current_capacity']`: the value in the warehouse dict. -/
def upd_warehouses_log (t ts : ℕ) (ver : String) :
    List Warehouse → ℕ → UpdRes (List ℚ)
  | [], ix => ⟨[], [], [], ix⟩
  | w :: ws, ix =>
      let v := generate_temporal_value cfg rng w.current_capacity "capacity" t ix
      let r := upd_warehouses_log t ts ver ws (ix + 1)
      ⟨v :: r.values,
       ("warehouse_" ++ w.id ++ "_capacity", v) :: r.pd,
       mk_node_op "update" w.id "WAREHOUSE" [("capacity", .q v)] ts ver :: r.ops,
       r.ix⟩

/-- The supplier block (lines 345-354). -/
def upd_suppliers_log (t ts : ℕ) (ver : String) :
    List Supplier → ℕ → UpdRes (List ℚ)
  | [], ix => ⟨[], [], [], ix⟩
  | p :: ps, ix =>
      let v := generate_temporal_value cfg rng p.reliability "reliability" t ix
      let r := upd_suppliers_log t ts ver ps (ix + 1)
      ⟨v :: r.values,
       ("supplier_" ++ p.id ++ "_reliability", v) :: r.pd,
       mk_node_op "update" p.id "SUPPLIERS" [("reliability", .q v)] ts ver
         :: r.ops,
       r.ix⟩

/-- The part block (lines 357-367): a part is updated (and logged, and costs
one draw) only when `valid_from ≤ current_date ≤ valid_till`; otherwise the
graph keeps its previous cost (second argument, positionally parallel). -/
def upd_parts_log (t ts : ℕ) (ver : String) (date : ℤ) :
    List Part → List ℚ → ℕ → UpdRes (List ℚ)
  | [], _, ix => ⟨[], [], [], ix⟩
  | _ :: _, [], ix => ⟨[], [], [], ix⟩
  | p :: ps, o :: os, ix =>
      if p.valid_from ≤ date ∧ date ≤ p.valid_till then
        let v := generate_temporal_value cfg rng p.cost "cost" t ix
        let r := upd_parts_log t ts ver date ps os (ix + 1)
        ⟨v :: r.values,
         ("part_" ++ p.id ++ "_cost", v) :: r.pd,
         mk_node_op "update" p.id "PARTS" [("cost", .q v)] ts ver :: r.ops,
         r.ix⟩
      else
        let r := upd_parts_log t ts ver date ps os ix
        ⟨o :: r.values, r.pd, r.ops, r.ix⟩

/-- One edge of the edge block (lines 370-387): update `transportation_cost`
when present, then `inventory_level` when present, one log record per
updated attribute (the hard-coded edge-type tags are the source's). -/
def edge_step_log (t ts : ℕ) (ver : String) (e : Edge) (ix : ℕ) :
    Edge × List (String × ℚ) × List Op × ℕ :=
  let step1 : Edge × List (String × ℚ) × List Op × ℕ :=
    match e.transportation_cost with
    | some c =>
        let v := generate_temporal_value cfg rng c "transportation_cost" t ix
        ({ e with transportation_cost := some v },
         [("edge_" ++ e.source_id ++ "_" ++ e.target_id ++ "_transport_cost", v)],
         [mk_edge_op "update" e.source_id e.target_id
             [("transportation_cost", .q v)] "SUPPLIERS_WAREHOUSE" ts ver],
         ix + 1)
    | none => (e, [], [], ix)
  match e.inventory_level with
  | some iv =>
      let v := generate_temporal_value cfg rng iv "inventory" t step1.2.2.2
      ({ step1.1 with inventory_level := some v },
       step1.2.1 ++
         [("edge_" ++ e.source_id ++ "_" ++ e.target_id ++ "_inventory", v)],
       step1.2.2.1 ++
         [mk_edge_op "update" e.source_id e.target_id
             [("inventory_level", .q v)] "WAREHOUSE_PARTS" ts ver],
       step1.2.2.2 + 1)
  | none => step1

/-- The edge block of `generate_temporal_data`, over the period graph's edge
list (which is the period-0 edge list: every period graph is a fresh copy of
`base_graph`). -/
def upd_edges_log (t ts : ℕ) (ver : String) :
    List Edge → ℕ → UpdRes (List Edge)
  | [], ix => ⟨[], [], [], ix⟩
  | e :: es, ix =>
      let st := edge_step_log cfg rng t ts ver e ix
      let r := upd_edges_log t ts ver es st.2.2.2
      ⟨st.1 :: r.values, st.2.1 ++ r.pd, st.2.2.1 ++ r.ops, r.ix⟩

/-- Result of one whole period of `generate_temporal_data`. -/
structure PeriodRes where
  graph : Graph
  pd : PeriodData
  ops : List Op
  ix : ℕ
deriving DecidableEq

/-- One iteration of the `for time_period in range(1, base_periods)` loop of
`generate_temporal_data`: all bases are the creation-time entity dicts and
the period-0 graph `g0` — no other snapshot is an input. -/
def genTD_period (bg : BG) (fams : List Family) (offs : List Offering)
    (whs : List Warehouse) (sups : List Supplier) (parts : List Part)
    (g0 : Graph) (t ts : ℕ) (ver : String) (ix : ℕ) : PeriodRes :=
  let date := cfg.BASE_DATE + 30 * (t : ℤ)
  let bgv := generate_temporal_value cfg rng bg.revenue "revenue" t ix
  let bgop := mk_node_op "update" bg.id "BUSINESS_GROUP" [("revenue", .q bgv)]
      ts ver
  let rF := upd_families_log cfg rng t ts ver fams (ix + 1)
  let rO := upd_offerings_log cfg rng t ts ver offs rF.ix
  let rW := upd_warehouses_log cfg rng t ts ver whs rO.ix
  let rS := upd_suppliers_log cfg rng t ts ver sups rW.ix
  let rP := upd_parts_log cfg rng t ts ver date parts g0.partCost rS.ix
  let rE := upd_edges_log cfg rng t ts ver g0.edges rP.ix
  { graph := { g0 with
      bgRevenue := bgv
      famRev := rF.values
      offCost := rO.values.map Prod.fst
      offDemand := rO.values.map Prod.snd
      whCap := rW.values
      supRel := rS.values
      partCost := rP.values
      edges := rE.values }
    pd := ⟨date, ("business_group_revenue", bgv)
      :: (rF.pd ++ rO.pd ++ rW.pd ++ rS.pd ++ rP.pd ++ rE.pd)⟩
    ops := bgop :: (rF.ops ++ rO.ops ++ rW.ops ++ rS.ops ++ rP.ops ++ rE.ops)
    ix := rE.ix }

/-- `generate_temporal_data` (lines 284-391): stores the period-0 snapshot,
then for each `t ∈ range(1, base_periods)` bumps the timestamp, computes the
period from the period-0 baseline, stores the snapshot and the period data
and appends the period's update records. -/
def generate_temporal_data (s : St) : St :=
  let base_graph := s.G
  let s1 := { s with temporal_graphs := dictSet s.temporal_graphs 0 base_graph }
  (List.range' 1 (s.base_periods - 1)).foldl
    (fun acc t =>
      let ts := acc.timestamp + 1
      let r := genTD_period cfg rng s.business_group s.product_families
          s.product_offerings s.warehouses_all s.suppliers s.parts_all
          base_graph t ts s.version acc.rngIx
      { acc with
        timestamp := ts
        temporal_graphs := dictSet acc.temporal_graphs t r.graph
        temporal_data := dictSet acc.temporal_data t r.pd
        operations_log := acc.operations_log ++ r.ops
        rngIx := r.ix }) s1

/-- `regenerate_all_periods` (lines 94-99): reset the three period stores and
run the full regeneration pass again. -/
def regenerate_all_periods (s : St) : St :=
  generate_temporal_data cfg rng
    { s with temporal_graphs := [], temporal_data := [], current_period := 0 }

/-! ### Incremental extension: `simulate_next_period` and the
`_update_*_attributes` helpers (lines 66-180).  None of these methods logs
anything. -/

/-- Result of one sub-loop of the non-logging period update. -/
structure UpdRes2 (α : Type) where
  values : α
  pd : List (String × ℚ)
  ix : ℕ

/-- The family loop inlined in `_update_period_attributes` (lines 110-114):
base values are the family dicts. -/
def update_families : (t : ℕ) → List Family → ℕ → UpdRes2 (List ℚ)
  | _, [], ix => ⟨[], [], ix⟩
  | t, f :: fs, ix =>
      let v := generate_temporal_value cfg rng f.revenue "revenue" t ix
      let r := update_families t fs (ix + 1)
      ⟨v :: r.values, ("family_" ++ f.id ++ "_revenue", v) :: r.pd, r.ix⟩

/-- `_update_product_attributes` (lines 123-134): bases are the offering
dicts. -/
def update_product_attributes : (t : ℕ) → List Offering → ℕ →
    UpdRes2 (List (ℚ × ℚ))
  | _, [], ix => ⟨[], [], ix⟩
  | t, o :: os, ix =>
      let c := generate_temporal_value cfg rng o.cost "cost" t ix
      let d := generate_temporal_value cfg rng (o.demand : ℚ) "demand" t (ix + 1)
      let r := update_product_attributes t os (ix + 2)
      ⟨(c, d) :: r.values,
       ("offering_" ++ o.id ++ "_cost", c)
         :: ("offering_" ++ o.id ++ "_demand", d) :: r.pd,
       r.ix⟩

/-- `_update_warehouse_attributes` (lines 136-144): the base value is
`warehouse['current_capacity']` from the warehouse dict. -/
def update_warehouse_attributes : (t : ℕ) → List Warehouse → ℕ →
    UpdRes2 (List ℚ)
  | _, [], ix => ⟨[], [], ix⟩
  | t, w :: ws, ix =>
      let v := generate_temporal_value cfg rng w.current_capacity "capacity" t ix
      let r := update_warehouse_attributes t ws (ix + 1)
      ⟨v :: r.values, ("warehouse_" ++ w.id ++ "_capacity", v) :: r.pd, r.ix⟩

/-- `_update_supplier_attributes` (lines 146-153): bases are the supplier
dicts. -/
def update_supplier_attributes : (t : ℕ) → List Supplier → ℕ →
    UpdRes2 (List ℚ)
  | _, [], ix => ⟨[], [], ix⟩
  | t, p :: ps, ix =>
      let v := generate_temporal_value cfg rng p.reliability "reliability" t ix
      let r := update_supplier_attributes t ps (ix + 1)
      ⟨v :: r.values, ("supplier_" ++ p.id ++ "_reliability", v) :: r.pd, r.ix⟩

/-- `_update_part_attributes` (lines 155-165): bases are the part dicts;
out-of-window parts keep the passed graph's value (second argument). -/
def update_part_attributes (t : ℕ) (date : ℤ) :
    List Part → List ℚ → ℕ → UpdRes2 (List ℚ)
  | [], _, ix => ⟨[], [], ix⟩
  | _ :: _, [], ix => ⟨[], [], ix⟩
  | p :: ps, o :: os, ix =>
      if p.valid_from ≤ date ∧ date ≤ p.valid_till then
        let v := generate_temporal_value cfg rng p.cost "cost" t ix
        let r := update_part_attributes t date ps os (ix + 1)
        ⟨v :: r.values, ("part_" ++ p.id ++ "_cost", v) :: r.pd, r.ix⟩
      else
        let r := update_part_attributes t date ps os ix
        ⟨o :: r.values, r.pd, r.ix⟩

/-- One edge of `_update_edge_attributes` (lines 167-180): the bases are
`attrs['transportation_cost']` / `attrs['inventory_level']` — the passed
graph's (i.e. the latest snapshot's) current values. -/
def edge_step (t : ℕ) (e : Edge) (ix : ℕ) : Edge × List (String × ℚ) × ℕ :=
  let step1 : Edge × List (String × ℚ) × ℕ :=
    match e.transportation_cost with
    | some c =>
        let v := generate_temporal_value cfg rng c "transportation_cost" t ix
        ({ e with transportation_cost := some v },
         [("edge_" ++ e.source_id ++ "_" ++ e.target_id ++ "_transport_cost", v)],
         ix + 1)
    | none => (e, [], ix)
  match e.inventory_level with
  | some iv =>
      let v := generate_temporal_value cfg rng iv "inventory" t step1.2.2
      ({ step1.1 with inventory_level := some v },
       step1.2.1 ++
         [("edge_" ++ e.source_id ++ "_" ++ e.target_id ++ "_inventory", v)],
       step1.2.2 + 1)
  | none => step1

/-- `_update_edge_attributes` over the passed graph's edge list. -/
def update_edge_attributes : (t : ℕ) → List Edge → ℕ → UpdRes2 (List Edge)
  | _, [], ix => ⟨[], [], ix⟩
  | t, e :: es, ix =>
      let st := edge_step cfg rng t e ix
      let r := update_edge_attributes t es st.2.2
      ⟨st.1 :: r.values, st.2.1 ++ r.pd, r.ix⟩

/-- `_update_period_attributes(graph, time_period, period_data)` (lines
101-121): mutates the copied graph, writes `period_data`, logs nothing. -/
def update_period_attributes (bg : BG) (fams : List Family)
    (offs : List Offering) (whs : List Warehouse) (sups : List Supplier)
    (parts : List Part) (g : Graph) (t : ℕ) (ix : ℕ) :
    Graph × List (String × ℚ) × ℕ :=
  let bgv := generate_temporal_value cfg rng bg.revenue "revenue" t ix
  let rF := update_families cfg rng t fams (ix + 1)
  let rO := update_product_attributes cfg rng t offs rF.ix
  let rW := update_warehouse_attributes cfg rng t whs rO.ix
  let rS := update_supplier_attributes cfg rng t sups rW.ix
  let date := cfg.BASE_DATE + 30 * (t : ℤ)
  let rP := update_part_attributes cfg rng t date parts g.partCost rS.ix
  let rE := update_edge_attributes cfg rng t g.edges rP.ix
  ({ g with
      bgRevenue := bgv
      famRev := rF.values
      offCost := rO.values.map Prod.fst
      offDemand := rO.values.map Prod.snd
      whCap := rW.values
      supRel := rS.values
      partCost := rP.values
      edges := rE.values },
   ("business_group_revenue", bgv)
     :: (rF.pd ++ rO.pd ++ rW.pd ++ rS.pd ++ rP.pd ++ rE.pd),
   rE.ix)

/-- `simulate_next_period` (lines 66-84): `max(self.temporal_graphs.keys())`
raises on an empty store; otherwise the latest snapshot is copied, updated
in place by `_update_period_attributes` (no log records), stored as period
`k+1`, and `current_period` is advanced.  The timestamp counter is not
touched. -/
def simulate_next_period (s : St) : Except String St :=
  match dictLast s.temporal_graphs with
  | none => .error "max() arg is an empty sequence"
  | some (last_period, base_graph) =>
      let next_period := last_period + 1
      let current_date := cfg.BASE_DATE + 30 * (next_period : ℤ)
      let r := update_period_attributes cfg rng s.business_group
          s.product_families s.product_offerings s.warehouses_all s.suppliers
          s.parts_all base_graph next_period s.rngIx
      .ok { s with
        temporal_graphs := dictSet s.temporal_graphs next_period r.1
        temporal_data := dictSet s.temporal_data next_period ⟨current_date, r.2.1⟩
        current_period := next_period
        rngIx := r.2.2 }

end Engine

/-! ### Entity Factory (`_generate_*` methods, lines 393-534)

The factories are called exactly once, by `generate_data`, on the freshly
initialized (empty) state; the positional graph-attribute lists are appended
in the same order as the entity lists, which keeps them parallel. -/

/-- Zero-padded counters as in the f-strings `f'S_{counter:03d}'`. -/
def pad3 (n : ℕ) : String :=
  if n < 10 then "00" ++ toString n
  else if n < 100 then "0" ++ toString n
  else toString n

section Factory

variable (cfg : Cfg) (rng : ℕ → ℚ)

/-- The create-record payload of a supplier (full attribute set). -/
def supplier_props (p : Supplier) : List (String × AttrVal) :=
  [("id", .s p.id), ("name", .s p.name), ("location", .s p.location),
   ("reliability", .q p.reliability), ("size", .i p.size),
   ("size_category", .s p.size_category),
   ("supplied_part_types", .strs p.supplied_part_types)]

/-- The create-record payload of a warehouse (full attribute set). -/
def warehouse_props (w : Warehouse) : List (String × AttrVal) :=
  [("id", .s w.id), ("name", .s w.name), ("type", .s w.wtype),
   ("location", .s w.location), ("size_category", .s w.size_category),
   ("max_capacity", .i w.max_capacity), ("current_capacity", .q w.current_capacity),
   ("safety_stock", .i w.safety_stock), ("max_parts", .i (w.max_parts : ℤ))]

/-- The create-record payload of a facility. -/
def facility_props (f : Facility) : List (String × AttrVal) :=
  [("id", .s f.id), ("name", .s f.name), ("type", .s f.ftype),
   ("location", .s f.location), ("max_capacity", .i f.max_capacity),
   ("operating_cost", .q f.operating_cost)]

/-- The create-record payload of a part; the dates are logged in Python as
`strftime` strings of the same day values. -/
def part_props (p : Part) : List (String × AttrVal) :=
  [("id", .s p.id), ("name", .s p.name), ("type", .s p.ptype),
   ("subtype", .s p.subtype), ("cost", .q p.cost),
   ("importance_factor", .q p.importance_factor),
   ("valid_from", .i p.valid_from), ("valid_till", .i p.valid_till)]

/-- The create-record payload of the business group. -/
def bg_props (b : BG) : List (String × AttrVal) :=
  [("id", .s b.id), ("name", .s b.name), ("description", .s b.description),
   ("revenue", .q b.revenue)]

/-- The create-record payload of a product family. -/
def family_props (f : Family) : List (String × AttrVal) :=
  [("id", .s f.id), ("name", .s f.name), ("revenue", .q f.revenue)]

/-- The create-record payload of a product offering. -/
def offering_props (o : Offering) : List (String × AttrVal) :=
  [("id", .s o.id), ("name", .s o.name), ("cost", .q o.cost),
   ("demand", .i o.demand)]

/-- The family loop of `_generate_business_hierarchy` (lines 445-453):
`enumerate(PRODUCT_FAMILIES, 1)` with one revenue draw each. -/
def gen_families (ts : ℕ) (ver : String) :
    List String → ℕ → ℕ → List Family × List Op × ℕ
  | [], _, ix => ([], [], ix)
  | nm :: rest, i, ix =>
      let pf : Family := ⟨"PF_" ++ pad3 i, nm,
        pyuniform cfg.COST_lo cfg.COST_hi (rng ix)⟩
      let r := gen_families ts ver rest (i + 1) (ix + 1)
      (pf :: r.1, mk_node_op "create" pf.id "PRODUCT_FAMILY" (family_props pf)
        ts ver :: r.2.1, r.2.2)

/-- The inner offering loop (lines 459-469): one cost draw and one demand
draw per catalog name. -/
def gen_offerings_in (ts : ℕ) (ver : String) :
    List String → ℕ → ℕ → List Offering × List Op × ℕ × ℕ
  | [], ctr, ix => ([], [], ctr, ix)
  | nm :: rest, ctr, ix =>
      let po : Offering := ⟨"PO_" ++ pad3 ctr, nm,
        pyuniform cfg.COST_lo cfg.COST_hi (rng ix),
        pyrandint cfg.DEMAND_lo cfg.DEMAND_hi (rng (ix + 1))⟩
      let r := gen_offerings_in ts ver rest (ctr + 1) (ix + 2)
      (po :: r.1, mk_node_op "create" po.id "PRODUCT_OFFERING"
        (offering_props po) ts ver :: r.2.1, r.2.2)

/-- The outer offering loop (lines 455-469): families whose name is absent
from the `PRODUCT_OFFERINGS` catalog contribute nothing. -/
def gen_offerings_out (ts : ℕ) (ver : String) :
    List Family → ℕ → ℕ → List Offering × List Op × ℕ
  | [], _, ix => ([], [], ix)
  | pf :: rest, ctr, ix =>
      match cfg.PRODUCT_OFFERINGS pf.name with
      | some names =>
          let r1 := gen_offerings_in cfg rng ts ver names ctr ix
          let r2 := gen_offerings_out ts ver rest r1.2.2.1 r1.2.2.2
          (r1.1 ++ r2.1, r1.2.1 ++ r2.2.1, r2.2.2)
      | none => gen_offerings_out ts ver rest ctr ix

/-- `_generate_business_hierarchy` (lines 431-469). -/
def generate_business_hierarchy (s : St) : St :=
  let bg : BG := ⟨"BG_001", cfg.BUSINESS_GROUP,
    cfg.BUSINESS_GROUP ++ " Business Unit",
    pyuniform cfg.COST_lo cfg.COST_hi (rng s.rngIx)⟩
  let rF := gen_families cfg rng s.timestamp s.version cfg.PRODUCT_FAMILIES 1
      (s.rngIx + 1)
  let rO := gen_offerings_out cfg rng s.timestamp s.version rF.1 1 rF.2.2
  { s with
    business_group := bg
    product_families := s.product_families ++ rF.1
    product_offerings := s.product_offerings ++ rO.1
    G := { s.G with
      bgRevenue := bg.revenue
      famRev := s.G.famRev ++ rF.1.map Family.revenue
      offCost := s.G.offCost ++ rO.1.map Offering.cost
      offDemand := s.G.offDemand ++ rO.1.map (fun o => (o.demand : ℚ)) }
    operations_log := s.operations_log
      ++ mk_node_op "create" bg.id "BUSINESS_GROUP" (bg_props bg) s.timestamp
          s.version :: (rF.2.1 ++ rO.2.1)
    rngIx := rO.2.2 }

/-- The per-category supplier loop of `_generate_suppliers` (lines 400-429).
Draw order per supplier: size, the `random.random() < 0.7` test, inside it
`randint(1, len(raw))` for the raw sample size, the `< 0.3` test, inside it
the subassembly sample size, then location and reliability.  The
`random.sample` calls fail exactly when the drawn size exceeds the type
pool. -/
def gen_suppliers_cat (cat : String) :
    ℕ → ℕ → St → Except String (ℕ × St)
  | 0, counter, s => .ok (counter, s)
  | Nat.succ k, counter, s =>
      let sizeCfg := cfg.SUPPLIER_SIZES cat
      let size_value := pyrandint sizeCfg.size_lo sizeCfg.size_hi (rng s.rngIx)
      let ix1 := s.rngIx + 1
      let branch1 : Except String (List String × ℕ) :=
        if rng ix1 < 0.7 then
          let kdraw := pyrandint 1 (cfg.PART_TYPES_raw.length : ℤ) (rng (ix1 + 1))
          match pysample cfg.PART_TYPES_raw kdraw.toNat with
          | .ok l => .ok (l, ix1 + 2)
          | .error e => .error e
        else .ok ([], ix1 + 1)
      match branch1 with
      | .error e => .error e
      | .ok (types1, ix2) =>
          let branch2 : Except String (List String × ℕ) :=
            if rng ix2 < 0.3 then
              let kdraw := pyrandint 1 (cfg.PART_TYPES_subassembly.length : ℤ)
                  (rng (ix2 + 1))
              match pysample cfg.PART_TYPES_subassembly kdraw.toNat with
              | .ok l => .ok (l, ix2 + 2)
              | .error e => .error e
            else .ok ([], ix2 + 1)
          match branch2 with
          | .error e => .error e
          | .ok (types2, ix3) =>
              let sup : Supplier := ⟨"S_" ++ pad3 counter,
                "Supplier_" ++ toString counter,
                pychoice cfg.LOCATIONS "" (rng ix3),
                pyuniform cfg.RELIABILITY_lo cfg.RELIABILITY_hi (rng (ix3 + 1)),
                size_value, cat, types1 ++ types2⟩
              gen_suppliers_cat cat k (counter + 1)
                { s with
                  suppliers := s.suppliers ++ [sup]
                  G := { s.G with supRel := s.G.supRel ++ [sup.reliability] }
                  operations_log := s.operations_log
                    ++ [mk_node_op "create" sup.id "SUPPLIERS"
                        (supplier_props sup) s.timestamp s.version]
                  rngIx := ix3 + 2 }

/-- `_generate_suppliers` (lines 400-429): categories in dict order
`small`, `medium`, `large`, one shared counter. -/
def generate_suppliers (s : St) : Except String St :=
  let d := calculate_node_distribution s.total_variable_nodes
  match gen_suppliers_cat cfg rng "small" d.small.toNat 1 s with
  | .error e => .error e
  | .ok (c1, s1) =>
      match gen_suppliers_cat cfg rng "medium" d.medium.toNat c1 s1 with
      | .error e => .error e
      | .ok (c2, s2) =>
          match gen_suppliers_cat cfg rng "large" d.large.toNat c2 s2 with
          | .error e => .error e
          | .ok (_, s3) => .ok s3

/-- The per-type warehouse loop of `_generate_warehouses` (lines 471-493).
Draw order: size category, location, max capacity, safety stock.
`current_capacity` starts at `0` in the dict and in the graph node. -/
def gen_warehouses_cat (wtype : String) :
    ℕ → ℕ → ℕ → ℕ → String → List Warehouse × List Op × ℕ × ℕ
  | 0, counter, ix, _, _ => ([], [], counter, ix)
  | Nat.succ k, counter, ix, ts, ver =>
      let size_category := pychoice ["small", "medium", "large"] "" (rng ix)
      let wcfg := cfg.WAREHOUSE_SIZES size_category
      let w : Warehouse := ⟨"W_" ++ pad3 counter,
        "Warehouse_" ++ toString counter, wtype,
        pychoice cfg.LOCATIONS "" (rng (ix + 1)), size_category,
        pyrandint wcfg.cap_lo wcfg.cap_hi (rng (ix + 2)), 0,
        pyrandint cfg.INVENTORY_lo cfg.INVENTORY_hi (rng (ix + 3)),
        wcfg.max_parts⟩
      let r := gen_warehouses_cat wtype k (counter + 1) (ix + 4) ts ver
      (w :: r.1, mk_node_op "create" w.id "WAREHOUSE" (warehouse_props w) ts ver
        :: r.2.1, r.2.2)

/-- `_generate_warehouses` (lines 471-493): dict order
`supplier`, `subassembly`, `lam`, one shared counter. -/
def generate_warehouses (s : St) : St :=
  let d := calculate_node_distribution s.total_variable_nodes
  let r1 := gen_warehouses_cat cfg rng "supplier" d.wh_supplier.toNat 1 s.rngIx
      s.timestamp s.version
  let r2 := gen_warehouses_cat cfg rng "subassembly" d.wh_subassembly.toNat
      r1.2.2.1 r1.2.2.2 s.timestamp s.version
  let r3 := gen_warehouses_cat cfg rng "lam" d.wh_lam.toNat
      r2.2.2.1 r2.2.2.2 s.timestamp s.version
  { s with
    warehouses_supplier := s.warehouses_supplier ++ r1.1
    warehouses_subassembly := s.warehouses_subassembly ++ r2.1
    warehouses_lam := s.warehouses_lam ++ r3.1
    G := { s.G with
      whCap := s.G.whCap ++ List.replicate (r1.1.length + r2.1.length
        + r3.1.length) 0
      whDistances := s.G.whDistances ++ List.replicate (r1.1.length
        + r2.1.length + r3.1.length) [] }
    operations_log := s.operations_log ++ (r1.2.1 ++ r2.2.1 ++ r3.2.1)
    rngIx := r3.2.2.2 }

/-- The per-type facility loop of `_generate_facilities` (lines 495-510). -/
def gen_facilities_cat (ftype : String) :
    ℕ → ℕ → ℕ → ℕ → String → List Facility × List Op × ℕ × ℕ
  | 0, counter, ix, _, _ => ([], [], counter, ix)
  | Nat.succ k, counter, ix, ts, ver =>
      let f : Facility := ⟨"F_" ++ pad3 counter,
        "Facility_" ++ toString counter, ftype,
        pychoice cfg.LOCATIONS "" (rng ix),
        pyrandint cfg.CAPACITY_lo cfg.CAPACITY_hi (rng (ix + 1)),
        pyuniform cfg.COST_lo cfg.COST_hi (rng (ix + 2))⟩
      let r := gen_facilities_cat ftype k (counter + 1) (ix + 3) ts ver
      (f :: r.1, mk_node_op "create" f.id "FACILITY" (facility_props f) ts ver
        :: r.2.1, r.2.2)

/-- `_generate_facilities`: dict order `external`, `lam`. -/
def generate_facilities (s : St) : St :=
  let d := calculate_node_distribution s.total_variable_nodes
  let r1 := gen_facilities_cat cfg rng "external" d.external.toNat 1 s.rngIx
      s.timestamp s.version
  let r2 := gen_facilities_cat cfg rng "lam" d.lam.toNat r1.2.2.1 r1.2.2.2
      s.timestamp s.version
  { s with
    facilities_external := s.facilities_external ++ r1.1
    facilities_lam := s.facilities_lam ++ r2.1
    operations_log := s.operations_log ++ (r1.2.1 ++ r2.2.1)
    rngIx := r2.2.2.2 }

/-- The per-type part loop of `_generate_parts` (lines 512-534) together with
`_generate_part_validity` (lines 393-398).  Draw order: validity months,
subtype, cost, importance factor. -/
def gen_parts_cat (ptype : String) :
    ℕ → ℕ → ℕ → ℕ → String → List Part × List Op × ℕ × ℕ
  | 0, counter, ix, _, _ => ([], [], counter, ix)
  | Nat.succ k, counter, ix, ts, ver =>
      let validity_months := pyrandint cfg.PART_VALIDITY_lo cfg.PART_VALIDITY_hi
          (rng ix)
      let pool := if ptype = "raw" then cfg.PART_TYPES_raw
        else cfg.PART_TYPES_subassembly
      let p : Part := ⟨"P_" ++ pad3 counter, "Part_" ++ toString counter, ptype,
        pychoice pool "" (rng (ix + 1)),
        pyuniform cfg.COST_lo cfg.COST_hi (rng (ix + 2)),
        pyuniform cfg.IMPORTANCE_FACTOR_lo cfg.IMPORTANCE_FACTOR_hi
          (rng (ix + 3)),
        cfg.BASE_DATE, cfg.BASE_DATE + 30 * validity_months⟩
      let r := gen_parts_cat ptype k (counter + 1) (ix + 4) ts ver
      (p :: r.1, mk_node_op "create" p.id "PARTS" (part_props p) ts ver
        :: r.2.1, r.2.2)

/-- `_generate_parts`: dict order `raw`, `subassembly`, one shared counter. -/
def generate_parts (s : St) : St :=
  let d := calculate_node_distribution s.total_variable_nodes
  let r1 := gen_parts_cat cfg rng "raw" d.raw.toNat 1 s.rngIx s.timestamp
      s.version
  let r2 := gen_parts_cat cfg rng "subassembly" d.subassembly.toNat r1.2.2.1
      r1.2.2.2 s.timestamp s.version
  { s with
    parts_raw := s.parts_raw ++ r1.1
    parts_subassembly := s.parts_subassembly ++ r2.1
    G := { s.G with
      partCost := s.G.partCost ++ (r1.1.map Part.cost ++ r2.1.map Part.cost) }
    operations_log := s.operations_log ++ (r1.2.1 ++ r2.2.1)
    rngIx := r2.2.2.2 }

end Factory

/-! ### Topology Builder (`_generate_edges` and friends, lines 536-719) -/

/-- `any(t in pool for t in types)`. -/
def supplies_any (types pool : List String) : Bool :=
  types.any (fun t => pool.contains t)

section Topology

variable (cfg : Cfg) (rng : ℕ → ℚ)

/-- Inner loop of `_connect_suppliers_to_warehouses` (lines 559-565 and
573-579): one transportation-cost draw and one lead-time draw per selected
warehouse, edge plus `create` record. -/
def s2w_edges (supplier_id : String) (ts : ℕ) (ver : String) :
    List Warehouse → ℕ → List Edge × List Op × ℕ
  | [], ix => ([], [], ix)
  | w :: ws, ix =>
      let e : Edge :=
        { source_id := supplier_id, target_id := w.id,
          transportation_cost := some (pyuniform cfg.TRANSPORTATION_COST_lo
            cfg.TRANSPORTATION_COST_hi (rng ix)),
          lead_time := some (pyuniform cfg.TRANSPORTATION_TIME_lo
            cfg.TRANSPORTATION_TIME_hi (rng (ix + 1))) }
      let r := s2w_edges supplier_id ts ver ws (ix + 2)
      (e :: r.1,
       mk_edge_op "create" supplier_id w.id
         [("transportation_cost", .q (e.transportation_cost.getD 0)),
          ("lead_time", .q (e.lead_time.getD 0))] "SUPPLIERS_WAREHOUSE" ts ver
         :: r.2.1,
       r.2.2)

/-- Pass 1, `_connect_suppliers_to_warehouses` (lines 548-579): for each
supplier, each matching warehouse pool is sampled with the size clamped by
`min(max_connections, len(pool))`. -/
def connect_suppliers_go : List Supplier → St → Except String St
  | [], s => .ok s
  | sup :: rest, s =>
      let max_connections :=
        (cfg.SUPPLIER_SIZES sup.size_category).max_connections
      let step1 : Except String St :=
        if supplies_any sup.supplied_part_types cfg.PART_TYPES_raw then
          let possible := s.warehouses_supplier
          match pysample possible (min max_connections possible.length) with
          | .error e => .error e
          | .ok sel =>
              let r := s2w_edges cfg rng sup.id s.timestamp s.version sel s.rngIx
              .ok { s with
                G := { s.G with edges := s.G.edges ++ r.1 }
                operations_log := s.operations_log ++ r.2.1
                rngIx := r.2.2 }
        else .ok s
      match step1 with
      | .error e => .error e
      | .ok s1 =>
          let step2 : Except String St :=
            if supplies_any sup.supplied_part_types cfg.PART_TYPES_subassembly
            then
              let possible := s1.warehouses_subassembly
              match pysample possible (min max_connections possible.length) with
              | .error e => .error e
              | .ok sel =>
                  let r := s2w_edges cfg rng sup.id s1.timestamp s1.version sel
                      s1.rngIx
                  .ok { s1 with
                    G := { s1.G with edges := s1.G.edges ++ r.1 }
                    operations_log := s1.operations_log ++ r.2.1
                    rngIx := r.2.2 }
            else .ok s1
          match step2 with
          | .error e => .error e
          | .ok s2 => connect_suppliers_go rest s2

/-- `_connect_suppliers_to_warehouses`. -/
def connect_suppliers_to_warehouses (s : St) : Except String St :=
  connect_suppliers_go cfg rng s.suppliers s

/-- Inner loop of `_connect_warehouses_to_parts` (lines 594-616).  Per
selected part: one inventory draw; `min(draw, max_capacity - accumulated)`;
skip when that is `≤ 0`; otherwise one storage-cost draw, the edge with its
`create` record, and an `update` record for the warehouse's new running
`current_capacity`. -/
def w2p_loop (whid : String) (available_capacity : ℤ) (ts : ℕ) (ver : String) :
    List Part → ℤ → ℕ → List Edge × List Op × ℤ × ℕ
  | [], cur, ix => ([], [], cur, ix)
  | p :: ps, cur, ix =>
      let draw := pyrandint cfg.INVENTORY_lo cfg.INVENTORY_hi (rng ix)
      let max_possible_inventory := min draw (available_capacity - cur)
      if max_possible_inventory ≤ 0 then
        w2p_loop whid available_capacity ts ver ps cur (ix + 1)
      else
        let inventory_level := max_possible_inventory
        let cur2 := cur + inventory_level
        let sc := pyuniform cfg.COST_lo cfg.COST_hi (rng (ix + 1))
        let e : Edge :=
          { source_id := whid, target_id := p.id,
            inventory_level := some (inventory_level : ℚ),
            storage_cost := some sc }
        let r := w2p_loop whid available_capacity ts ver ps cur2 (ix + 2)
        (e :: r.1,
         mk_edge_op "create" whid p.id
             [("inventory_level", .q (inventory_level : ℚ)),
              ("storage_cost", .q sc)] "WAREHOUSE_PARTS" ts ver
           :: mk_node_op "update" whid "WAREHOUSE"
             [("current_capacity", .q (cur2 : ℚ))] ts ver
           :: r.2.1,
         r.2.2)

/-- Pass 2, `_connect_warehouses_to_parts` (lines 581-616): the candidate
sample size is clamped by `min(max_parts, len(pool))`; the graph node's
`current_capacity` ends at the accumulated inventory (it is only written when
a part is actually added). -/
def connect_warehouses_go : List (ℕ × Warehouse) → St → Except String St
  | [], s => .ok s
  | (i, w) :: rest, s =>
      let possible := if w.wtype = "supplier" then s.parts_raw
        else s.parts_subassembly
      match pysample possible (min w.max_parts possible.length) with
      | .error e => .error e
      | .ok selected =>
          let r := w2p_loop cfg rng w.id w.max_capacity s.timestamp s.version
              selected 0 s.rngIx
          connect_warehouses_go rest
            { s with
              G := { s.G with
                edges := s.G.edges ++ r.1
                whCap := if r.1.isEmpty then s.G.whCap
                  else s.G.whCap.set i ((r.2.2.1 : ℚ)) }
              operations_log := s.operations_log ++ r.2.1
              rngIx := r.2.2.2 }

/-- `_connect_warehouses_to_parts`, iterating the flattened warehouse list
with its positional index into `whCap`. -/
def connect_warehouses_to_parts (s : St) : Except String St :=
  connect_warehouses_go cfg rng s.warehouses_all.enum s

/-- Part→facility edges of pass 3 (lines 626-634 and 657-665): four draws
per part (quantity, distance, transport cost, lead time). -/
def p2f_edges (fid : String) (ts : ℕ) (ver : String) :
    List Part → ℕ → List Edge × List Op × ℕ
  | [], ix => ([], [], ix)
  | p :: ps, ix =>
      let q := pyrandint cfg.QUANTITY_lo cfg.QUANTITY_hi (rng ix)
      let dist := pyrandint cfg.DISTANCE_lo cfg.DISTANCE_hi (rng (ix + 1))
      let tc := pyuniform cfg.TRANSPORTATION_COST_lo cfg.TRANSPORTATION_COST_hi
          (rng (ix + 2))
      let lt := pyuniform cfg.TRANSPORTATION_TIME_lo cfg.TRANSPORTATION_TIME_hi
          (rng (ix + 3))
      let e : Edge :=
        { source_id := p.id, target_id := fid,
          quantity := some q, distance := some dist, transport_cost := some tc,
          lead_time := some lt }
      let r := p2f_edges fid ts ver ps (ix + 4)
      (e :: r.1,
       mk_edge_op "create" p.id fid
           [("quantity", .i q), ("distance", .i dist), ("transport_cost", .q tc),
            ("lead_time", .q lt)] "PARTS_FACILITY" ts ver :: r.2.1,
       r.2.2)

/-- Facility→part edges of pass 3 (lines 636-648): three draws per part
(production cost, lead time, quantity). -/
def f2p_edges (fid : String) (ts : ℕ) (ver : String) :
    List Part → ℕ → List Edge × List Op × ℕ
  | [], ix => ([], [], ix)
  | p :: ps, ix =>
      let pc := pyuniform cfg.COST_lo cfg.COST_hi (rng ix)
      let lt := pyuniform cfg.TRANSPORTATION_TIME_lo cfg.TRANSPORTATION_TIME_hi
          (rng (ix + 1))
      let q := pyrandint cfg.QUANTITY_lo cfg.QUANTITY_hi (rng (ix + 2))
      let e : Edge :=
        { source_id := fid, target_id := p.id,
          production_cost := some pc, lead_time := some lt, quantity := some q }
      let r := f2p_edges fid ts ver ps (ix + 3)
      (e :: r.1,
       mk_edge_op "create" fid p.id
           [("production_cost", .q pc), ("lead_time", .q lt), ("quantity", .i q)]
           "FACILITY_PARTS" ts ver :: r.2.1,
       r.2.2)

/-- The external-facility loop of pass 3 (lines 620-648): the sample sizes
`randint(2, max(3, len(raw)//2))` and `randint(1, 3)` are *not* clamped to
the population, so `random.sample` can fail. -/
def cptf_external : List Facility → St → Except String St
  | [], s => .ok s
  | f :: fs, s =>
      let k1 := pyrandint 2 (max 3 ((s.parts_raw.length : ℤ) / 2)) (rng s.rngIx)
      match pysample s.parts_raw k1.toNat with
      | .error e => .error e
      | .ok raw_parts =>
          let r1 := p2f_edges cfg rng f.id s.timestamp s.version raw_parts
              (s.rngIx + 1)
          let k2 := pyrandint 1 3 (rng r1.2.2)
          match pysample s.parts_subassembly k2.toNat with
          | .error e => .error e
          | .ok subassembly_parts =>
              let r2 := f2p_edges cfg rng f.id s.timestamp s.version
                  subassembly_parts (r1.2.2 + 1)
              cptf_external fs
                { s with
                  G := { s.G with edges := s.G.edges ++ (r1.1 ++ r2.1) }
                  operations_log := s.operations_log ++ (r1.2.1 ++ r2.2.1)
                  rngIx := r2.2.2 }

/-- The LAM-facility loop of pass 3 (lines 651-665): again an unclamped
sample size `randint(2, max(3, len(sub)//2))`. -/
def cptf_lam : List Facility → St → Except String St
  | [], s => .ok s
  | f :: fs, s =>
      let k := pyrandint 2 (max 3 ((s.parts_subassembly.length : ℤ) / 2))
          (rng s.rngIx)
      match pysample s.parts_subassembly k.toNat with
      | .error e => .error e
      | .ok subassembly_parts =>
          let r := p2f_edges cfg rng f.id s.timestamp s.version subassembly_parts
              (s.rngIx + 1)
          cptf_lam fs
            { s with
              G := { s.G with edges := s.G.edges ++ r.1 }
              operations_log := s.operations_log ++ r.2.1
              rngIx := r.2.2 }

/-- Pass 3, `_connect_parts_to_facilities` (lines 618-665). -/
def connect_parts_to_facilities (s : St) : Except String St :=
  match cptf_external cfg rng s.facilities_external s with
  | .error e => .error e
  | .ok s1 => cptf_lam cfg rng s1.facilities_lam s1

/-- The storage edges of pass 4 (lines 684-691): each produced offering is
connected to every LAM warehouse (two draws per warehouse). -/
def o2w_edges (pid : String) (ts : ℕ) (ver : String) :
    List Warehouse → ℕ → List Edge × List Op × ℕ
  | [], ix => ([], [], ix)
  | w :: ws, ix =>
      let inv := pyrandint cfg.INVENTORY_lo cfg.INVENTORY_hi (rng ix)
      let sc := pyuniform cfg.COST_lo cfg.COST_hi (rng (ix + 1))
      let e : Edge :=
        { source_id := pid, target_id := w.id,
          inventory_level := some (inv : ℚ), storage_cost := some sc }
      let r := o2w_edges pid ts ver ws (ix + 2)
      (e :: r.1,
       mk_edge_op "create" pid w.id
           [("inventory_level", .q (inv : ℚ)), ("storage_cost", .q sc)]
           "PRODUCT_OFFERING_WAREHOUSE" ts ver :: r.2.1,
       r.2.2)

/-- The product loop of pass 4 (lines 671-691): three draws per offering,
then the storage edges to every LAM warehouse. -/
def f2o_edges (fid : String) (whs_lam : List Warehouse) (ts : ℕ) (ver : String) :
    List Offering → ℕ → List Edge × List Op × ℕ
  | [], ix => ([], [], ix)
  | o :: os, ix =>
      let pc := pyuniform cfg.COST_lo cfg.COST_hi (rng ix)
      let lt := pyuniform cfg.TRANSPORTATION_TIME_lo cfg.TRANSPORTATION_TIME_hi
          (rng (ix + 1))
      let q := pyrandint cfg.QUANTITY_lo cfg.QUANTITY_hi (rng (ix + 2))
      let e : Edge :=
        { source_id := fid, target_id := o.id,
          product_cost := some pc, lead_time := some lt, quantity := some q }
      let rw := o2w_edges cfg rng o.id ts ver whs_lam (ix + 3)
      let r := f2o_edges fid whs_lam ts ver os rw.2.2
      (e :: (rw.1 ++ r.1),
       mk_edge_op "create" fid o.id
           [("product_cost", .q pc), ("lead_time", .q lt), ("quantity", .i q)]
           "FACILITY_PRODUCT_OFFERING" ts ver :: (rw.2.1 ++ r.2.1),
       r.2.2)

/-- Pass 4, `_connect_facilities_to_products` (lines 667-691): the sample
size `randint(2, max(3, len(offerings)//2))` is not clamped either, but the
offering catalog is fixed. -/
def cfp_go : List Facility → St → Except String St
  | [], s => .ok s
  | f :: fs, s =>
      let k := pyrandint 2 (max 3 ((s.product_offerings.length : ℤ) / 2))
          (rng s.rngIx)
      match pysample s.product_offerings k.toNat with
      | .error e => .error e
      | .ok products =>
          let r := f2o_edges cfg rng f.id s.warehouses_lam s.timestamp s.version
              products (s.rngIx + 1)
          cfp_go fs
            { s with
              G := { s.G with edges := s.G.edges ++ r.1 }
              operations_log := s.operations_log ++ r.2.1
              rngIx := r.2.2 }

/-- `_connect_facilities_to_products`. -/
def connect_facilities_to_products (s : St) : Except String St :=
  cfp_go cfg rng s.facilities_lam s

/-- Pass 5, `_connect_hierarchy` (lines 693-708): no sampling, no draws; a
family name missing from the catalog would raise `KeyError` in Python at
line 704 — the model returns the empty offering list there (families always
come from the catalog). -/
def connect_hierarchy (s : St) : St :=
  let bg_edges := s.product_families.map (fun pf =>
    ({ source_id := "BG_001", target_id := pf.id, hierarchy := true } : Edge))
  let bg_ops := s.product_families.map (fun pf =>
    mk_edge_op "create" "BG_001" pf.id [] "BUSINESS_GROUP_PROUDUCT_FAMILY"
      s.timestamp s.version)
  let fam_edges := s.product_families.flatMap (fun pf =>
    (s.product_offerings.filter (fun po =>
        ((cfg.PRODUCT_OFFERINGS pf.name).getD []).contains po.name)).map
      (fun po =>
        ({ source_id := pf.id, target_id := po.id,
           hierarchy := true } : Edge)))
  let fam_ops := s.product_families.flatMap (fun pf =>
    (s.product_offerings.filter (fun po =>
        ((cfg.PRODUCT_OFFERINGS pf.name).getD []).contains po.name)).map
      (fun po => mk_edge_op "create" pf.id po.id []
        "PRODUCT_FAMILY_PRODUCT_OFFERING" s.timestamp s.version))
  { s with
    G := { s.G with edges := s.G.edges ++ (bg_edges ++ fam_edges) }
    operations_log := s.operations_log ++ (bg_ops ++ fam_ops) }

/-- `_generate_edges` (lines 536-546): the five ordered wiring passes. -/
def generate_edges (s : St) : Except String St :=
  match connect_suppliers_to_warehouses cfg rng s with
  | .error e => .error e
  | .ok s1 =>
      match connect_warehouses_to_parts cfg rng s1 with
      | .error e => .error e
      | .ok s2 =>
          match connect_parts_to_facilities cfg rng s2 with
          | .error e => .error e
          | .ok s3 =>
              match connect_facilities_to_products cfg rng s3 with
              | .error e => .error e
              | .ok s4 => .ok (connect_hierarchy cfg s4)

/-- The facility loop of `_calculate_distances` for one warehouse: one draw
per facility, a nested dict assignment, and no log record. -/
def cd_loop (wloc : String) :
    List Facility → List (String × ℤ) → ℕ → List (String × ℤ) × ℕ
  | [], acc, ix => (acc, ix)
  | f :: fs, acc, ix =>
      let d := if wloc = f.location then pyrandint 10 50 (rng ix)
        else pyrandint cfg.DISTANCE_lo cfg.DISTANCE_hi (rng ix)
      cd_loop wloc fs (dictSet acc f.id d) (ix + 1)

/-- `_calculate_distances` (lines 710-719): mutates the per-warehouse
`distances` node attribute and appends nothing to the log. -/
def calculate_distances_go : List (ℕ × Warehouse) → St → St
  | [], s => s
  | (i, w) :: rest, s =>
      let r := cd_loop cfg rng w.location s.facilities_all
          (s.G.whDistances.getD i []) s.rngIx
      calculate_distances_go rest
        { s with
          G := { s.G with whDistances := s.G.whDistances.set i r.1 }
          rngIx := r.2 }

/-- `_calculate_distances`. -/
def calculate_distances (s : St) : St :=
  calculate_distances_go cfg rng s.warehouses_all.enum s

/-- `generate_data` (lines 232-256): factories, wiring, distances, then the
full temporal pass.  (The final `self.data` aggregate is a read-only view of
the entity lists and needs no separate state.) -/
def generate_data (s : St) : Except String St :=
  let s1 := generate_business_hierarchy cfg rng s
  match generate_suppliers cfg rng s1 with
  | .error e => .error e
  | .ok s2 =>
      let s3 := generate_warehouses cfg rng s2
      let s4 := generate_facilities cfg rng s3
      let s5 := generate_parts cfg rng s4
      match generate_edges cfg rng s5 with
      | .error e => .error e
      | .ok s6 =>
          let s7 := calculate_distances cfg rng s6
          .ok (generate_temporal_data cfg rng s7)

end Topology

/-- `SupplyChainGenerator.__init__(total_variable_nodes, base_periods,
version)`: empty stores, period 0, timestamp 0, the draw stream at its
start.  (`self.business_group` is `None` until the hierarchy factory runs;
the placeholder record stands for that.) -/
def SupplyChainGenerator_init (total_variable_nodes base_periods : ℕ)
    (version : String) : St :=
  { total_variable_nodes := total_variable_nodes
    base_periods := base_periods
    current_period := 0
    business_group := ⟨"", "", "", 0⟩
    product_families := []
    product_offerings := []
    suppliers := []
    warehouses_supplier := []
    warehouses_subassembly := []
    warehouses_lam := []
    facilities_external := []
    facilities_lam := []
    parts_raw := []
    parts_subassembly := []
    G := ⟨0, [], [], [], [], [], [], [], []⟩
    temporal_graphs := []
    temporal_data := []
    operations_log := []
    timestamp := 0
    version := version
    rngIx := 0 }

/-! ### Unfolding lemmas for the full-regeneration pass -/

section EngineLemmas

variable (cfg : Cfg) (rng : ℕ → ℚ)

/-- The results of periods `1..m` of `generate_temporal_data`, with the draw
position threaded from period to period, together with the final position.
Its inputs are only the creation-time entity dicts, the period-0 graph `g0`,
and the counters — no later snapshot. -/
def genTD_chain (bg : BG) (fams : List Family) (offs : List Offering)
    (whs : List Warehouse) (sups : List Supplier) (parts : List Part)
    (g0 : Graph) (ver : String) (ts0 ix0 : ℕ) :
    ℕ → List (ℕ × PeriodRes) × ℕ
  | 0 => ([], ix0)
  | m + 1 =>
      let r := genTD_chain bg fams offs whs sups parts g0 ver ts0 ix0 m
      let p := genTD_period cfg rng bg fams offs whs sups parts g0 (m + 1)
          (ts0 + (m + 1)) ver r.2
      (r.1 ++ [(m + 1, p)], p.ix)

/-- The chain of a state: periods `1 .. base_periods - 1` from the state's
creation-time entity dicts and its current graph. -/
def St.chain (s : St) : List (ℕ × PeriodRes) × ℕ :=
  genTD_chain cfg rng s.business_group s.product_families s.product_offerings
    s.warehouses_all s.suppliers s.parts_all s.G s.version s.timestamp s.rngIx
    (s.base_periods - 1)

/-- Closed form of `generate_temporal_data`: the loop stores, for each
`t ∈ 1..base_periods-1`, exactly the `genTD_period` result computed from the
period-0 baseline, appends every period's records to the log in order, and
advances the timestamp once per period. -/
theorem generate_temporal_data_spec (s : St) :
    generate_temporal_data cfg rng s =
      { s with
        temporal_graphs := (St.chain cfg rng s).1.foldl
          (fun d tp => dictSet d tp.1 tp.2.graph)
          (dictSet s.temporal_graphs 0 s.G)
        temporal_data := (St.chain cfg rng s).1.foldl
          (fun d tp => dictSet d tp.1 tp.2.pd) s.temporal_data
        operations_log := s.operations_log
          ++ (St.chain cfg rng s).1.flatMap (fun tp => tp.2.ops)
        timestamp := s.timestamp + (s.base_periods - 1)
        rngIx := (St.chain cfg rng s).2 } := by
  unfold generate_temporal_data St.chain
  generalize s.base_periods - 1 = m
  induction m with
  | zero => simp [genTD_chain]
  | succ m ih =>
      rw [List.range'_1_concat, List.foldl_append, ih]
      simp only [genTD_chain, List.foldl_cons, List.foldl_nil, List.foldl_append,
        List.flatMap_append, List.flatMap_cons, List.flatMap_nil,
        List.append_nil, List.append_assoc]
      have h1m : 1 + m = m + 1 := Nat.add_comm 1 m
      rw [h1m]
      rfl

/-- Folding `dictSet` over pairs none of whose keys is `k` leaves the entry
at `k` unchanged. -/
theorem dictGet_foldl_notmem {α β : Type} (g : β → α) (f : β → ℕ)
    (L : List β) (d0 : List (ℕ × α)) (k : ℕ) (h : ∀ p ∈ L, f p ≠ k) :
    dictGet (L.foldl (fun d tp => dictSet d (f tp) (g tp)) d0) k
      = dictGet d0 k := by
  induction L generalizing d0 with
  | nil => rfl
  | cons a L ih =>
      simp only [List.foldl_cons]
      rw [ih _ (fun p hp => h p (List.mem_cons_of_mem a hp)),
        dictGet_dictSet_ne _ _ _ _ (fun hk => h a (List.mem_cons_self a L) hk.symm)]

/-- Folding `dictSet` over pairs with pairwise-distinct keys stores each
pair's value at its key. -/
theorem dictGet_foldl_mem {α β : Type} (g : β → α) (f : β → ℕ)
    (L : List β) (d0 : List (ℕ × α)) (b : β)
    (hnd : (L.map f).Nodup) (hmem : b ∈ L) :
    dictGet (L.foldl (fun d tp => dictSet d (f tp) (g tp)) d0) (f b)
      = some (g b) := by
  induction L generalizing d0 with
  | nil => cases hmem
  | cons a L ih =>
      simp only [List.map_cons, List.nodup_cons] at hnd
      rcases List.mem_cons.mp hmem with h | h
      · subst h
        simp only [List.foldl_cons]
        rw [dictGet_foldl_notmem g f L _ (f b)
          (fun p hp hk => hnd.1 (hk ▸ List.mem_map_of_mem f hp)),
          dictGet_dictSet_self]
      · simp only [List.foldl_cons]
        exact ih _ hnd.2 h

/-- The keys of `genTD_chain … m` are exactly `1..m` in order. -/
theorem genTD_chain_keys (bg : BG) (fams : List Family) (offs : List Offering)
    (whs : List Warehouse) (sups : List Supplier) (parts : List Part)
    (g0 : Graph) (ver : String) (ts0 ix0 : ℕ) (m : ℕ) :
    (genTD_chain cfg rng bg fams offs whs sups parts g0 ver ts0 ix0 m).1.map
        Prod.fst = List.range' 1 m := by
  induction m with
  | zero => rfl
  | succ m ih =>
      rw [List.range'_1_concat, Nat.add_comm 1 m]
      simp only [genTD_chain, List.map_append, ih, List.map_cons, List.map_nil]

/-- Period `t` (for `1 ≤ t ≤ m`) appears in the chain, carrying the period
result computed at the draw position reached after periods `1..t-1`. -/
theorem genTD_chain_mem (bg : BG) (fams : List Family) (offs : List Offering)
    (whs : List Warehouse) (sups : List Supplier) (parts : List Part)
    (g0 : Graph) (ver : String) (ts0 ix0 : ℕ) (m t : ℕ)
    (h1 : 1 ≤ t) (h2 : t ≤ m) :
    (t, genTD_period cfg rng bg fams offs whs sups parts g0 t (ts0 + t) ver
        (genTD_chain cfg rng bg fams offs whs sups parts g0 ver ts0 ix0
          (t - 1)).2)
      ∈ (genTD_chain cfg rng bg fams offs whs sups parts g0 ver ts0 ix0 m).1 := by
  induction m with
  | zero => omega
  | succ m ih =>
      rcases Nat.lt_or_ge t (m + 1) with hc | hc
      · exact List.mem_append_left _ (ih (by omega))
      · have ht : t = m + 1 := by omega
        subst ht
        refine List.mem_append_right _ ?_
        simp [genTD_chain]

/-- Families consume one draw each. -/
theorem upd_families_log_ix (t ts : ℕ) (ver : String) (fams : List Family)
    (ix : ℕ) :
    (upd_families_log cfg rng t ts ver fams ix).ix = ix + fams.length := by
  induction fams generalizing ix with
  | nil => rfl
  | cons f fs ih => simp only [upd_families_log, ih, List.length_cons]; omega

/-- Offerings consume two draws each. -/
theorem upd_offerings_log_ix (t ts : ℕ) (ver : String) (offs : List Offering)
    (ix : ℕ) :
    (upd_offerings_log cfg rng t ts ver offs ix).ix = ix + 2 * offs.length := by
  induction offs generalizing ix with
  | nil => rfl
  | cons o os ih => simp only [upd_offerings_log, ih, List.length_cons]; omega

/-- The warehouse block recomputes entry `i` from the `i`-th warehouse
*dict*'s `current_capacity` with the `i`-th draw of the block. -/
theorem upd_warehouses_log_get (t ts : ℕ) (ver : String)
    (whs : List Warehouse) (ix i : ℕ) (w : Warehouse)
    (hw : whs.get? i = some w) :
    (upd_warehouses_log cfg rng t ts ver whs ix).values.get? i
      = some (generate_temporal_value cfg rng w.current_capacity "capacity" t
          (ix + i)) := by
  induction whs generalizing ix i with
  | nil => cases hw
  | cons a ws ih =>
      cases i with
      | zero =>
          simp only [List.get?_cons_zero, Option.some.injEq] at hw
          subst hw
          rfl
      | succ i =>
          simp only [List.get?_cons_succ] at hw
          simp only [upd_warehouses_log, List.get?_cons_succ]
          rw [ih _ _ hw]
          congr 2
          omega

/-- The business-group revenue of a period snapshot is the formula applied to
the business-group dict's revenue with the first draw of the period. -/
theorem genTD_period_bgRevenue (bg : BG) (fams : List Family)
    (offs : List Offering) (whs : List Warehouse) (sups : List Supplier)
    (parts : List Part) (g0 : Graph) (t ts : ℕ) (ver : String) (ix : ℕ) :
    (genTD_period cfg rng bg fams offs whs sups parts g0 t ts ver ix).graph.bgRevenue
      = generate_temporal_value cfg rng bg.revenue "revenue" t ix := rfl

/-- The warehouse capacities of a period snapshot are exactly the warehouse
block applied to the warehouse dicts, starting after the business-group,
family and offering draws. -/
theorem genTD_period_whCap (bg : BG) (fams : List Family)
    (offs : List Offering) (whs : List Warehouse) (sups : List Supplier)
    (parts : List Part) (g0 : Graph) (t ts : ℕ) (ver : String) (ix : ℕ) :
    (genTD_period cfg rng bg fams offs whs sups parts g0 t ts ver ix).graph.whCap
      = (upd_warehouses_log cfg rng t ts ver whs
          (ix + 1 + fams.length + 2 * offs.length)).values := by
  unfold genTD_period
  simp only
  rw [upd_families_log_ix, upd_offerings_log_ix]

end EngineLemmas

/-! ### Claim C1 -/

/-- C1: for every base value `b`, feature tag `f` and period `t ≥ 0`,
`_generate_temporal_value(b, f, t)` returns
`b * (1 + trend(f)*t) * s(f,t) * (1 + u)` where
`s(f,t) = 1 + 0.15*sin(2π(t-3)/12)` exactly when `f ∈ {demand, cost}` and `1`
otherwise, `u = uniform(-maxChange(f), +maxChange(f))` is the next raw draw,
a feature tag absent from `TEMPORAL_VARIATION` uses the defaults
`maxChange = 0.1, trend = 0`, and a feature configured with `trend = 0` and
`maxChange = 0` yields `b * s(f,t)` exactly, for all `t`. -/
theorem C1_generate_temporal_value_formula (cfg : Cfg) (rng : ℕ → ℚ) (b : ℚ)
    (f : String) (t : ℕ) (ix : ℕ) :
    generate_temporal_value cfg rng b f t ix
      = b * (1 + (tv_config cfg f).trend * (t : ℚ)) * seasonal_factor cfg f t
          * (1 + pyuniform (-(tv_config cfg f).max_change)
                  (tv_config cfg f).max_change (rng ix))
    ∧ ((f = "demand" ∨ f = "cost") →
        seasonal_factor cfg f t = 1 + 0.15 * cfg.sin_seasonal t)
    ∧ (¬(f = "demand" ∨ f = "cost") → seasonal_factor cfg f t = 1)
    ∧ (cfg.TEMPORAL_VARIATION f = none →
        tv_config cfg f = ⟨0.1, 0⟩)
    ∧ (cfg.TEMPORAL_VARIATION f = some ⟨0, 0⟩ →
        generate_temporal_value cfg rng b f t ix = b * seasonal_factor cfg f t) := by
  refine ⟨rfl, fun h => by simp [seasonal_factor, h], fun h => by simp [seasonal_factor, h],
    fun h => by simp [tv_config, h], fun h => ?_⟩
  unfold generate_temporal_value
  simp only [tv_config, h, Option.getD_some]
  unfold pyuniform
  ring

/-- A concrete configuration used to instantiate hypothesis-bearing theorems
on explicit inputs.  Its temporal table configures `"cost"` with
`trend = 0, maxChange = 0` and leaves every other feature to the defaults. -/
def cfgW : Cfg where
  TEMPORAL_VARIATION := fun f => if f = "cost" then some ⟨0, 0⟩ else none
  sin_seasonal := fun _ => 1/2
  BASE_DATE := 0
  PART_VALIDITY_lo := 1
  PART_VALIDITY_hi := 12
  COST_lo := 100
  COST_hi := 10000
  DEMAND_lo := 10
  DEMAND_hi := 200
  INVENTORY_lo := 50
  INVENTORY_hi := 1000
  CAPACITY_lo := 1000
  CAPACITY_hi := 10000
  RELIABILITY_lo := 0.6
  RELIABILITY_hi := 0.99
  IMPORTANCE_FACTOR_lo := 0.1
  IMPORTANCE_FACTOR_hi := 1
  QUANTITY_lo := 1
  QUANTITY_hi := 20
  DISTANCE_lo := 10
  DISTANCE_hi := 1000
  TRANSPORTATION_COST_lo := 10
  TRANSPORTATION_COST_hi := 1000
  TRANSPORTATION_TIME_lo := 1
  TRANSPORTATION_TIME_hi := 30
  LOCATIONS := ["California"]
  PART_TYPES_raw := ["metal"]
  PART_TYPES_subassembly := ["module"]
  SUPPLIER_SIZES := fun _ => ⟨100, 300, 2⟩
  WAREHOUSE_SIZES := fun _ => ⟨1000, 3000, 5⟩
  BUSINESS_GROUP := "Etch"
  PRODUCT_FAMILIES := ["Kyo"]
  PRODUCT_OFFERINGS := fun _ => none

/-- A concrete valid draw stream (constantly `1/3`). -/
def rngW : ℕ → ℚ := fun _ => 1/3

/-- Concrete instantiation of `C1_generate_temporal_value_formula`: under
`cfgW`, the feature `"cost"` (configured `trend = 0, maxChange = 0`) produces
exactly `base * seasonal_factor`, and the feature `"revenue"` (absent from
the table) gets the default `maxChange = 0.1, trend = 0`. -/
theorem C1_witness :
    generate_temporal_value cfgW rngW 8 "cost" 5 0 = 8 * (1 + 0.15 * (1/2 : ℚ))
    ∧ tv_config cfgW "revenue" = ⟨0.1, 0⟩ := by
  constructor
  · have h := (C1_generate_temporal_value_formula cfgW rngW 8 "cost" 5 0).2.2.2.2
      (by decide)
    have hs := (C1_generate_temporal_value_formula cfgW rngW 8 "cost" 5 0).2.1
      (by decide)
    rw [h, hs]
    norm_num [cfgW]
  · exact (C1_generate_temporal_value_formula cfgW rngW 8 "revenue" 5 0).2.2.2.1
      (by decide)

/-! ### Claim C4 -/

/-- C4: `calculate_node_distribution` is deterministic pure integer
truncation.  Every sub-category count is `⌊total * ratio⌋` of its parent
count, every count is non-negative, no rebalancing happens when truncation
loses nodes (witnessed at 1000, where the supplier sub-categories sum to 149
against a parent count of 150), and `total_variable_nodes = 1000` yields
exactly parts 500 (raw 300 / subassembly 200), suppliers 150 (60/52/37),
warehouses 200 (80/70/50), facilities 150 (90/60). -/
theorem C4_calculate_node_distribution (n : ℕ) :
    (calculate_node_distribution n).parts = ⌊(n : ℚ) * 0.50⌋
    ∧ (calculate_node_distribution n).suppliers = ⌊(n : ℚ) * 0.15⌋
    ∧ (calculate_node_distribution n).warehouses = ⌊(n : ℚ) * 0.20⌋
    ∧ (calculate_node_distribution n).facilities = ⌊(n : ℚ) * 0.15⌋
    ∧ (calculate_node_distribution n).raw
        = ⌊((calculate_node_distribution n).parts : ℚ) * 0.6⌋
    ∧ (calculate_node_distribution n).subassembly
        = ⌊((calculate_node_distribution n).parts : ℚ) * 0.4⌋
    ∧ (calculate_node_distribution n).small
        = ⌊((calculate_node_distribution n).suppliers : ℚ) * 0.4⌋
    ∧ (calculate_node_distribution n).medium
        = ⌊((calculate_node_distribution n).suppliers : ℚ) * 0.35⌋
    ∧ (calculate_node_distribution n).large
        = ⌊((calculate_node_distribution n).suppliers : ℚ) * 0.25⌋
    ∧ (calculate_node_distribution n).wh_supplier
        = ⌊((calculate_node_distribution n).warehouses : ℚ) * 0.4⌋
    ∧ (calculate_node_distribution n).wh_subassembly
        = ⌊((calculate_node_distribution n).warehouses : ℚ) * 0.35⌋
    ∧ (calculate_node_distribution n).wh_lam
        = ⌊((calculate_node_distribution n).warehouses : ℚ) * 0.25⌋
    ∧ (calculate_node_distribution n).external
        = ⌊((calculate_node_distribution n).facilities : ℚ) * 0.6⌋
    ∧ (calculate_node_distribution n).lam
        = ⌊((calculate_node_distribution n).facilities : ℚ) * 0.4⌋
    ∧ (0 ≤ (calculate_node_distribution n).parts
        ∧ 0 ≤ (calculate_node_distribution n).suppliers
        ∧ 0 ≤ (calculate_node_distribution n).warehouses
        ∧ 0 ≤ (calculate_node_distribution n).facilities
        ∧ 0 ≤ (calculate_node_distribution n).raw
        ∧ 0 ≤ (calculate_node_distribution n).subassembly
        ∧ 0 ≤ (calculate_node_distribution n).small
        ∧ 0 ≤ (calculate_node_distribution n).medium
        ∧ 0 ≤ (calculate_node_distribution n).large
        ∧ 0 ≤ (calculate_node_distribution n).wh_supplier
        ∧ 0 ≤ (calculate_node_distribution n).wh_subassembly
        ∧ 0 ≤ (calculate_node_distribution n).wh_lam
        ∧ 0 ≤ (calculate_node_distribution n).external
        ∧ 0 ≤ (calculate_node_distribution n).lam)
    ∧ calculate_node_distribution 1000
        = ⟨500, 150, 200, 150, 300, 200, 60, 52, 37, 80, 70, 50, 90, 60⟩
    ∧ (calculate_node_distribution 1000).small
        + (calculate_node_distribution 1000).medium
        + (calculate_node_distribution 1000).large
        ≠ (calculate_node_distribution 1000).suppliers := by
  have hfl : ∀ (x c : ℚ), 0 ≤ x → 0 ≤ c → (0 : ℤ) ≤ ⌊x * c⌋ :=
    fun x c hx hc => Int.floor_nonneg.mpr (mul_nonneg hx hc)
  have hn : (0 : ℚ) ≤ (n : ℚ) := Nat.cast_nonneg n
  refine ⟨rfl, rfl, rfl, rfl, rfl, rfl, rfl, rfl, rfl, rfl, rfl, rfl, rfl, rfl,
    ?_, by simp only [calculate_node_distribution, NodeDist.mk.injEq]; norm_num,
    by simp only [calculate_node_distribution]; norm_num⟩
  have hparts : (0 : ℤ) ≤ (calculate_node_distribution n).parts := hfl _ _ hn (by norm_num)
  have hsup : (0 : ℤ) ≤ (calculate_node_distribution n).suppliers := hfl _ _ hn (by norm_num)
  have hwh : (0 : ℤ) ≤ (calculate_node_distribution n).warehouses := hfl _ _ hn (by norm_num)
  have hfac : (0 : ℤ) ≤ (calculate_node_distribution n).facilities := hfl _ _ hn (by norm_num)
  have cast_nn : ∀ k : ℤ, 0 ≤ k → (0 : ℚ) ≤ (k : ℚ) := fun k hk => by exact_mod_cast hk
  exact ⟨hparts, hsup, hwh, hfac,
    hfl _ _ (cast_nn _ hparts) (by norm_num), hfl _ _ (cast_nn _ hparts) (by norm_num),
    hfl _ _ (cast_nn _ hsup) (by norm_num), hfl _ _ (cast_nn _ hsup) (by norm_num),
    hfl _ _ (cast_nn _ hsup) (by norm_num),
    hfl _ _ (cast_nn _ hwh) (by norm_num), hfl _ _ (cast_nn _ hwh) (by norm_num),
    hfl _ _ (cast_nn _ hwh) (by norm_num),
    hfl _ _ (cast_nn _ hfac) (by norm_num), hfl _ _ (cast_nn _ hfac) (by norm_num)⟩

/-! ### Claim C2 -/

/-- The draw position at which period `t` of the full-regeneration loop
starts (the position reached after periods `1..t-1`). -/
def St.periodStartIx (cfg : Cfg) (rng : ℕ → ℚ) (s : St) (t : ℕ) : ℕ :=
  (genTD_chain cfg rng s.business_group s.product_families s.product_offerings
    s.warehouses_all s.suppliers s.parts_all s.G s.version s.timestamp s.rngIx
    (t - 1)).2

/-- C2 as amended: under full regeneration, a snapshot exists for every
period `0 .. base_periods - 1` (period 0 is the working graph); the period-`t`
snapshot (`t ≥ 1`) is exactly `genTD_period` applied to the creation-time
entity dicts and the period-0 graph — never to the period `t-1` snapshot —
so all periods are computed independently from the period-0 baseline; in
particular the business-group revenue is the formula applied to the
business-group dict's revenue, and each warehouse's `current_capacity` is
the formula applied to the warehouse *dict*'s `current_capacity` (the
creation-time value, which stays `0`), not to the period-0 snapshot's
accumulated node value (see `C2_counterexample` for the divergence the
original claim text misses). -/
theorem C2_full_regeneration_baseline (cfg : Cfg) (rng : ℕ → ℚ) (s : St) :
    dictGet (generate_temporal_data cfg rng s).temporal_graphs 0 = some s.G
    ∧ (∀ t, 1 ≤ t → t ≤ s.base_periods - 1 →
        dictGet (generate_temporal_data cfg rng s).temporal_graphs t
          = some (genTD_period cfg rng s.business_group s.product_families
              s.product_offerings s.warehouses_all s.suppliers s.parts_all s.G
              t (s.timestamp + t) s.version (St.periodStartIx cfg rng s t)).graph)
    ∧ (∀ t g, 1 ≤ t → t ≤ s.base_periods - 1 →
        dictGet (generate_temporal_data cfg rng s).temporal_graphs t = some g →
        g.bgRevenue = generate_temporal_value cfg rng s.business_group.revenue
          "revenue" t (St.periodStartIx cfg rng s t)
        ∧ ∀ i w, s.warehouses_all.get? i = some w →
            g.whCap.get? i = some (generate_temporal_value cfg rng
              w.current_capacity "capacity" t
              (St.periodStartIx cfg rng s t + 1 + s.product_families.length
                + 2 * s.product_offerings.length + i))) := by
  have hkeys := genTD_chain_keys cfg rng s.business_group s.product_families
    s.product_offerings s.warehouses_all s.suppliers s.parts_all s.G s.version
    s.timestamp s.rngIx (s.base_periods - 1)
  have h0 : dictGet (generate_temporal_data cfg rng s).temporal_graphs 0
      = some s.G := by
    rw [generate_temporal_data_spec]
    simp only
    rw [dictGet_foldl_notmem]
    · exact dictGet_dictSet_self _ _ _
    · intro p hp hk
      have : p.1 ∈ (St.chain cfg rng s).1.map Prod.fst :=
        List.mem_map_of_mem Prod.fst hp
      rw [St.chain, hkeys, hk, List.mem_range'_1] at this
      omega
  have hT : ∀ t, 1 ≤ t → t ≤ s.base_periods - 1 →
      dictGet (generate_temporal_data cfg rng s).temporal_graphs t
        = some (genTD_period cfg rng s.business_group s.product_families
            s.product_offerings s.warehouses_all s.suppliers s.parts_all s.G
            t (s.timestamp + t) s.version (St.periodStartIx cfg rng s t)).graph := by
    intro t h1 h2
    rw [generate_temporal_data_spec]
    simp only
    have hmem := genTD_chain_mem cfg rng s.business_group s.product_families
      s.product_offerings s.warehouses_all s.suppliers s.parts_all s.G s.version
      s.timestamp s.rngIx (s.base_periods - 1) t h1 h2
    have hnd : ((St.chain cfg rng s).1.map Prod.fst).Nodup := by
      rw [St.chain, hkeys]; exact List.nodup_range' 1 _
    exact dictGet_foldl_mem (fun tp => tp.2.graph) Prod.fst _ _ _ hnd hmem
  refine ⟨h0, hT, ?_⟩
  intro t g h1 h2 hg
  rw [hT t h1 h2] at hg
  obtain rfl : g = _ := (Option.some.injEq _ _).mp hg.symm
  constructor
  · exact genTD_period_bgRevenue cfg rng _ _ _ _ _ _ _ _ _ _ _
  · intro i w hw
    rw [genTD_period_whCap]
    exact upd_warehouses_log_get cfg rng _ _ _ _ _ _ _ hw

/-- The constant half draw stream (valid: every draw is in `[0,1)`), which
makes every noise factor exactly `1` under default `maxChange`. -/
def rngHalf : ℕ → ℚ := fun _ => 1/2

/-- A state as it stands right after topology construction with one
warehouse: the warehouse dict's `current_capacity` is `0` (wiring never
writes the dict) while the graph node accumulated `100`; two base periods. -/
def cex2 : St :=
  { SupplyChainGenerator_init 0 2 "NSS_V1" with
    warehouses_supplier :=
      [⟨"W_001", "Warehouse_1", "supplier", "California", "small", 200, 0, 50, 5⟩]
    G := ⟨0, [], [], [], [100], [], [], [[]], []⟩ }

/-- C2 as frozen is false: the period-1 warehouse capacity is `0` (the
formula applied to the dict's creation-time value `0`), while the formula
applied to the attribute's period-0 snapshot value `100` evaluates — with
the very draw stream the run consumes (`rngHalf` is constant, so every draw
is the same) — to `100 ≠ 0`. -/
theorem C2_counterexample :
    (dictGet (generate_temporal_data cfgW rngHalf cex2).temporal_graphs 1).map
        Graph.whCap = some [(0 : ℚ)]
    ∧ (dictGet (generate_temporal_data cfgW rngHalf cex2).temporal_graphs 0).map
        Graph.whCap = some [(100 : ℚ)]
    ∧ generate_temporal_value cfgW rngHalf 100 "capacity" 1 1 = 100
    ∧ (0 : ℚ) ≠ 100 := by
  refine ⟨?_, ?_, ?_, by norm_num⟩
  · rw [generate_temporal_data_spec]
    simp only [St.chain]
    norm_num [cex2, SupplyChainGenerator_init, St.warehouses_all, St.parts_all,
      genTD_chain, genTD_period, upd_families_log, upd_offerings_log,
      upd_warehouses_log, upd_suppliers_log, upd_parts_log, upd_edges_log,
      generate_temporal_value, seasonal_factor, tv_config, pyuniform, cfgW,
      rngHalf, dictSet, dictGet]
  · rw [generate_temporal_data_spec]
    simp only [St.chain]
    norm_num [cex2, SupplyChainGenerator_init, St.warehouses_all, St.parts_all,
      genTD_chain, genTD_period, upd_families_log, upd_offerings_log,
      upd_warehouses_log, upd_suppliers_log, upd_parts_log, upd_edges_log,
      generate_temporal_value, seasonal_factor, tv_config, pyuniform, cfgW,
      rngHalf, dictSet, dictGet]
  · have hs : seasonal_factor cfgW "capacity" 1 = 1 := by simp [seasonal_factor]
    have h2 : tv_config cfgW "capacity" = ⟨0.1, 0⟩ := by simp [tv_config, cfgW]
    simp only [generate_temporal_value, hs, h2, pyuniform, rngHalf]
    norm_num

/-- Concrete instantiation of `C2_full_regeneration_baseline` at `cex2`,
period 1: the snapshot exists and its warehouse capacity is the formula
applied to the warehouse dict's `current_capacity`. -/
theorem C2_witness :
    dictGet (generate_temporal_data cfgW rngHalf cex2).temporal_graphs 0
      = some cex2.G
    ∧ dictGet (generate_temporal_data cfgW rngHalf cex2).temporal_graphs 1
      = some (genTD_period cfgW rngHalf cex2.business_group
          cex2.product_families cex2.product_offerings cex2.warehouses_all
          cex2.suppliers cex2.parts_all cex2.G 1 (cex2.timestamp + 1)
          cex2.version (St.periodStartIx cfgW rngHalf cex2 1)).graph := by
  refine ⟨(C2_full_regeneration_baseline cfgW rngHalf cex2).1, ?_⟩
  exact (C2_full_regeneration_baseline cfgW rngHalf cex2).2.1 1 (by decide)
    (by decide)

/-! ### Claim C10 -/

/-- C10: `regenerate_all_periods` clears only the snapshot store, the
per-period data and the current-period index, then reruns the full pass:
the log afterwards is every record present before, followed in order by the
records the new pass emits (one flat block per period, `St.chain`); the
working graph and every entity list are untouched; the snapshot store and
period-data store are rebuilt from scratch (period 0 plus the regenerated
periods); the current-period index is `0`. -/
theorem C10_regenerate_preserves_log (cfg : Cfg) (rng : ℕ → ℚ) (s : St) :
    (regenerate_all_periods cfg rng s).operations_log
      = s.operations_log ++ (St.chain cfg rng s).1.flatMap (fun tp => tp.2.ops)
    ∧ (regenerate_all_periods cfg rng s).G = s.G
    ∧ (regenerate_all_periods cfg rng s).business_group = s.business_group
    ∧ (regenerate_all_periods cfg rng s).product_families = s.product_families
    ∧ (regenerate_all_periods cfg rng s).product_offerings = s.product_offerings
    ∧ (regenerate_all_periods cfg rng s).suppliers = s.suppliers
    ∧ (regenerate_all_periods cfg rng s).warehouses_supplier
        = s.warehouses_supplier
    ∧ (regenerate_all_periods cfg rng s).warehouses_subassembly
        = s.warehouses_subassembly
    ∧ (regenerate_all_periods cfg rng s).warehouses_lam = s.warehouses_lam
    ∧ (regenerate_all_periods cfg rng s).facilities_external
        = s.facilities_external
    ∧ (regenerate_all_periods cfg rng s).facilities_lam = s.facilities_lam
    ∧ (regenerate_all_periods cfg rng s).parts_raw = s.parts_raw
    ∧ (regenerate_all_periods cfg rng s).parts_subassembly = s.parts_subassembly
    ∧ (regenerate_all_periods cfg rng s).current_period = 0
    ∧ (regenerate_all_periods cfg rng s).temporal_graphs
        = (St.chain cfg rng s).1.foldl (fun d tp => dictSet d tp.1 tp.2.graph)
            [(0, s.G)]
    ∧ (regenerate_all_periods cfg rng s).temporal_data
        = (St.chain cfg rng s).1.foldl (fun d tp => dictSet d tp.1 tp.2.pd)
            [] := by
  unfold regenerate_all_periods
  rw [generate_temporal_data_spec]
  simp [St.chain, St.warehouses_all, St.parts_all, dictSet]

/-! ### Lemmas for the incremental-extension path -/

/-- The number of parts of a list inside their validity window at `date`. -/
def in_window_count (date : ℤ) (parts : List Part) : ℕ :=
  (parts.filter (fun p => decide (p.valid_from ≤ date ∧ date ≤ p.valid_till))).length

/-- Draws consumed by the edge block for a list of edges: one per present
`transportation_cost` plus one per present `inventory_level`. -/
def edges_consumed (es : List Edge) : ℕ :=
  (es.map (fun e => (if e.transportation_cost.isSome then 1 else 0)
    + (if e.inventory_level.isSome then 1 else 0))).sum

section IncrementalLemmas

variable (cfg : Cfg) (rng : ℕ → ℚ)

theorem update_families_ix (t : ℕ) (fams : List Family) (ix : ℕ) :
    (update_families cfg rng t fams ix).ix = ix + fams.length := by
  induction fams generalizing ix with
  | nil => rfl
  | cons f fs ih => simp only [update_families, ih, List.length_cons]; omega

theorem update_product_attributes_ix (t : ℕ) (offs : List Offering) (ix : ℕ) :
    (update_product_attributes cfg rng t offs ix).ix = ix + 2 * offs.length := by
  induction offs generalizing ix with
  | nil => rfl
  | cons o os ih =>
      simp only [update_product_attributes, ih, List.length_cons]; omega

theorem update_warehouse_attributes_ix (t : ℕ) (whs : List Warehouse) (ix : ℕ) :
    (update_warehouse_attributes cfg rng t whs ix).ix = ix + whs.length := by
  induction whs generalizing ix with
  | nil => rfl
  | cons w ws ih =>
      simp only [update_warehouse_attributes, ih, List.length_cons]; omega

theorem update_supplier_attributes_ix (t : ℕ) (sups : List Supplier) (ix : ℕ) :
    (update_supplier_attributes cfg rng t sups ix).ix = ix + sups.length := by
  induction sups generalizing ix with
  | nil => rfl
  | cons p ps ih =>
      simp only [update_supplier_attributes, ih, List.length_cons]; omega

theorem update_part_attributes_ix (t : ℕ) (date : ℤ) (parts : List Part)
    (olds : List ℚ) (ix : ℕ) (hlen : parts.length = olds.length) :
    (update_part_attributes cfg rng t date parts olds ix).ix
      = ix + in_window_count date parts := by
  induction parts generalizing olds ix with
  | nil => simp [update_part_attributes, in_window_count]
  | cons p ps ih =>
      cases olds with
      | nil => simp at hlen
      | cons o os =>
          simp only [List.length_cons, Nat.succ.injEq] at hlen
          by_cases hw : p.valid_from ≤ date ∧ date ≤ p.valid_till
          · have hc : in_window_count date (p :: ps)
                = in_window_count date ps + 1 := by
              simp [in_window_count, List.filter_cons, hw]
            simp only [update_part_attributes, if_pos hw, ih _ _ hlen, hc]
            omega
          · have hc : in_window_count date (p :: ps) = in_window_count date ps := by
              simp [in_window_count, List.filter_cons, hw]
            simp only [update_part_attributes, if_neg hw, ih _ _ hlen, hc]

/-- Pointwise values of the part block: an in-window part gets the formula
applied to its *dict* cost; an out-of-window part keeps the passed graph's
value. -/
theorem update_part_attributes_get (t : ℕ) (date : ℤ) (parts : List Part)
    (olds : List ℚ) (ix i : ℕ) (p : Part) (hlen : parts.length = olds.length)
    (hp : parts.get? i = some p) :
    ((p.valid_from ≤ date ∧ date ≤ p.valid_till) →
      (update_part_attributes cfg rng t date parts olds ix).values.get? i
        = some (generate_temporal_value cfg rng p.cost "cost" t
            (ix + in_window_count date (parts.take i))))
    ∧ (¬(p.valid_from ≤ date ∧ date ≤ p.valid_till) →
      (update_part_attributes cfg rng t date parts olds ix).values.get? i
        = olds.get? i) := by
  induction parts generalizing olds ix i with
  | nil => cases hp
  | cons q ps ih =>
      cases olds with
      | nil => simp at hlen
      | cons o os =>
          simp only [List.length_cons, Nat.succ.injEq] at hlen
          cases i with
          | zero =>
              simp only [List.get?_cons_zero, Option.some.injEq] at hp
              subst hp
              refine ⟨fun hw => ?_, fun hw => ?_⟩
              · simp [update_part_attributes, if_pos hw, in_window_count]
              · simp [update_part_attributes, if_neg hw]
          | succ i =>
              simp only [List.get?_cons_succ] at hp
              by_cases hw : q.valid_from ≤ date ∧ date ≤ q.valid_till
              · refine ⟨fun hwp => ?_, fun hwp => ?_⟩
                · simp only [update_part_attributes, if_pos hw,
                    List.get?_cons_succ]
                  rw [((ih _ _ _ hlen hp).1) hwp]
                  have hc : in_window_count date (List.take (i + 1) (q :: ps))
                      = in_window_count date (List.take i ps) + 1 := by
                    simp [List.take_succ_cons, in_window_count,
                      List.filter_cons, hw]
                  have hix : ix + 1 + in_window_count date (List.take i ps)
                      = ix + in_window_count date (List.take (i + 1) (q :: ps)) := by
                    rw [hc]; omega
                  rw [hix]
                · simp only [update_part_attributes, if_pos hw,
                    List.get?_cons_succ]
                  exact ((ih _ _ _ hlen hp).2) hwp
              · refine ⟨fun hwp => ?_, fun hwp => ?_⟩
                · simp only [update_part_attributes, if_neg hw,
                    List.get?_cons_succ]
                  rw [((ih _ _ _ hlen hp).1) hwp]
                  have hc : in_window_count date (List.take (i + 1) (q :: ps))
                      = in_window_count date (List.take i ps) := by
                    simp [List.take_succ_cons, in_window_count,
                      List.filter_cons, hw]
                  rw [hc]
                · simp only [update_part_attributes, if_neg hw,
                    List.get?_cons_succ]
                  exact ((ih _ _ _ hlen hp).2) hwp

/-- `edge_step` in closed form: the new `transportation_cost` is the formula
applied to the edge's *current* `transportation_cost`, and likewise for
`inventory_level`, which uses the following draw when both are present. -/
theorem edge_step_eq (t : ℕ) (e : Edge) (ix : ℕ) :
    (edge_step cfg rng t e ix).1
      = { e with
          transportation_cost := e.transportation_cost.map
            (fun c => generate_temporal_value cfg rng c "transportation_cost" t ix)
          inventory_level := e.inventory_level.map
            (fun v => generate_temporal_value cfg rng v "inventory" t
              (ix + if e.transportation_cost.isSome then 1 else 0)) }
    ∧ (edge_step cfg rng t e ix).2.2
      = ix + ((if e.transportation_cost.isSome then 1 else 0)
          + (if e.inventory_level.isSome then 1 else 0)) := by
  obtain ⟨sid, tid, tc, lt, iv, sc, qv, dv, tcc, prc, pcc, hh⟩ := e
  cases tc with
  | none =>
      cases iv with
      | none => simp [edge_step]
      | some v => simp [edge_step]
  | some c =>
      cases iv with
      | none => simp [edge_step]
      | some v =>
          constructor
          · simp [edge_step]
          · simp [edge_step]

/-- Pointwise values of the edge block: edge `i` is `edge_step` applied to
the *current* edge at the draw position after the preceding edges. -/
theorem update_edge_attributes_get (t : ℕ) (es : List Edge) (ix i : ℕ)
    (e : Edge) (he : es.get? i = some e) :
    (update_edge_attributes cfg rng t es ix).values.get? i
      = some (edge_step cfg rng t e (ix + edges_consumed (es.take i))).1 := by
  induction es generalizing ix i with
  | nil => cases he
  | cons a as ih =>
      cases i with
      | zero =>
          simp only [List.get?_cons_zero, Option.some.injEq] at he
          subst he
          simp [update_edge_attributes, edges_consumed]
      | succ i =>
          simp only [List.get?_cons_succ] at he
          simp only [update_edge_attributes, List.get?_cons_succ]
          rw [ih _ _ he, (edge_step_eq cfg rng t a ix).2]
          have hc : edges_consumed (List.take (i + 1) (a :: as))
              = ((if a.transportation_cost.isSome then 1 else 0)
                + (if a.inventory_level.isSome then 1 else 0))
                + edges_consumed (List.take i as) := by
            simp [edges_consumed, List.take_succ_cons]
          have hix : ix + ((if a.transportation_cost.isSome then 1 else 0)
                + (if a.inventory_level.isSome then 1 else 0))
              + edges_consumed (List.take i as)
              = ix + edges_consumed (List.take (i + 1) (a :: as)) := by
            rw [hc]; omega
          rw [hix]

end IncrementalLemmas

/-! ### Claim C3 -/

/-- C3 as amended: incremental extension copies the latest stored snapshot
`k` and stores period `k+1` computed by `_update_period_attributes`, without
log records; *edge* attributes compound — each edge's new
`transportation_cost` / `inventory_level` is the formula applied to that
edge's current snapshot-`k` value — but *node* attributes do not: they are
recomputed from the creation-time entity dicts, so the period-`k+1` node
values do not depend on the snapshot-`k` node values at all (first
conjunct: two snapshots differing only in node values yield identical new
node values, with out-of-window part costs the only carried-over node
entries). -/
theorem C3_incremental_extension (cfg : Cfg) (rng : ℕ → ℚ) :
    (∀ (bg : BG) (fams : List Family) (offs : List Offering)
        (whs : List Warehouse) (sups : List Supplier) (parts : List Part)
        (t ix : ℕ) (g₁ g₂ : Graph),
      g₁.edges = g₂.edges →
      parts.length = g₁.partCost.length →
      parts.length = g₂.partCost.length →
      (update_period_attributes cfg rng bg fams offs whs sups parts g₁ t ix).1.bgRevenue
          = (update_period_attributes cfg rng bg fams offs whs sups parts g₂ t ix).1.bgRevenue
      ∧ (update_period_attributes cfg rng bg fams offs whs sups parts g₁ t ix).1.famRev
          = (update_period_attributes cfg rng bg fams offs whs sups parts g₂ t ix).1.famRev
      ∧ (update_period_attributes cfg rng bg fams offs whs sups parts g₁ t ix).1.offCost
          = (update_period_attributes cfg rng bg fams offs whs sups parts g₂ t ix).1.offCost
      ∧ (update_period_attributes cfg rng bg fams offs whs sups parts g₁ t ix).1.offDemand
          = (update_period_attributes cfg rng bg fams offs whs sups parts g₂ t ix).1.offDemand
      ∧ (update_period_attributes cfg rng bg fams offs whs sups parts g₁ t ix).1.whCap
          = (update_period_attributes cfg rng bg fams offs whs sups parts g₂ t ix).1.whCap
      ∧ (update_period_attributes cfg rng bg fams offs whs sups parts g₁ t ix).1.supRel
          = (update_period_attributes cfg rng bg fams offs whs sups parts g₂ t ix).1.supRel
      ∧ (update_period_attributes cfg rng bg fams offs whs sups parts g₁ t ix).1.edges
          = (update_period_attributes cfg rng bg fams offs whs sups parts g₂ t ix).1.edges
      ∧ (∀ i p, parts.get? i = some p →
          p.valid_from ≤ cfg.BASE_DATE + 30 * (t : ℤ) →
          cfg.BASE_DATE + 30 * (t : ℤ) ≤ p.valid_till →
          (update_period_attributes cfg rng bg fams offs whs sups parts g₁ t ix).1.partCost.get? i
            = (update_period_attributes cfg rng bg fams offs whs sups parts g₂ t ix).1.partCost.get? i))
    ∧ (∀ (bg : BG) (fams : List Family) (offs : List Offering)
        (whs : List Warehouse) (sups : List Supplier) (parts : List Part)
        (t ix : ℕ) (g : Graph) (i : ℕ) (e : Edge),
      parts.length = g.partCost.length →
      g.edges.get? i = some e →
      (update_period_attributes cfg rng bg fams offs whs sups parts g t ix).1.edges.get? i
        = some { e with
            transportation_cost := e.transportation_cost.map
              (fun c => generate_temporal_value cfg rng c "transportation_cost" t
                (ix + 1 + fams.length + 2 * offs.length + whs.length
                  + sups.length
                  + in_window_count (cfg.BASE_DATE + 30 * (t : ℤ)) parts
                  + edges_consumed (g.edges.take i)))
            inventory_level := e.inventory_level.map
              (fun v => generate_temporal_value cfg rng v "inventory" t
                (ix + 1 + fams.length + 2 * offs.length + whs.length
                  + sups.length
                  + in_window_count (cfg.BASE_DATE + 30 * (t : ℤ)) parts
                  + edges_consumed (g.edges.take i)
                  + if e.transportation_cost.isSome then 1 else 0)) })
    ∧ (∀ (s : St) (k : ℕ) (g : Graph),
      dictLast s.temporal_graphs = some (k, g) →
      simulate_next_period cfg rng s = .ok
        { s with
          temporal_graphs := dictSet s.temporal_graphs (k + 1)
            (update_period_attributes cfg rng s.business_group
              s.product_families s.product_offerings s.warehouses_all
              s.suppliers s.parts_all g (k + 1) s.rngIx).1
          temporal_data := dictSet s.temporal_data (k + 1)
            ⟨cfg.BASE_DATE + 30 * ((k + 1 : ℕ) : ℤ),
             (update_period_attributes cfg rng s.business_group
               s.product_families s.product_offerings s.warehouses_all
               s.suppliers s.parts_all g (k + 1) s.rngIx).2.1⟩
          current_period := k + 1
          rngIx := (update_period_attributes cfg rng s.business_group
            s.product_families s.product_offerings s.warehouses_all s.suppliers
            s.parts_all g (k + 1) s.rngIx).2.2 }) := by
  refine ⟨?_, ?_, ?_⟩
  · intro bg fams offs whs sups parts t ix g₁ g₂ hE h1 h2
    refine ⟨rfl, rfl, rfl, rfl, rfl, rfl, ?_, ?_⟩
    · simp only [update_period_attributes]
      rw [update_part_attributes_ix cfg rng _ _ _ _ _ h1,
        update_part_attributes_ix cfg rng _ _ _ _ _ h2, hE]
    · intro i p hp hw1 hw2
      simp only [update_period_attributes]
      rw [(update_part_attributes_get cfg rng _ _ _ _ _ _ _ h1 hp).1 ⟨hw1, hw2⟩,
        (update_part_attributes_get cfg rng _ _ _ _ _ _ _ h2 hp).1 ⟨hw1, hw2⟩]
  · intro bg fams offs whs sups parts t ix g i e hlen he
    simp only [update_period_attributes]
    rw [update_edge_attributes_get cfg rng _ _ _ _ _ he,
      (edge_step_eq cfg rng t e _).1,
      update_part_attributes_ix cfg rng _ _ _ _ _ hlen,
      update_supplier_attributes_ix, update_warehouse_attributes_ix,
      update_product_attributes_ix, update_families_ix]
  · intro s k g hlast
    simp only [simulate_next_period, hlast]

/-- The configuration `cfg3`: the feature `"revenue"` carries
`maxChange = 0, trend = 1`, so its noise factor is exactly `1` and its trend
factor at period `t` is `1 + t`. -/
def cfg3 : Cfg :=
  { cfgW with
    TEMPORAL_VARIATION := fun f => if f = "revenue" then some ⟨0, 1⟩ else none }

/-- A state whose latest snapshot is period 0 with a business-group node
revenue of `200`, while the business-group dict holds the creation-time
revenue `100`. -/
def cex3 : St :=
  { SupplyChainGenerator_init 0 2 "NSS_V1" with
    business_group := ⟨"BG_001", "Etch", "Etch Business Unit", 100⟩
    temporal_graphs := [(0, ⟨200, [], [], [], [], [], [], [], []⟩)] }

/-- C3 as frozen is false: extending `cex3` by one period stores a period-1
business-group revenue of `200` — the formula applied to the *dict* value
`100` — whereas the formula applied to the snapshot-0 value `200` (with the
draw the run consumes; `rngHalf` is constant, so every draw agrees) is
`400 ≠ 200`. -/
theorem C3_counterexample :
    (simulate_next_period cfg3 rngHalf cex3).map
        (fun s2 => (dictGet s2.temporal_graphs 1).map Graph.bgRevenue)
      = .ok (some (200 : ℚ))
    ∧ generate_temporal_value cfg3 rngHalf 200 "revenue" 1 0 = 400
    ∧ (200 : ℚ) ≠ 400 := by
  have h2 : tv_config cfg3 "revenue" = ⟨0, 1⟩ := by
    simp [tv_config, cfg3, cfgW]
  have hs : seasonal_factor cfg3 "revenue" 1 = 1 := by simp [seasonal_factor]
  refine ⟨?_, ?_, by norm_num⟩
  · simp only [cex3, SupplyChainGenerator_init, simulate_next_period, dictLast,
      update_period_attributes, update_families, update_product_attributes,
      update_warehouse_attributes, update_supplier_attributes,
      update_part_attributes, update_edge_attributes, St.warehouses_all,
      St.parts_all, dictSet, dictGet, Except.map]
    norm_num [generate_temporal_value, h2, hs, pyuniform, rngHalf, dictSet,
      dictGet]
  · simp only [generate_temporal_value, h2, hs, pyuniform, rngHalf]
    norm_num

/-- Concrete instantiation of `C3_incremental_extension` (third conjunct) at
`cex3`: the extension stores period 1 computed by
`_update_period_attributes` from snapshot 0 and advances `current_period`. -/
theorem C3_witness :
    simulate_next_period cfg3 rngHalf cex3 = .ok
      { cex3 with
        temporal_graphs := dictSet cex3.temporal_graphs 1
          (update_period_attributes cfg3 rngHalf cex3.business_group
            cex3.product_families cex3.product_offerings cex3.warehouses_all
            cex3.suppliers cex3.parts_all ⟨200, [], [], [], [], [], [], [], []⟩
            1 cex3.rngIx).1
        temporal_data := dictSet cex3.temporal_data 1
          ⟨cfg3.BASE_DATE + 30 * ((1 : ℕ) : ℤ),
           (update_period_attributes cfg3 rngHalf cex3.business_group
             cex3.product_families cex3.product_offerings cex3.warehouses_all
             cex3.suppliers cex3.parts_all ⟨200, [], [], [], [], [], [], [], []⟩
             1 cex3.rngIx).2.1⟩
        current_period := 1
        rngIx := (update_period_attributes cfg3 rngHalf cex3.business_group
          cex3.product_families cex3.product_offerings cex3.warehouses_all
          cex3.suppliers cex3.parts_all ⟨200, [], [], [], [], [], [], [], []⟩
          1 cex3.rngIx).2.2 } :=
  (C3_incremental_extension cfg3 rngHalf).2.2 cex3 0
    ⟨200, [], [], [], [], [], [], [], []⟩ (by rfl)

/-! ### Log-payload projections and gating lemmas for the part block -/

/-- The node type of a node record, `none` for edge records. -/
def payload_node_type : OpPayload → Option String
  | .node _ nt _ => some nt
  | .edge _ _ _ _ => none

/-- The node id of a node record, `none` for edge records. -/
def payload_node_id : OpPayload → Option String
  | .node nid _ _ => some nid
  | .edge _ _ _ _ => none

/-- The target id of an edge record, `none` for node records. -/
def payload_edge_target : OpPayload → Option String
  | .node _ _ _ => none
  | .edge _ t _ _ => some t

section PartGatingLemmas

variable (cfg : Cfg) (rng : ℕ → ℚ)

theorem upd_warehouses_log_ix (t ts : ℕ) (ver : String) (whs : List Warehouse)
    (ix : ℕ) :
    (upd_warehouses_log cfg rng t ts ver whs ix).ix = ix + whs.length := by
  induction whs generalizing ix with
  | nil => rfl
  | cons w ws ih => simp only [upd_warehouses_log, ih, List.length_cons]; omega

theorem upd_suppliers_log_ix (t ts : ℕ) (ver : String) (sups : List Supplier)
    (ix : ℕ) :
    (upd_suppliers_log cfg rng t ts ver sups ix).ix = ix + sups.length := by
  induction sups generalizing ix with
  | nil => rfl
  | cons p ps ih => simp only [upd_suppliers_log, ih, List.length_cons]; omega

/-- Pointwise values of the (logging) part block: an in-window part gets the
formula applied to its dict cost; any other part keeps the baseline graph's
value. -/
theorem upd_parts_log_get (t ts : ℕ) (ver : String) (date : ℤ)
    (parts : List Part) (olds : List ℚ) (ix i : ℕ) (p : Part)
    (hlen : parts.length = olds.length) (hp : parts.get? i = some p) :
    ((p.valid_from ≤ date ∧ date ≤ p.valid_till) →
      (upd_parts_log cfg rng t ts ver date parts olds ix).values.get? i
        = some (generate_temporal_value cfg rng p.cost "cost" t
            (ix + in_window_count date (parts.take i))))
    ∧ (¬(p.valid_from ≤ date ∧ date ≤ p.valid_till) →
      (upd_parts_log cfg rng t ts ver date parts olds ix).values.get? i
        = olds.get? i) := by
  induction parts generalizing olds ix i with
  | nil => cases hp
  | cons q ps ih =>
      cases olds with
      | nil => simp at hlen
      | cons o os =>
          simp only [List.length_cons, Nat.succ.injEq] at hlen
          cases i with
          | zero =>
              simp only [List.get?_cons_zero, Option.some.injEq] at hp
              subst hp
              refine ⟨fun hw => ?_, fun hw => ?_⟩
              · simp [upd_parts_log, if_pos hw, in_window_count]
              · simp [upd_parts_log, if_neg hw]
          | succ i =>
              simp only [List.get?_cons_succ] at hp
              by_cases hw : q.valid_from ≤ date ∧ date ≤ q.valid_till
              · refine ⟨fun hwp => ?_, fun hwp => ?_⟩
                · simp only [upd_parts_log, if_pos hw, List.get?_cons_succ]
                  rw [((ih _ _ _ hlen hp).1) hwp]
                  have hc : in_window_count date (List.take (i + 1) (q :: ps))
                      = in_window_count date (List.take i ps) + 1 := by
                    simp [List.take_succ_cons, in_window_count,
                      List.filter_cons, hw]
                  have hix : ix + 1 + in_window_count date (List.take i ps)
                      = ix + in_window_count date (List.take (i + 1) (q :: ps)) := by
                    rw [hc]; omega
                  rw [hix]
                · simp only [upd_parts_log, if_pos hw, List.get?_cons_succ]
                  exact ((ih _ _ _ hlen hp).2) hwp
              · refine ⟨fun hwp => ?_, fun hwp => ?_⟩
                · simp only [upd_parts_log, if_neg hw, List.get?_cons_succ]
                  rw [((ih _ _ _ hlen hp).1) hwp]
                  have hc : in_window_count date (List.take (i + 1) (q :: ps))
                      = in_window_count date (List.take i ps) := by
                    simp [List.take_succ_cons, in_window_count,
                      List.filter_cons, hw]
                  rw [hc]
                · simp only [upd_parts_log, if_neg hw, List.get?_cons_succ]
                  exact ((ih _ _ _ hlen hp).2) hwp

/-- Every record of the part block belongs to a part *inside* its validity
window. -/
theorem upd_parts_log_ops (t ts : ℕ) (ver : String) (date : ℤ)
    (parts : List Part) (olds : List ℚ) (ix : ℕ) (op : Op)
    (hop : op ∈ (upd_parts_log cfg rng t ts ver date parts olds ix).ops) :
    ∃ p, p ∈ parts ∧ (p.valid_from ≤ date ∧ date ≤ p.valid_till)
      ∧ payload_node_id op.payload = some p.id
      ∧ payload_node_type op.payload = some "PARTS" := by
  induction parts generalizing olds ix with
  | nil => cases hop
  | cons q ps ih =>
      cases olds with
      | nil => cases hop
      | cons o os =>
          by_cases hw : q.valid_from ≤ date ∧ date ≤ q.valid_till
          · simp only [upd_parts_log, if_pos hw, List.mem_cons] at hop
            rcases hop with h | h
            · exact ⟨q, List.mem_cons_self _ _, hw, by
                subst h; exact rfl, by subst h; exact rfl⟩
            · obtain ⟨p, hmem, hwp, hid, hnt⟩ := ih _ _ h
              exact ⟨p, List.mem_cons_of_mem _ hmem, hwp, hid, hnt⟩
          · simp only [upd_parts_log, if_neg hw] at hop
            obtain ⟨p, hmem, hwp, hid, hnt⟩ := ih _ _ hop
            exact ⟨p, List.mem_cons_of_mem _ hmem, hwp, hid, hnt⟩

theorem upd_families_log_ops_nt (t ts : ℕ) (ver : String)
    (fams : List Family) (ix : ℕ) (op : Op)
    (hop : op ∈ (upd_families_log cfg rng t ts ver fams ix).ops) :
    payload_node_type op.payload = some "PRODUCT_FAMILY" := by
  induction fams generalizing ix with
  | nil => cases hop
  | cons f fs ih =>
      simp only [upd_families_log, List.mem_cons] at hop
      rcases hop with h | h
      · subst h; rfl
      · exact ih _ h

theorem upd_offerings_log_ops_nt (t ts : ℕ) (ver : String)
    (offs : List Offering) (ix : ℕ) (op : Op)
    (hop : op ∈ (upd_offerings_log cfg rng t ts ver offs ix).ops) :
    payload_node_type op.payload = some "PRODUCT_OFFERING" := by
  induction offs generalizing ix with
  | nil => cases hop
  | cons o os ih =>
      simp only [upd_offerings_log, List.mem_cons] at hop
      rcases hop with h | h
      · subst h; rfl
      · exact ih _ h

theorem upd_warehouses_log_ops_nt (t ts : ℕ) (ver : String)
    (whs : List Warehouse) (ix : ℕ) (op : Op)
    (hop : op ∈ (upd_warehouses_log cfg rng t ts ver whs ix).ops) :
    payload_node_type op.payload = some "WAREHOUSE" := by
  induction whs generalizing ix with
  | nil => cases hop
  | cons w ws ih =>
      simp only [upd_warehouses_log, List.mem_cons] at hop
      rcases hop with h | h
      · subst h; rfl
      · exact ih _ h

theorem upd_suppliers_log_ops_nt (t ts : ℕ) (ver : String)
    (sups : List Supplier) (ix : ℕ) (op : Op)
    (hop : op ∈ (upd_suppliers_log cfg rng t ts ver sups ix).ops) :
    payload_node_type op.payload = some "SUPPLIERS" := by
  induction sups generalizing ix with
  | nil => cases hop
  | cons p ps ih =>
      simp only [upd_suppliers_log, List.mem_cons] at hop
      rcases hop with h | h
      · subst h; rfl
      · exact ih _ h

theorem edge_step_log_ops_nt (t ts : ℕ) (ver : String) (e : Edge) (ix : ℕ)
    (op : Op) (hop : op ∈ (edge_step_log cfg rng t ts ver e ix).2.2.1) :
    payload_node_type op.payload = none := by
  cases htc : e.transportation_cost with
  | none =>
      cases hiv : e.inventory_level with
      | none => simp [edge_step_log, htc, hiv] at hop
      | some v =>
          simp only [edge_step_log, htc, hiv, List.nil_append,
            List.mem_singleton] at hop
          subst hop; rfl
  | some c =>
      cases hiv : e.inventory_level with
      | none =>
          simp only [edge_step_log, htc, hiv, List.mem_singleton] at hop
          subst hop; rfl
      | some v =>
          simp only [edge_step_log, htc, hiv, List.mem_append,
            List.mem_singleton] at hop
          rcases hop with h | h
          · subst h; rfl
          · subst h; rfl

theorem upd_edges_log_ops_nt (t ts : ℕ) (ver : String) (es : List Edge)
    (ix : ℕ) (op : Op)
    (hop : op ∈ (upd_edges_log cfg rng t ts ver es ix).ops) :
    payload_node_type op.payload = none := by
  induction es generalizing ix with
  | nil => cases hop
  | cons e es ih =>
      simp only [upd_edges_log, List.mem_append] at hop
      rcases hop with h | h
      · exact edge_step_log_ops_nt cfg rng t ts ver e ix op h
      · exact ih _ h

end PartGatingLemmas

/-! ### Claim C9 -/

/-- C9 as amended: in both evolution modes a part's *cost* is updated in
period `t`'s snapshot exactly when
`valid_from ≤ BASE_DATE + 30·t ≤ valid_till` (otherwise the snapshot keeps
the graph value it was copied from), and a part outside its window never
appears in that period's *node* update records — every `PARTS` node record
belongs to an in-window part — while the incremental mode appends no
records at all.  (Edges incident to an expired part are still updated each
period and their records name the part as an endpoint: `C9_counterexample`;
that is the only sense in which the frozen claim's "never appears in that
period's update log entries" fails.) -/
theorem C9_part_validity_window (cfg : Cfg) (rng : ℕ → ℚ) :
    (∀ (bg : BG) (fams : List Family) (offs : List Offering)
        (whs : List Warehouse) (sups : List Supplier) (parts : List Part)
        (g0 : Graph) (t ts : ℕ) (ver : String) (ix i : ℕ) (p : Part),
      parts.length = g0.partCost.length →
      parts.get? i = some p →
      ((p.valid_from ≤ cfg.BASE_DATE + 30 * (t : ℤ)
          ∧ cfg.BASE_DATE + 30 * (t : ℤ) ≤ p.valid_till) →
        (genTD_period cfg rng bg fams offs whs sups parts g0 t ts ver ix).graph.partCost.get? i
          = some (generate_temporal_value cfg rng p.cost "cost" t
              (ix + 1 + fams.length + 2 * offs.length + whs.length + sups.length
                + in_window_count (cfg.BASE_DATE + 30 * (t : ℤ)) (parts.take i))))
      ∧ (¬(p.valid_from ≤ cfg.BASE_DATE + 30 * (t : ℤ)
          ∧ cfg.BASE_DATE + 30 * (t : ℤ) ≤ p.valid_till) →
        (genTD_period cfg rng bg fams offs whs sups parts g0 t ts ver ix).graph.partCost.get? i
          = g0.partCost.get? i))
    ∧ (∀ (bg : BG) (fams : List Family) (offs : List Offering)
        (whs : List Warehouse) (sups : List Supplier) (parts : List Part)
        (g0 : Graph) (t ts : ℕ) (ver : String) (ix : ℕ) (op : Op),
      op ∈ (genTD_period cfg rng bg fams offs whs sups parts g0 t ts ver ix).ops →
      payload_node_type op.payload = some "PARTS" →
      ∃ p, p ∈ parts
        ∧ (p.valid_from ≤ cfg.BASE_DATE + 30 * (t : ℤ)
            ∧ cfg.BASE_DATE + 30 * (t : ℤ) ≤ p.valid_till)
        ∧ payload_node_id op.payload = some p.id)
    ∧ (∀ (bg : BG) (fams : List Family) (offs : List Offering)
        (whs : List Warehouse) (sups : List Supplier) (parts : List Part)
        (g : Graph) (t ix i : ℕ) (p : Part),
      parts.length = g.partCost.length →
      parts.get? i = some p →
      ¬(p.valid_from ≤ cfg.BASE_DATE + 30 * (t : ℤ)
          ∧ cfg.BASE_DATE + 30 * (t : ℤ) ≤ p.valid_till) →
      (update_period_attributes cfg rng bg fams offs whs sups parts g t ix).1.partCost.get? i
        = g.partCost.get? i)
    ∧ (∀ (s : St) (k : ℕ) (g : Graph),
      dictLast s.temporal_graphs = some (k, g) →
      ∃ s2, simulate_next_period cfg rng s = .ok s2
        ∧ s2.operations_log = s.operations_log) := by
  refine ⟨?_, ?_, ?_, ?_⟩
  · intro bg fams offs whs sups parts g0 t ts ver ix i p hlen hp
    constructor
    · intro hw
      simp only [genTD_period]
      rw [upd_families_log_ix, upd_offerings_log_ix, upd_warehouses_log_ix,
        upd_suppliers_log_ix]
      exact (upd_parts_log_get cfg rng _ _ _ _ _ _ _ _ _ hlen hp).1 hw
    · intro hw
      simp only [genTD_period]
      exact (upd_parts_log_get cfg rng _ _ _ _ _ _ _ _ _ hlen hp).2 hw
  · intro bg fams offs whs sups parts g0 t ts ver ix op hop hnt
    simp only [genTD_period] at hop
    rcases List.mem_cons.mp hop with h | hop
    · subst h; simp [mk_node_op, payload_node_type] at hnt
    rcases List.mem_append.mp hop with hop | h
    · rcases List.mem_append.mp hop with hop | h
      · rcases List.mem_append.mp hop with hop | h
        · rcases List.mem_append.mp hop with hop | h
          · rcases List.mem_append.mp hop with h | h
            · rw [upd_families_log_ops_nt cfg rng _ _ _ _ _ _ h] at hnt
              simp at hnt
            · rw [upd_offerings_log_ops_nt cfg rng _ _ _ _ _ _ h] at hnt
              simp at hnt
          · rw [upd_warehouses_log_ops_nt cfg rng _ _ _ _ _ _ h] at hnt
            simp at hnt
        · rw [upd_suppliers_log_ops_nt cfg rng _ _ _ _ _ _ h] at hnt
          simp at hnt
      · obtain ⟨p, hmem, hwp, hid, _⟩ :=
          upd_parts_log_ops cfg rng _ _ _ _ _ _ _ _ h
        exact ⟨p, hmem, hwp, hid⟩
    · rw [upd_edges_log_ops_nt cfg rng _ _ _ _ _ _ h] at hnt
      cases hnt
  · intro bg fams offs whs sups parts g t ix i p hlen hp hw
    simp only [update_period_attributes]
    exact (update_part_attributes_get cfg rng _ _ _ _ _ _ _ hlen hp).2 hw
  · intro s k g hlast
    unfold simulate_next_period
    rw [hlast]
    exact ⟨_, rfl, rfl⟩

/-- A state with one raw part whose validity window `[0, 0]` ends before the
first period date, and one warehouse→part inventory edge to it. -/
def cex9 : St :=
  { SupplyChainGenerator_init 0 2 "NSS_V1" with
    parts_raw := [⟨"P_001", "Part_1", "raw", "metal", 50, 1/2, 0, 0⟩]
    G := ⟨0, [], [], [], [], [], [50], [],
      [⟨"W_001", "P_001", none, none, some 10, some 5, none, none, none, none,
        none, false⟩]⟩ }

/-- C9 as frozen is false: the part `P_001` is expired at period 1
(`valid_till = 0 < 30`), yet period 1's update log — which is exactly one
business-group record followed by one `WAREHOUSE_PARTS` edge record —
names `P_001` as the edge record's target. -/
theorem C9_counterexample :
    ((generate_temporal_data cfgW rngHalf cex9).operations_log.map
        (fun op => payload_edge_target op.payload)) = [none, some "P_001"]
    ∧ ((generate_temporal_data cfgW rngHalf cex9).operations_log.map
        (fun op => payload_node_type op.payload))
      = [some "BUSINESS_GROUP", none]
    ∧ cex9.parts_raw.map Part.valid_till = [0]
    ∧ (0 : ℤ) < cfgW.BASE_DATE + 30 * (1 : ℤ) := by
  refine ⟨?_, ?_, rfl, by norm_num [cfgW]⟩
  · rw [generate_temporal_data_spec]
    norm_num [St.chain, cex9, cfgW, SupplyChainGenerator_init,
      St.warehouses_all, St.parts_all, genTD_chain, genTD_period,
      upd_families_log, upd_offerings_log, upd_warehouses_log,
      upd_suppliers_log, upd_parts_log, upd_edges_log, edge_step_log,
      mk_node_op, mk_edge_op, payload_edge_target]
  · rw [generate_temporal_data_spec]
    norm_num [St.chain, cex9, cfgW, SupplyChainGenerator_init,
      St.warehouses_all, St.parts_all, genTD_chain, genTD_period,
      upd_families_log, upd_offerings_log, upd_warehouses_log,
      upd_suppliers_log, upd_parts_log, upd_edges_log, edge_step_log,
      mk_node_op, mk_edge_op, payload_node_type]

/-- Concrete instantiation of `C9_part_validity_window`: the expired part of
`cex9` keeps its baseline cost in the period-1 snapshot computation. -/
theorem C9_witness :
    (genTD_period cfgW rngHalf cex9.business_group [] [] [] [] cex9.parts_all
        cex9.G 1 1 "NSS_V1" 0).graph.partCost.get? 0
      = cex9.G.partCost.get? 0 :=
  ((C9_part_validity_window cfgW rngHalf).1 cex9.business_group [] [] [] []
    cex9.parts_all cex9.G 1 1 "NSS_V1" 0 0
    ⟨"P_001", "Part_1", "raw", "metal", 50, 1/2, 0, 0⟩ (by rfl) (by rfl)).2
    (by norm_num [cfgW])

/-! ### Claim C7 -/

section C7Defs

variable (cfg : Cfg) (rng : ℕ → ℚ)

/-- The warehouse→part inner loop with the branch condition rewritten as
"remaining capacity exhausted": skip exactly when
`max_capacity - accumulated ≤ 0`, and otherwise add the edge with the
*clipped* inventory `min(draw, remaining)`.  `C7_clip_not_skip` shows this
is what `_connect_warehouses_to_parts` computes whenever inventory draws are
positive. -/
def w2p_loop_alt (whid : String) (available_capacity : ℤ) (ts : ℕ)
    (ver : String) : List Part → ℤ → ℕ → List Edge × List Op × ℤ × ℕ
  | [], cur, ix => ([], [], cur, ix)
  | p :: ps, cur, ix =>
      let draw := pyrandint cfg.INVENTORY_lo cfg.INVENTORY_hi (rng ix)
      if available_capacity - cur ≤ 0 then
        w2p_loop_alt whid available_capacity ts ver ps cur (ix + 1)
      else
        let inventory_level := min draw (available_capacity - cur)
        let cur2 := cur + inventory_level
        let sc := pyuniform cfg.COST_lo cfg.COST_hi (rng (ix + 1))
        let e : Edge :=
          { source_id := whid, target_id := p.id,
            inventory_level := some (inventory_level : ℚ),
            storage_cost := some sc }
        let r := w2p_loop_alt whid available_capacity ts ver ps cur2 (ix + 2)
        (e :: r.1,
         mk_edge_op "create" whid p.id
             [("inventory_level", .q (inventory_level : ℚ)),
              ("storage_cost", .q sc)] "WAREHOUSE_PARTS" ts ver
           :: mk_node_op "update" whid "WAREHOUSE"
             [("current_capacity", .q (cur2 : ℚ))] ts ver
           :: r.2.1,
         r.2.2)

end C7Defs

/-- C7 as amended: whenever the inventory range has a positive lower bound
and the draw stream is valid (every `random()` lies in `[0,1)`), the
warehouse→part loop *clips*: a selected part is skipped exactly when the
remaining capacity `max_capacity - accumulated` is already `≤ 0`, and
otherwise an edge is added whose `inventory_level` is
`min(draw, remaining)` — possibly strictly below the sampled draw
(`C7_counterexample`). -/
theorem C7_clip_not_skip (cfg : Cfg) (rng : ℕ → ℚ) (hlo : 1 ≤ cfg.INVENTORY_lo)
    (hhi : cfg.INVENTORY_lo ≤ cfg.INVENTORY_hi) (hrng : ValidRng rng)
    (whid : String) (available_capacity : ℤ) (ts : ℕ) (ver : String)
    (parts : List Part) (cur : ℤ) (ix : ℕ) :
    w2p_loop cfg rng whid available_capacity ts ver parts cur ix
      = w2p_loop_alt cfg rng whid available_capacity ts ver parts cur ix := by
  induction parts generalizing cur ix with
  | nil => rfl
  | cons p ps ih =>
      have hdraw : 1 ≤ pyrandint cfg.INVENTORY_lo cfg.INVENTORY_hi (rng ix) := by
        have := (pyrandint_mem hhi (hrng ix).1 (hrng ix).2).1
        omega
      by_cases hrem : available_capacity - cur ≤ 0
      · have hmin : min (pyrandint cfg.INVENTORY_lo cfg.INVENTORY_hi (rng ix))
            (available_capacity - cur) ≤ 0 := le_trans (min_le_right _ _) hrem
        simp only [w2p_loop, w2p_loop_alt, if_pos hmin, if_pos hrem]
        exact ih _ _
      · have hmin : ¬ min (pyrandint cfg.INVENTORY_lo cfg.INVENTORY_hi (rng ix))
            (available_capacity - cur) ≤ 0 := by
          push_neg
          exact lt_min (by omega) (by omega)
        simp only [w2p_loop, w2p_loop_alt, if_neg hmin, if_neg hrem]
        rw [ih]

/-- The constant draw stream `101/1902`, chosen so that
`randint(50, 1000)` yields exactly `100`. -/
def rng7 : ℕ → ℚ := fun _ => 101/1902

/-- C7 as frozen is false: with remaining capacity `60` and a sampled draw
of `100`, the part is *not* skipped — an edge is added whose
`inventory_level` is the clipped value `60`, strictly below the draw. -/
theorem C7_counterexample :
    pyrandint cfgW.INVENTORY_lo cfgW.INVENTORY_hi (rng7 0) = 100
    ∧ ((w2p_loop cfgW rng7 "W_001" 60 0 "NSS_V1"
        [⟨"P_001", "Part_1", "raw", "metal", 50, 1/2, 0, 360⟩] 0 0).1.map
          Edge.inventory_level) = [some (60 : ℚ)]
    ∧ (60 : ℚ) < 100 := by
  have hdraw : pyrandint cfgW.INVENTORY_lo cfgW.INVENTORY_hi (rng7 0) = 100 := by
    rw [pyrandint]
    norm_num [cfgW, rng7]
  refine ⟨hdraw, ?_, by norm_num⟩
  simp only [w2p_loop, hdraw]
  norm_num

/-- Concrete instantiation of `C7_clip_not_skip` on the counterexample
inputs. -/
theorem C7_witness :
    w2p_loop cfgW rng7 "W_001" 60 0 "NSS_V1"
        [⟨"P_001", "Part_1", "raw", "metal", 50, 1/2, 0, 360⟩] 0 0
      = w2p_loop_alt cfgW rng7 "W_001" 60 0 "NSS_V1"
        [⟨"P_001", "Part_1", "raw", "metal", 50, 1/2, 0, 360⟩] 0 0 :=
  C7_clip_not_skip cfgW rng7 (by norm_num [cfgW]) (by norm_num [cfgW])
    (fun i => by norm_num [rng7]) "W_001" 60 0 "NSS_V1" _ 0 0

/-! ### Claim C6 -/

section C6Lemmas

variable (cfg : Cfg) (rng : ℕ → ℚ)

/-- Pass 1 never fails: both sample sizes are clamped by
`min(max_connections, len(pool))`. -/
theorem connect_suppliers_go_ok (sups : List Supplier) :
    ∀ s : St, ∃ s', connect_suppliers_go cfg rng sups s = .ok s' := by
  induction sups with
  | nil => exact fun s => ⟨s, rfl⟩
  | cons sup rest ih =>
      intro s
      simp only [connect_suppliers_go,
        pysample_ok (Nat.min_le_right
          (cfg.SUPPLIER_SIZES sup.size_category).max_connections
          s.warehouses_supplier.length)]
      by_cases h1 : supplies_any sup.supplied_part_types cfg.PART_TYPES_raw
      · simp only [h1, if_true]
        by_cases h2 : supplies_any sup.supplied_part_types
            cfg.PART_TYPES_subassembly
        · simp only [h2, if_true,
            pysample_ok (Nat.min_le_right _ _)]
          exact ih _
        · simp only [h2, if_false]
          exact ih _
      · simp only [h1, if_false]
        by_cases h2 : supplies_any sup.supplied_part_types
            cfg.PART_TYPES_subassembly
        · simp only [h2, if_true,
            pysample_ok (Nat.min_le_right _ _)]
          exact ih _
        · simp only [h2, if_false]
          exact ih _

/-- Pass 2 never fails: the sample size is clamped by
`min(max_parts, len(pool))`. -/
theorem connect_warehouses_go_ok (whs : List (ℕ × Warehouse)) :
    ∀ s : St, ∃ s', connect_warehouses_go cfg rng whs s = .ok s' := by
  induction whs with
  | nil => exact fun s => ⟨s, rfl⟩
  | cons iw rest ih =>
      intro s
      obtain ⟨i, w⟩ := iw
      simp only [connect_warehouses_go]
      by_cases ht : w.wtype = "supplier"
      · simp only [ht, if_pos rfl, pysample_ok (Nat.min_le_right _ _)]
        exact ih _
      · simp only [if_neg ht, pysample_ok (Nat.min_le_right _ _)]
        exact ih _

/-- Pass 4 never fails once the offering catalog has at least 6 entries
(the fixed catalog has 21): the drawn sample size lies in
`[2, max(3, len//2)] ⊆ [2, len]`. -/
theorem cfp_go_ok (hrng : ValidRng rng) (facs : List Facility) :
    ∀ s : St, 6 ≤ s.product_offerings.length →
      ∃ s', cfp_go cfg rng facs s = .ok s' := by
  induction facs with
  | nil => exact fun s _ => ⟨s, rfl⟩
  | cons f fs ih =>
      intro s hlen
      have hhi : (2 : ℤ) ≤ max 3 ((s.product_offerings.length : ℤ) / 2) := by
        have := le_max_left (3 : ℤ) ((s.product_offerings.length : ℤ) / 2)
        omega
      have hk := pyrandint_mem hhi (hrng s.rngIx).1 (hrng s.rngIx).2
      have hk2 : (pyrandint 2 (max 3 ((s.product_offerings.length : ℤ) / 2))
          (rng s.rngIx)).toNat ≤ s.product_offerings.length := by
        have hmax : max 3 ((s.product_offerings.length : ℤ) / 2)
            ≤ (s.product_offerings.length : ℤ) := by
          have h6 : (6 : ℤ) ≤ (s.product_offerings.length : ℤ) := by
            exact_mod_cast hlen
          have : (3 : ℤ) ≤ (s.product_offerings.length : ℤ) / 2 := by omega
          have : (s.product_offerings.length : ℤ) / 2
              ≤ (s.product_offerings.length : ℤ) := by omega
          omega
        omega
      simp only [cfp_go, pysample, if_pos hk2]
      exact ih _ (by simpa using hlen)

end C6Lemmas

/-- C6 as amended: the clamping policy holds in passes 1 and 2 (supplier→
warehouse and warehouse→part), whose sample sizes are clamped with `min`,
so they run to completion on every state; pass 4's unclamped sample size
never exceeds the pool once the offering catalog has at least its fixed 6+
(actually 21) entries; but pass 3 samples *without* clamping
(`randint(2, max(3, len//2))` and `randint(1, 3)`), so topology construction
can abort with an out-of-range sampling failure (`C6_counterexample`, at
population sizes matching `total_variable_nodes = 14`); pass 5 performs no
sampling at all. -/
theorem C6_sampling_clamped (cfg : Cfg) (rng : ℕ → ℚ) :
    (∀ s : St, ∃ s', connect_suppliers_to_warehouses cfg rng s = .ok s')
    ∧ (∀ s : St, ∃ s', connect_warehouses_to_parts cfg rng s = .ok s')
    ∧ (ValidRng rng → ∀ s : St, 6 ≤ s.product_offerings.length →
        ∃ s', connect_facilities_to_products cfg rng s = .ok s') := by
  exact ⟨fun s => connect_suppliers_go_ok cfg rng s.suppliers s,
    fun s => connect_warehouses_go_ok cfg rng s.warehouses_all.enum s,
    fun hrng s hlen => cfp_go_ok cfg rng hrng s.facilities_lam s hlen⟩

/-- The constant draw stream `3/4`: it makes `randint(2, 3)` draw `3` and
`randint(1, 3)` draw `3`. -/
def rng6 : ℕ → ℚ := fun _ => 3/4

/-- A state with the populations `calculate_node_distribution 14` produces:
one external facility, four raw parts, two subassembly parts. -/
def cex6 : St :=
  { SupplyChainGenerator_init 14 2 "NSS_V1" with
    facilities_external :=
      [⟨"F_001", "Facility_1", "external", "California", 5000, 500⟩]
    parts_raw :=
      [⟨"P_001", "Part_1", "raw", "metal", 50, 1/2, 0, 360⟩,
       ⟨"P_002", "Part_2", "raw", "metal", 50, 1/2, 0, 360⟩,
       ⟨"P_003", "Part_3", "raw", "metal", 50, 1/2, 0, 360⟩,
       ⟨"P_004", "Part_4", "raw", "metal", 50, 1/2, 0, 360⟩]
    parts_subassembly :=
      [⟨"P_005", "Part_5", "subassembly", "module", 50, 1/2, 0, 360⟩,
       ⟨"P_006", "Part_6", "subassembly", "module", 50, 1/2, 0, 360⟩] }

/-- C6 as frozen is false: at the populations of
`total_variable_nodes = 14` (raw 4, subassembly 2, external facility 1) the
third wiring pass draws the subassembly sample size `randint(1, 3) = 3`,
which exceeds the population of 2, and `random.sample` raises instead of
clamping. -/
theorem C6_counterexample :
    (calculate_node_distribution 14).raw = 4
    ∧ (calculate_node_distribution 14).subassembly = 2
    ∧ (calculate_node_distribution 14).external = 1
    ∧ (calculate_node_distribution 14).lam = 0
    ∧ connect_parts_to_facilities cfgW rng6 cex6
        = .error "Sample larger than population or is negative" := by
  refine ⟨?_, ?_, ?_, ?_, ?_⟩
  · simp only [calculate_node_distribution]; norm_num
  · simp only [calculate_node_distribution]; norm_num
  · simp only [calculate_node_distribution]; norm_num
  · simp only [calculate_node_distribution]; norm_num
  · have hk1 : pyrandint 2 (max 3 ((4 : ℤ) / 2)) (rng6 0) = 3 := by
      rw [pyrandint]; norm_num [rng6]
    have hk2 : pyrandint 1 3 (rng6 13) = 3 := by
      rw [pyrandint]; norm_num [rng6]
    norm_num [connect_parts_to_facilities, cptf_external, p2f_edges, pysample,
      cex6, SupplyChainGenerator_init, hk1, hk2, pyrandint, pyuniform, rng6,
      cfgW]

/-- A state with a six-offering catalog and one LAM facility, for
instantiating the pass-4 conjunct of `C6_sampling_clamped`. -/
def cex6b : St :=
  { SupplyChainGenerator_init 0 2 "NSS_V1" with
    facilities_lam := [⟨"F_001", "Facility_1", "lam", "Texas", 5000, 500⟩]
    product_offerings :=
      [⟨"PO_001", "a", 1, 1⟩, ⟨"PO_002", "b", 1, 1⟩, ⟨"PO_003", "c", 1, 1⟩,
       ⟨"PO_004", "d", 1, 1⟩, ⟨"PO_005", "e", 1, 1⟩, ⟨"PO_006", "f", 1, 1⟩] }

/-- Concrete instantiation of `C6_sampling_clamped`: passes 1 and 2 succeed
on `cex6`, and pass 4 succeeds on the six-offering state `cex6b`. -/
theorem C6_witness :
    (connect_suppliers_to_warehouses cfgW rng6 cex6).isOk = true
    ∧ (connect_warehouses_to_parts cfgW rng6 cex6).isOk = true
    ∧ (connect_facilities_to_products cfgW rng6 cex6b).isOk = true := by
  refine ⟨?_, ?_, ?_⟩
  · obtain ⟨s', h⟩ := (C6_sampling_clamped cfgW rng6).1 cex6
    rw [h]; rfl
  · obtain ⟨s', h⟩ := (C6_sampling_clamped cfgW rng6).2.1 cex6
    rw [h]; rfl
  · obtain ⟨s', h⟩ := (C6_sampling_clamped cfgW rng6).2.2
      (fun i => by norm_num [rng6]) cex6b
      (by norm_num [cex6b, SupplyChainGenerator_init])
    rw [h]; rfl

/-! ### Claim C8 -/

/-- The capacity value carried by a `current_capacity` update record. -/
def payload_capacity_value : OpPayload → Option ℚ
  | .node _ _ (("current_capacity", .q v) :: _) => some v
  | _ => none

/-- The temporal formula maps a zero base to exactly zero. -/
theorem generate_temporal_value_zero (cfg : Cfg) (rng : ℕ → ℚ)
    (ft : String) (t ix : ℕ) :
    generate_temporal_value cfg rng 0 ft t ix = 0 := by
  simp [generate_temporal_value]

/-- Pointwise bound interface: every stored warehouse capacity lies between
`0` and that warehouse's `max_capacity`. -/
def whCapInv (whs : List Warehouse) (g : Graph) : Prop :=
  ∀ i w c, whs.get? i = some w → g.whCap.get? i = some c →
    0 ≤ c ∧ c ≤ (w.max_capacity : ℚ)

section C8Lemmas

variable (cfg : Cfg) (rng : ℕ → ℚ)

/-- The incremental warehouse block recomputes entry `i` from the `i`-th
warehouse dict's `current_capacity`. -/
theorem update_warehouse_attributes_get (t : ℕ) (whs : List Warehouse)
    (ix i : ℕ) (w : Warehouse) (hw : whs.get? i = some w) :
    (update_warehouse_attributes cfg rng t whs ix).values.get? i
      = some (generate_temporal_value cfg rng w.current_capacity "capacity" t
          (ix + i)) := by
  induction whs generalizing ix i with
  | nil => cases hw
  | cons a ws ih =>
      cases i with
      | zero =>
          simp only [List.get?_cons_zero, Option.some.injEq] at hw
          subst hw
          rfl
      | succ i =>
          simp only [List.get?_cons_succ] at hw
          simp only [update_warehouse_attributes, List.get?_cons_succ]
          rw [ih _ _ hw]
          congr 2
          omega

/-- The warehouse capacities of an incremental update are exactly the
incremental warehouse block over the warehouse dicts. -/
theorem update_period_attributes_whCap (bg : BG) (fams : List Family)
    (offs : List Offering) (whs : List Warehouse) (sups : List Supplier)
    (parts : List Part) (g : Graph) (t ix : ℕ) :
    (update_period_attributes cfg rng bg fams offs whs sups parts g t ix).1.whCap
      = (update_warehouse_attributes cfg rng t whs
          (ix + 1 + fams.length + 2 * offs.length)).values := by
  simp only [update_period_attributes]
  rw [update_families_ix, update_product_attributes_ix]

end C8Lemmas

/-- C8: warehouse `current_capacity` stays within `[0, max_capacity]`
everywhere: (1) along the warehouse→part wiring loop, the accumulated
capacity and every logged `current_capacity` update value stay within
bounds; (2) the whole pass preserves the pointwise graph bound and appends
only in-bound capacity records; (3) every snapshot stored by full
regeneration satisfies the bound (periods `≥ 1` recompute capacity from the
dicts' zero base, giving exactly `0`); (4) so does every snapshot after an
incremental extension. -/
theorem C8_capacity_bounds (cfg : Cfg) (rng : ℕ → ℚ) :
    (∀ (whid : String) (cap : ℤ) (ts : ℕ) (ver : String) (parts : List Part)
        (cur : ℤ) (ix : ℕ), 0 ≤ cur → cur ≤ cap →
      (0 ≤ (w2p_loop cfg rng whid cap ts ver parts cur ix).2.2.1
        ∧ (w2p_loop cfg rng whid cap ts ver parts cur ix).2.2.1 ≤ cap)
      ∧ (∀ op ∈ (w2p_loop cfg rng whid cap ts ver parts cur ix).2.1, ∀ v,
          payload_capacity_value op.payload = some v → 0 ≤ v ∧ v ≤ (cap : ℚ)))
    ∧ (∀ (whs : List (ℕ × Warehouse)) (s s' : St),
        connect_warehouses_go cfg rng whs s = .ok s' →
        (∀ iw ∈ whs, s.warehouses_all.get? iw.1 = some iw.2
          ∧ 0 ≤ iw.2.max_capacity) →
        whCapInv s.warehouses_all s.G →
        whCapInv s.warehouses_all s'.G
        ∧ (∃ L, s'.operations_log = s.operations_log ++ L
            ∧ ∀ op ∈ L, ∀ v, payload_capacity_value op.payload = some v →
              0 ≤ v ∧ ∃ w, w ∈ whs.map Prod.snd ∧ v ≤ (w.max_capacity : ℚ))
        ∧ s'.warehouses_all = s.warehouses_all)
    ∧ (∀ s : St,
        (∀ w ∈ s.warehouses_all, w.current_capacity = 0 ∧ 0 ≤ w.max_capacity) →
        whCapInv s.warehouses_all s.G →
        (∀ t g, dictGet s.temporal_graphs t = some g →
          whCapInv s.warehouses_all g) →
        ∀ t g, dictGet (generate_temporal_data cfg rng s).temporal_graphs t
            = some g → whCapInv s.warehouses_all g)
    ∧ (∀ (s : St) (s2 : St),
        (∀ w ∈ s.warehouses_all, w.current_capacity = 0 ∧ 0 ≤ w.max_capacity) →
        (∀ t g, dictGet s.temporal_graphs t = some g →
          whCapInv s.warehouses_all g) →
        simulate_next_period cfg rng s = .ok s2 →
        ∀ t g, dictGet s2.temporal_graphs t = some g →
          whCapInv s.warehouses_all g) := by
  have loop_bounds : ∀ (whid : String) (cap : ℤ) (ts : ℕ) (ver : String)
      (parts : List Part) (cur : ℤ) (ix : ℕ), 0 ≤ cur → cur ≤ cap →
      (0 ≤ (w2p_loop cfg rng whid cap ts ver parts cur ix).2.2.1
        ∧ (w2p_loop cfg rng whid cap ts ver parts cur ix).2.2.1 ≤ cap)
      ∧ (∀ op ∈ (w2p_loop cfg rng whid cap ts ver parts cur ix).2.1, ∀ v,
          payload_capacity_value op.payload = some v → 0 ≤ v ∧ v ≤ (cap : ℚ)) := by
    intro whid cap ts ver parts
    induction parts with
    | nil =>
        intro cur ix h0 hc
        exact ⟨⟨h0, hc⟩, fun op hop => by cases hop⟩
    | cons p ps ih =>
        intro cur ix h0 hc
        by_cases hm : min (pyrandint cfg.INVENTORY_lo cfg.INVENTORY_hi (rng ix))
            (cap - cur) ≤ 0
        · simp only [w2p_loop, if_pos hm]
          exact ih cur (ix + 1) h0 hc
        · have hmin1 : 0 < min (pyrandint cfg.INVENTORY_lo cfg.INVENTORY_hi
              (rng ix)) (cap - cur) := by omega
          have hminr : min (pyrandint cfg.INVENTORY_lo cfg.INVENTORY_hi
              (rng ix)) (cap - cur) ≤ cap - cur := min_le_right _ _
          simp only [w2p_loop, if_neg hm]
          have hrec := ih (cur + min (pyrandint cfg.INVENTORY_lo
            cfg.INVENTORY_hi (rng ix)) (cap - cur)) (ix + 2) (by omega) (by omega)
          refine ⟨hrec.1, ?_⟩
          intro op hop v hv
          rcases List.mem_cons.mp hop with h | hop2
          · subst h
            simp [mk_edge_op, payload_capacity_value] at hv
          rcases List.mem_cons.mp hop2 with h | hop3
          · subst h
            simp only [mk_node_op, payload_capacity_value,
              Option.some.injEq] at hv
            subst hv
            constructor
            · exact_mod_cast (by omega :
                (0 : ℤ) ≤ cur + min (pyrandint cfg.INVENTORY_lo
                  cfg.INVENTORY_hi (rng ix)) (cap - cur))
            · exact_mod_cast (by omega :
                cur + min (pyrandint cfg.INVENTORY_lo cfg.INVENTORY_hi (rng ix))
                  (cap - cur) ≤ cap)
          · exact hrec.2 op hop3 v hv
  have go_inv : ∀ (whs : List (ℕ × Warehouse)) (s s' : St),
      connect_warehouses_go cfg rng whs s = .ok s' →
      (∀ iw ∈ whs, s.warehouses_all.get? iw.1 = some iw.2
        ∧ 0 ≤ iw.2.max_capacity) →
      whCapInv s.warehouses_all s.G →
      whCapInv s.warehouses_all s'.G
      ∧ (∃ L, s'.operations_log = s.operations_log ++ L
          ∧ ∀ op ∈ L, ∀ v, payload_capacity_value op.payload = some v →
            0 ≤ v ∧ ∃ w, w ∈ whs.map Prod.snd ∧ v ≤ (w.max_capacity : ℚ))
      ∧ s'.warehouses_all = s.warehouses_all := by
    intro whs
    induction whs with
    | nil =>
        intro s s' hok hcons hinv
        simp only [connect_warehouses_go] at hok
        injection hok with h
        subst h
        exact ⟨hinv, ⟨[], by simp, fun op hop => by cases hop⟩, rfl⟩
    | cons iw rest ih =>
        intro s s' hok hcons hinv
        obtain ⟨i, w⟩ := iw
        obtain ⟨hwi, hw0⟩ := hcons (i, w) (List.mem_cons_self _ _)
        simp only [connect_warehouses_go,
          pysample_ok (Nat.min_le_right _ _)] at hok
        set sel := (if w.wtype = "supplier" then s.parts_raw
          else s.parts_subassembly).take
          (min w.max_parts (if w.wtype = "supplier" then s.parts_raw
            else s.parts_subassembly).length) with hsel
        set r := w2p_loop cfg rng w.id w.max_capacity s.timestamp s.version sel
          0 s.rngIx with hr
        have hb := loop_bounds w.id w.max_capacity s.timestamp s.version sel 0
          s.rngIx le_rfl hw0
        have hstep : whCapInv s.warehouses_all
            { s.G with
              edges := s.G.edges ++ r.1
              whCap := if r.1.isEmpty then s.G.whCap
                else s.G.whCap.set i ((r.2.2.1 : ℚ)) } := by
          intro j wj c hj hcj
          by_cases he : r.1.isEmpty
          · rw [if_pos he] at hcj
            exact hinv j wj c hj hcj
          · rw [if_neg he] at hcj
            by_cases hij : i = j
            · subst hij
              rw [List.get?_set_eq] at hcj
              cases hold : s.G.whCap.get? i with
              | none => rw [hold] at hcj; cases hcj
              | some old =>
                  rw [hold] at hcj
                  simp only [Option.map_some] at hcj
                  cases hcj
                  have : wj = w := by
                    rw [hj] at hwi
                    exact (Option.some.injEq _ _).mp hwi
                  subst this
                  constructor
                  · exact_mod_cast hb.1.1
                  · exact_mod_cast hb.1.2
            · rw [List.get?_set_ne _ _ (fun h => hij h)] at hcj
              exact hinv j wj c hj hcj
        have hcons2 : ∀ iw2 ∈ rest,
            ({ s with
                G := { s.G with
                  edges := s.G.edges ++ r.1
                  whCap := if r.1.isEmpty then s.G.whCap
                    else s.G.whCap.set i ((r.2.2.1 : ℚ)) }
                operations_log := s.operations_log ++ r.2.1
                rngIx := r.2.2.2 } : St).warehouses_all.get? iw2.1
              = some iw2.2 ∧ 0 ≤ iw2.2.max_capacity :=
          fun iw2 h2 => hcons iw2 (List.mem_cons_of_mem _ h2)
        obtain ⟨hinv', ⟨L2, hlog2, hP2⟩, hwall⟩ := ih _ _ hok hcons2 hstep
        refine ⟨hinv', ⟨r.2.1 ++ L2, ?_, ?_⟩, hwall⟩
        · rw [hlog2]
          simp [List.append_assoc]
        · intro op hop v hv
          rcases List.mem_append.mp hop with h | h
          · obtain ⟨h1, h2⟩ := hb.2 op h v hv
            exact ⟨h1, w, by simp, h2⟩
          · obtain ⟨h1, wx, hwx, h2⟩ := hP2 op h v hv
            exact ⟨h1, wx, by simp [List.mem_cons_of_mem]; right; simpa using hwx,
              h2⟩
  refine ⟨loop_bounds, go_inv, ?_, ?_⟩
  · intro s hw0 hG hold t g hget
    have hkeys := genTD_chain_keys cfg rng s.business_group s.product_families
      s.product_offerings s.warehouses_all s.suppliers s.parts_all s.G s.version
      s.timestamp s.rngIx (s.base_periods - 1)
    rw [generate_temporal_data_spec] at hget
    simp only at hget
    by_cases ht0 : t = 0
    · subst ht0
      rw [dictGet_foldl_notmem, dictGet_dictSet_self] at hget
      · cases hget
        exact hG
      · intro p hp hk
        have : p.1 ∈ (St.chain cfg rng s).1.map Prod.fst :=
          List.mem_map_of_mem Prod.fst hp
        rw [St.chain, hkeys, hk, List.mem_range'_1] at this
        omega
    · by_cases htr : 1 ≤ t ∧ t ≤ s.base_periods - 1
      · have hmem := genTD_chain_mem cfg rng s.business_group s.product_families
          s.product_offerings s.warehouses_all s.suppliers s.parts_all s.G
          s.version s.timestamp s.rngIx (s.base_periods - 1) t htr.1 htr.2
        have hnd : ((St.chain cfg rng s).1.map Prod.fst).Nodup := by
          rw [St.chain, hkeys]; exact List.nodup_range' 1 _
        rw [dictGet_foldl_mem (fun tp => tp.2.graph) Prod.fst _ _ _ hnd hmem]
          at hget
        cases hget
        intro i w c hwi hci
        rw [genTD_period_whCap,
          upd_warehouses_log_get cfg rng _ _ _ _ _ _ _ hwi] at hci
        have hw := hw0 w (List.get?_mem hwi)
        rw [hw.1, generate_temporal_value_zero] at hci
        cases hci
        exact ⟨le_rfl, by exact_mod_cast hw.2⟩
      · rw [dictGet_foldl_notmem] at hget
        · rw [dictGet_dictSet_ne _ _ _ _ ht0] at hget
          exact hold t g hget
        · intro p hp hk
          have : p.1 ∈ (St.chain cfg rng s).1.map Prod.fst :=
            List.mem_map_of_mem Prod.fst hp
          rw [St.chain, hkeys, hk, List.mem_range'_1] at this
          omega
  · intro s s2 hw0 hold hok t g hget
    unfold simulate_next_period at hok
    cases hlast : dictLast s.temporal_graphs with
    | none => rw [hlast] at hok; cases hok
    | some kg =>
        obtain ⟨k, gbase⟩ := kg
        rw [hlast] at hok
        injection hok with h
        subst h
        simp only at hget
        by_cases hk : t = k + 1
        · subst hk
          rw [dictGet_dictSet_self] at hget
          cases hget
          intro i w c hwi hci
          rw [update_period_attributes_whCap,
            update_warehouse_attributes_get cfg rng _ _ _ _ _ hwi] at hci
          have hw := hw0 w (List.get?_mem hwi)
          rw [hw.1, generate_temporal_value_zero] at hci
          cases hci
          exact ⟨le_rfl, by exact_mod_cast hw.2⟩
        · rw [dictGet_dictSet_ne _ _ _ _ hk] at hget
          exact hold t g hget

/-- Concrete instantiation of `C8_capacity_bounds` (loop conjunct) on the
`C7` inputs: with `max_capacity = 60` the accumulated capacity ends within
`[0, 60]`. -/
theorem C8_witness :
    0 ≤ (w2p_loop cfgW rng7 "W_001" 60 0 "NSS_V1"
        [⟨"P_001", "Part_1", "raw", "metal", 50, 1/2, 0, 360⟩] 0 0).2.2.1
    ∧ (w2p_loop cfgW rng7 "W_001" 60 0 "NSS_V1"
        [⟨"P_001", "Part_1", "raw", "metal", 50, 1/2, 0, 360⟩] 0 0).2.2.1 ≤ 60 :=
  ((C8_capacity_bounds cfgW rng7).1 "W_001" 60 0 "NSS_V1"
    [⟨"P_001", "Part_1", "raw", "metal", 50, 1/2, 0, 360⟩] 0 0 (by norm_num)
    (by norm_num)).1

/-! ### Log-correspondence lemmas (claim C5) -/

/-- The `create` record of a supplier→warehouse edge, as a function of the
edge itself. -/
def s2w_rec (ts : ℕ) (ver : String) (e : Edge) : Op :=
  mk_edge_op "create" e.source_id e.target_id
    [("transportation_cost", .q (e.transportation_cost.getD 0)),
     ("lead_time", .q (e.lead_time.getD 0))] "SUPPLIERS_WAREHOUSE" ts ver

/-- The record block of the warehouse→part loop, as a function of the added
edges: one edge-create record followed by one running-capacity update record
per edge. -/
def w2p_ops_spec (whid : String) (ts : ℕ) (ver : String) :
    List Edge → ℚ → List Op
  | [], _ => []
  | e :: es, cur =>
      let cur2 := cur + e.inventory_level.getD 0
      mk_edge_op "create" whid e.target_id
          [("inventory_level", .q (e.inventory_level.getD 0)),
           ("storage_cost", .q (e.storage_cost.getD 0))] "WAREHOUSE_PARTS" ts ver
        :: mk_node_op "update" whid "WAREHOUSE" [("current_capacity", .q cur2)]
          ts ver
        :: w2p_ops_spec whid ts ver es cur2

/-- The `create` record of a pass-3 edge (part→facility edges carry a
`distance`; facility→part edges do not). -/
def p3_rec (ts : ℕ) (ver : String) (e : Edge) : Op :=
  if e.distance.isSome then
    mk_edge_op "create" e.source_id e.target_id
      [("quantity", .i (e.quantity.getD 0)), ("distance", .i (e.distance.getD 0)),
       ("transport_cost", .q (e.transport_cost.getD 0)),
       ("lead_time", .q (e.lead_time.getD 0))] "PARTS_FACILITY" ts ver
  else
    mk_edge_op "create" e.source_id e.target_id
      [("production_cost", .q (e.production_cost.getD 0)),
       ("lead_time", .q (e.lead_time.getD 0)),
       ("quantity", .i (e.quantity.getD 0))] "FACILITY_PARTS" ts ver

/-- The `create` record of a pass-4 edge (facility→offering edges carry a
`product_cost`; offering→warehouse storage edges do not). -/
def p4_rec (ts : ℕ) (ver : String) (e : Edge) : Op :=
  if e.product_cost.isSome then
    mk_edge_op "create" e.source_id e.target_id
      [("product_cost", .q (e.product_cost.getD 0)),
       ("lead_time", .q (e.lead_time.getD 0)),
       ("quantity", .i (e.quantity.getD 0))] "FACILITY_PRODUCT_OFFERING" ts ver
  else
    mk_edge_op "create" e.source_id e.target_id
      [("inventory_level", .q (e.inventory_level.getD 0)),
       ("storage_cost", .q (e.storage_cost.getD 0))]
      "PRODUCT_OFFERING_WAREHOUSE" ts ver

section C5FactoryLemmas

variable (cfg : Cfg) (rng : ℕ → ℚ)

theorem gen_families_ops (ts : ℕ) (ver : String) (names : List String)
    (i ix : ℕ) :
    (gen_families cfg rng ts ver names i ix).2.1
      = (gen_families cfg rng ts ver names i ix).1.map
          (fun pf => mk_node_op "create" pf.id "PRODUCT_FAMILY"
            (family_props pf) ts ver) := by
  induction names generalizing i ix with
  | nil => rfl
  | cons nm rest ih => simp only [gen_families, List.map_cons, ih]

theorem gen_offerings_in_ops (ts : ℕ) (ver : String) (names : List String)
    (ctr ix : ℕ) :
    (gen_offerings_in cfg rng ts ver names ctr ix).2.1
      = (gen_offerings_in cfg rng ts ver names ctr ix).1.map
          (fun po => mk_node_op "create" po.id "PRODUCT_OFFERING"
            (offering_props po) ts ver) := by
  induction names generalizing ctr ix with
  | nil => rfl
  | cons nm rest ih => simp only [gen_offerings_in, List.map_cons, ih]

theorem gen_offerings_out_ops (ts : ℕ) (ver : String) (fams : List Family)
    (ctr ix : ℕ) :
    (gen_offerings_out cfg rng ts ver fams ctr ix).2.1
      = (gen_offerings_out cfg rng ts ver fams ctr ix).1.map
          (fun po => mk_node_op "create" po.id "PRODUCT_OFFERING"
            (offering_props po) ts ver) := by
  induction fams generalizing ctr ix with
  | nil => rfl
  | cons pf rest ih =>
      simp only [gen_offerings_out]
      cases cfg.PRODUCT_OFFERINGS pf.name with
      | none => exact ih _ _
      | some names =>
          simp only [List.map_append, ih, gen_offerings_in_ops]

theorem gen_warehouses_cat_ops (wtype : String) (n counter ix ts : ℕ)
    (ver : String) :
    (gen_warehouses_cat cfg rng wtype n counter ix ts ver).2.1
      = (gen_warehouses_cat cfg rng wtype n counter ix ts ver).1.map
          (fun w => mk_node_op "create" w.id "WAREHOUSE" (warehouse_props w)
            ts ver) := by
  induction n generalizing counter ix with
  | zero => rfl
  | succ n ih => simp only [gen_warehouses_cat, List.map_cons, ih]

theorem gen_facilities_cat_ops (ftype : String) (n counter ix ts : ℕ)
    (ver : String) :
    (gen_facilities_cat cfg rng ftype n counter ix ts ver).2.1
      = (gen_facilities_cat cfg rng ftype n counter ix ts ver).1.map
          (fun f => mk_node_op "create" f.id "FACILITY" (facility_props f)
            ts ver) := by
  induction n generalizing counter ix with
  | zero => rfl
  | succ n ih => simp only [gen_facilities_cat, List.map_cons, ih]

theorem gen_parts_cat_ops (ptype : String) (n counter ix ts : ℕ)
    (ver : String) :
    (gen_parts_cat cfg rng ptype n counter ix ts ver).2.1
      = (gen_parts_cat cfg rng ptype n counter ix ts ver).1.map
          (fun p => mk_node_op "create" p.id "PARTS" (part_props p) ts ver) := by
  induction n generalizing counter ix with
  | zero => rfl
  | succ n ih => simp only [gen_parts_cat, List.map_cons, ih]

/-- The supplier factory appends exactly one `create` record (with the full
supplier payload) per supplier it appends, and touches neither the timestamp
nor the version. -/
theorem gen_suppliers_cat_log (cat : String) (n : ℕ) :
    ∀ (counter : ℕ) (s : St) (c2 : ℕ) (s2 : St),
      gen_suppliers_cat cfg rng cat n counter s = .ok (c2, s2) →
      ∃ new, s2.suppliers = s.suppliers ++ new
        ∧ s2.operations_log = s.operations_log
            ++ new.map (fun p => mk_node_op "create" p.id "SUPPLIERS"
                (supplier_props p) s.timestamp s.version)
        ∧ s2.timestamp = s.timestamp ∧ s2.version = s.version := by
  induction n with
  | zero =>
      intro counter s c2 s2 hok
      simp only [gen_suppliers_cat] at hok
      injection hok with h
      injection h with h1 h2
      subst h2
      exact ⟨[], by simp, by simp, rfl, rfl⟩
  | succ n ih =>
      intro counter s c2 s2 hok
      simp only [gen_suppliers_cat] at hok
      split at hok
      · cases hok
      · split at hok
        · cases hok
        · obtain ⟨new, h1, h2, h3, h4⟩ := ih _ _ _ _ hok
          refine ⟨_ :: new, by simpa [List.append_assoc] using h1, ?_,
            by simpa using h3, by simpa using h4⟩
          rw [h2]
          simp [List.append_assoc]

end C5FactoryLemmas

section C5PassLemmas

variable (cfg : Cfg) (rng : ℕ → ℚ)

theorem s2w_edges_ops (sid : String) (ts : ℕ) (ver : String)
    (ws : List Warehouse) (ix : ℕ) :
    (s2w_edges cfg rng sid ts ver ws ix).2.1
      = (s2w_edges cfg rng sid ts ver ws ix).1.map (s2w_rec ts ver) := by
  induction ws generalizing ix with
  | nil => rfl
  | cons w ws ih =>
      simp only [s2w_edges, List.map_cons, ih]
      rfl

/-- Pass 1 appends exactly one `create` record per appended edge, with the
payload read off the edge. -/
theorem connect_suppliers_go_log (sups : List Supplier) :
    ∀ s s' : St, connect_suppliers_go cfg rng sups s = .ok s' →
      ∃ E, s'.G.edges = s.G.edges ++ E
        ∧ s'.operations_log = s.operations_log
            ++ E.map (s2w_rec s.timestamp s.version)
        ∧ s'.timestamp = s.timestamp ∧ s'.version = s.version := by
  induction sups with
  | nil =>
      intro s s' hok
      simp only [connect_suppliers_go] at hok
      injection hok with h
      subst h
      exact ⟨[], by simp, by simp, rfl, rfl⟩
  | cons sup rest ih =>
      intro s s' hok
      simp only [connect_suppliers_go,
        pysample_ok (Nat.min_le_right _ _)] at hok
      by_cases h1 : supplies_any sup.supplied_part_types cfg.PART_TYPES_raw <;>
        by_cases h2 : supplies_any sup.supplied_part_types
          cfg.PART_TYPES_subassembly <;>
        simp only [h1, h2, if_true, if_false] at hok <;>
        obtain ⟨E3, he3, hl3, ht3, hv3⟩ := ih _ _ hok
      · exact ⟨_ ++ (_ ++ E3), by simpa [List.append_assoc] using he3,
          by simpa [List.append_assoc, List.map_append, s2w_edges_ops] using hl3,
          by simpa using ht3, by simpa using hv3⟩
      · exact ⟨_ ++ E3, by simpa [List.append_assoc] using he3,
          by simpa [List.append_assoc, List.map_append, s2w_edges_ops] using hl3,
          by simpa using ht3, by simpa using hv3⟩
      · exact ⟨_ ++ E3, by simpa [List.append_assoc] using he3,
          by simpa [List.append_assoc, List.map_append, s2w_edges_ops] using hl3,
          by simpa using ht3, by simpa using hv3⟩
      · exact ⟨E3, he3, hl3, ht3, hv3⟩

/-- The warehouse→part loop's records are exactly the
edge-create/capacity-update pairs derived from its added edges. -/
theorem w2p_loop_ops_spec (whid : String) (cap : ℤ) (ts : ℕ) (ver : String)
    (parts : List Part) :
    ∀ (cur : ℤ) (ix : ℕ),
      (w2p_loop cfg rng whid cap ts ver parts cur ix).2.1
        = w2p_ops_spec whid ts ver
            (w2p_loop cfg rng whid cap ts ver parts cur ix).1 (cur : ℚ) := by
  induction parts with
  | nil => intro cur ix; rfl
  | cons p ps ih =>
      intro cur ix
      by_cases hm : min (pyrandint cfg.INVENTORY_lo cfg.INVENTORY_hi (rng ix))
          (cap - cur) ≤ 0
      · simp only [w2p_loop, if_pos hm]
        exact ih _ _
      · simp only [w2p_loop, if_neg hm, w2p_ops_spec]
        rw [ih]
        simp [Int.cast_add]

/-- Pass 2's appended records decompose into per-warehouse blocks of
edge-create/capacity-update pairs. -/
theorem connect_warehouses_go_log (whs : List (ℕ × Warehouse)) :
    ∀ s s' : St, connect_warehouses_go cfg rng whs s = .ok s' →
      ∃ blocks : List (String × List Edge),
        s'.G.edges = s.G.edges ++ blocks.flatMap Prod.snd
        ∧ s'.operations_log = s.operations_log
            ++ blocks.flatMap
              (fun b => w2p_ops_spec b.1 s.timestamp s.version b.2 0)
        ∧ s'.timestamp = s.timestamp ∧ s'.version = s.version := by
  induction whs with
  | nil =>
      intro s s' hok
      simp only [connect_warehouses_go] at hok
      injection hok with h
      subst h
      exact ⟨[], by simp, by simp, rfl, rfl⟩
  | cons iw rest ih =>
      intro s s' hok
      obtain ⟨i, w⟩ := iw
      simp only [connect_warehouses_go,
        pysample_ok (Nat.min_le_right _ _)] at hok
      obtain ⟨blocks, he, hl, ht, hv⟩ := ih _ _ hok
      refine ⟨(w.id, (w2p_loop cfg rng w.id w.max_capacity s.timestamp
        s.version ((if w.wtype = "supplier" then s.parts_raw
          else s.parts_subassembly).take
          (min w.max_parts (if w.wtype = "supplier" then s.parts_raw
            else s.parts_subassembly).length)) 0 s.rngIx).1) :: blocks,
        ?_, ?_, by simpa using ht, by simpa using hv⟩
      · simpa [List.append_assoc] using he
      · rw [hl]
        simp only [List.flatMap_cons]
        rw [w2p_loop_ops_spec]
        simp [List.append_assoc]

theorem p2f_edges_ops (fid : String) (ts : ℕ) (ver : String)
    (parts : List Part) (ix : ℕ) :
    (p2f_edges cfg rng fid ts ver parts ix).2.1
      = (p2f_edges cfg rng fid ts ver parts ix).1.map (p3_rec ts ver) := by
  induction parts generalizing ix with
  | nil => rfl
  | cons p ps ih =>
      simp only [p2f_edges, List.map_cons, ih, p3_rec]
      simp

theorem f2p_edges_ops (fid : String) (ts : ℕ) (ver : String)
    (parts : List Part) (ix : ℕ) :
    (f2p_edges cfg rng fid ts ver parts ix).2.1
      = (f2p_edges cfg rng fid ts ver parts ix).1.map (p3_rec ts ver) := by
  induction parts generalizing ix with
  | nil => rfl
  | cons p ps ih =>
      simp only [f2p_edges, List.map_cons, ih, p3_rec]
      simp

theorem cptf_external_log (facs : List Facility) :
    ∀ s s' : St, cptf_external cfg rng facs s = .ok s' →
      ∃ E, s'.G.edges = s.G.edges ++ E
        ∧ s'.operations_log = s.operations_log
            ++ E.map (p3_rec s.timestamp s.version)
        ∧ s'.timestamp = s.timestamp ∧ s'.version = s.version
        ∧ s'.facilities_lam = s.facilities_lam := by
  induction facs with
  | nil =>
      intro s s' hok
      simp only [cptf_external] at hok
      injection hok with h
      subst h
      exact ⟨[], by simp, by simp, rfl, rfl, rfl⟩
  | cons f fs ih =>
      intro s s' hok
      simp only [cptf_external] at hok
      split at hok
      · cases hok
      · split at hok
        · cases hok
        · obtain ⟨E3, he3, hl3, ht3, hv3, hf3⟩ := ih _ _ hok
          exact ⟨(_ ++ _) ++ E3, by simpa [List.append_assoc] using he3,
            by simpa [List.append_assoc, List.map_append, p2f_edges_ops,
              f2p_edges_ops] using hl3,
            by simpa using ht3, by simpa using hv3, by simpa using hf3⟩

theorem cptf_lam_log (facs : List Facility) :
    ∀ s s' : St, cptf_lam cfg rng facs s = .ok s' →
      ∃ E, s'.G.edges = s.G.edges ++ E
        ∧ s'.operations_log = s.operations_log
            ++ E.map (p3_rec s.timestamp s.version)
        ∧ s'.timestamp = s.timestamp ∧ s'.version = s.version := by
  induction facs with
  | nil =>
      intro s s' hok
      simp only [cptf_lam] at hok
      injection hok with h
      subst h
      exact ⟨[], by simp, by simp, rfl, rfl⟩
  | cons f fs ih =>
      intro s s' hok
      simp only [cptf_lam] at hok
      split at hok
      · cases hok
      · obtain ⟨E3, he3, hl3, ht3, hv3⟩ := ih _ _ hok
        exact ⟨_ ++ E3, by simpa [List.append_assoc] using he3,
          by simpa [List.append_assoc, List.map_append, p2f_edges_ops]
            using hl3,
          by simpa using ht3, by simpa using hv3⟩

theorem o2w_edges_ops (pid : String) (ts : ℕ) (ver : String)
    (ws : List Warehouse) (ix : ℕ) :
    (o2w_edges cfg rng pid ts ver ws ix).2.1
      = (o2w_edges cfg rng pid ts ver ws ix).1.map (p4_rec ts ver) := by
  induction ws generalizing ix with
  | nil => rfl
  | cons w ws ih =>
      simp only [o2w_edges, List.map_cons, ih, p4_rec]
      simp

theorem f2o_edges_ops (fid : String) (whs_lam : List Warehouse) (ts : ℕ)
    (ver : String) (offs : List Offering) (ix : ℕ) :
    (f2o_edges cfg rng fid whs_lam ts ver offs ix).2.1
      = (f2o_edges cfg rng fid whs_lam ts ver offs ix).1.map (p4_rec ts ver) := by
  induction offs generalizing ix with
  | nil => rfl
  | cons o os ih =>
      simp only [f2o_edges, List.map_cons, List.map_append, ih, o2w_edges_ops,
        p4_rec]
      simp

theorem cfp_go_log (facs : List Facility) :
    ∀ s s' : St, cfp_go cfg rng facs s = .ok s' →
      ∃ E, s'.G.edges = s.G.edges ++ E
        ∧ s'.operations_log = s.operations_log
            ++ E.map (p4_rec s.timestamp s.version)
        ∧ s'.timestamp = s.timestamp ∧ s'.version = s.version := by
  induction facs with
  | nil =>
      intro s s' hok
      simp only [cfp_go] at hok
      injection hok with h
      subst h
      exact ⟨[], by simp, by simp, rfl, rfl⟩
  | cons f fs ih =>
      intro s s' hok
      simp only [cfp_go] at hok
      split at hok
      · cases hok
      · obtain ⟨E3, he3, hl3, ht3, hv3⟩ := ih _ _ hok
        exact ⟨_ ++ E3, by simpa [List.append_assoc] using he3,
          by simpa [List.append_assoc, List.map_append, f2o_edges_ops]
            using hl3,
          by simpa using ht3, by simpa using hv3⟩

/-- Pass 5 appends one empty-payload hierarchy `create` record per appended
edge, with matching endpoints. -/
theorem connect_hierarchy_log (s : St) :
    ∃ E1 E2, (connect_hierarchy cfg s).G.edges = s.G.edges ++ (E1 ++ E2)
      ∧ (connect_hierarchy cfg s).operations_log = s.operations_log
          ++ (E1.map (fun e => mk_edge_op "create" e.source_id e.target_id []
                "BUSINESS_GROUP_PROUDUCT_FAMILY" s.timestamp s.version)
            ++ E2.map (fun e => mk_edge_op "create" e.source_id e.target_id []
                "PRODUCT_FAMILY_PRODUCT_OFFERING" s.timestamp s.version)) := by
  refine ⟨_, _, rfl, ?_⟩
  simp only [connect_hierarchy, List.map_map, List.map_flatMap]
  rfl

end C5PassLemmas

section C5TemporalLemmas

variable (cfg : Cfg) (rng : ℕ → ℚ)

/-- The `update` records one edge contributes in a period, as a function of
the edge before (`e`) and after (`e'`) the update: one record per updated
attribute, carrying only that attribute's new value. -/
def edge_upd_recs (ts : ℕ) (ver : String) (e e' : Edge) : List Op :=
  (if e.transportation_cost.isSome then
    [mk_edge_op "update" e.source_id e.target_id
      [("transportation_cost", .q (e'.transportation_cost.getD 0))]
      "SUPPLIERS_WAREHOUSE" ts ver]
   else [])
  ++ (if e.inventory_level.isSome then
    [mk_edge_op "update" e.source_id e.target_id
      [("inventory_level", .q (e'.inventory_level.getD 0))]
      "WAREHOUSE_PARTS" ts ver]
   else [])

theorem upd_families_ops (t ts : ℕ) (ver : String) (fams : List Family)
    (ix : ℕ) :
    (upd_families_log cfg rng t ts ver fams ix).ops
      = (fams.zip (upd_families_log cfg rng t ts ver fams ix).values).map
          (fun fv => mk_node_op "update" fv.1.id "PRODUCT_FAMILY"
            [("revenue", .q fv.2)] ts ver) := by
  induction fams generalizing ix with
  | nil => rfl
  | cons f fs ih =>
      simp only [upd_families_log, List.zip_cons_cons, List.map_cons, ih]

theorem upd_offerings_ops (t ts : ℕ) (ver : String) (offs : List Offering)
    (ix : ℕ) :
    (upd_offerings_log cfg rng t ts ver offs ix).ops
      = (offs.zip (upd_offerings_log cfg rng t ts ver offs ix).values).map
          (fun ov => mk_node_op "update" ov.1.id "PRODUCT_OFFERING"
            [("demand", .q ov.2.2), ("cost", .q ov.2.1)] ts ver) := by
  induction offs generalizing ix with
  | nil => rfl
  | cons o os ih =>
      simp only [upd_offerings_log, List.zip_cons_cons, List.map_cons, ih]

theorem upd_warehouses_ops (t ts : ℕ) (ver : String) (whs : List Warehouse)
    (ix : ℕ) :
    (upd_warehouses_log cfg rng t ts ver whs ix).ops
      = (whs.zip (upd_warehouses_log cfg rng t ts ver whs ix).values).map
          (fun wv => mk_node_op "update" wv.1.id "WAREHOUSE"
            [("capacity", .q wv.2)] ts ver) := by
  induction whs generalizing ix with
  | nil => rfl
  | cons w ws ih =>
      simp only [upd_warehouses_log, List.zip_cons_cons, List.map_cons, ih]

theorem upd_suppliers_ops (t ts : ℕ) (ver : String) (sups : List Supplier)
    (ix : ℕ) :
    (upd_suppliers_log cfg rng t ts ver sups ix).ops
      = (sups.zip (upd_suppliers_log cfg rng t ts ver sups ix).values).map
          (fun pv => mk_node_op "update" pv.1.id "SUPPLIERS"
            [("reliability", .q pv.2)] ts ver) := by
  induction sups generalizing ix with
  | nil => rfl
  | cons p ps ih =>
      simp only [upd_suppliers_log, List.zip_cons_cons, List.map_cons, ih]

/-- The part block logs exactly one record per in-window part, carrying that
part's new cost; out-of-window parts (whose stored value is the carried-over
one) log nothing. -/
theorem upd_parts_ops (t ts : ℕ) (ver : String) (date : ℤ)
    (parts : List Part) (olds : List ℚ) (ix : ℕ) :
    (upd_parts_log cfg rng t ts ver date parts olds ix).ops
      = ((parts.zip (upd_parts_log cfg rng t ts ver date parts olds ix).values).filter
          (fun pv => decide (pv.1.valid_from ≤ date ∧ date ≤ pv.1.valid_till))).map
          (fun pv => mk_node_op "update" pv.1.id "PARTS"
            [("cost", .q pv.2)] ts ver) := by
  induction parts generalizing olds ix with
  | nil => rfl
  | cons p ps ih =>
      cases olds with
      | nil => rfl
      | cons o os =>
          by_cases hw : p.valid_from ≤ date ∧ date ≤ p.valid_till
          · simp only [upd_parts_log, if_pos hw, List.zip_cons_cons,
              List.filter_cons, hw, decide_true_eq_true, List.map_cons, ih]
            simp [hw]
          · simp only [upd_parts_log, if_neg hw, List.zip_cons_cons,
              List.filter_cons, ih]
            simp [hw]

theorem edge_step_log_ops (t ts : ℕ) (ver : String) (e : Edge) (ix : ℕ) :
    (edge_step_log cfg rng t ts ver e ix).2.2.1
      = edge_upd_recs ts ver e (edge_step_log cfg rng t ts ver e ix).1 := by
  obtain ⟨sid, tid, tc, lt, iv, sc, qv, dv, tcc, prc, pcc, hh⟩ := e
  cases tc <;> cases iv <;>
    simp [edge_step_log, edge_upd_recs]

/-- The edge block logs, per edge, exactly one record per updated attribute:
its records are determined by zipping the baseline edges with the updated
ones. -/
theorem upd_edges_ops (t ts : ℕ) (ver : String) (es : List Edge) (ix : ℕ) :
    (upd_edges_log cfg rng t ts ver es ix).ops
      = (es.zip (upd_edges_log cfg rng t ts ver es ix).values).flatMap
          (fun ee => edge_upd_recs ts ver ee.1 ee.2) := by
  induction es generalizing ix with
  | nil => rfl
  | cons e es ih =>
      simp only [upd_edges_log, List.zip_cons_cons, List.flatMap_cons, ih,
        edge_step_log_ops]

/-- The record list a period *should* produce, read off the stored changes:
`g0` is the baseline graph and `g1` the period's stored graph.  One
business-group update with the new revenue; one update per family /
offering / warehouse / supplier zipped with its new stored value; one update
per in-window part; and per-edge records matching the edges' changed
fields — each record carrying exactly the changed fields. -/
def period_ops_spec (bg : BG) (fams : List Family) (offs : List Offering)
    (whs : List Warehouse) (sups : List Supplier) (parts : List Part)
    (g0 : Graph) (date : ℤ) (ts : ℕ) (ver : String) (g1 : Graph) : List Op :=
  mk_node_op "update" bg.id "BUSINESS_GROUP" [("revenue", .q g1.bgRevenue)]
      ts ver
    :: ((fams.zip g1.famRev).map
        (fun fv => mk_node_op "update" fv.1.id "PRODUCT_FAMILY"
          [("revenue", .q fv.2)] ts ver)
      ++ (offs.zip (g1.offCost.zip g1.offDemand)).map
        (fun ov => mk_node_op "update" ov.1.id "PRODUCT_OFFERING"
          [("demand", .q ov.2.2), ("cost", .q ov.2.1)] ts ver)
      ++ (whs.zip g1.whCap).map
        (fun wv => mk_node_op "update" wv.1.id "WAREHOUSE"
          [("capacity", .q wv.2)] ts ver)
      ++ (sups.zip g1.supRel).map
        (fun pv => mk_node_op "update" pv.1.id "SUPPLIERS"
          [("reliability", .q pv.2)] ts ver)
      ++ ((parts.zip g1.partCost).filter
          (fun pv => decide (pv.1.valid_from ≤ date ∧ date ≤ pv.1.valid_till))).map
        (fun pv => mk_node_op "update" pv.1.id "PARTS"
          [("cost", .q pv.2)] ts ver)
      ++ (g0.edges.zip g1.edges).flatMap
        (fun ee => edge_upd_recs ts ver ee.1 ee.2))

/-- The whole period's record list is exactly the one read off its stored
changes: every record corresponds to a stored change and vice versa. -/
theorem genTD_period_ops (bg : BG) (fams : List Family) (offs : List Offering)
    (whs : List Warehouse) (sups : List Supplier) (parts : List Part)
    (g0 : Graph) (t ts : ℕ) (ver : String) (ix : ℕ) :
    (genTD_period cfg rng bg fams offs whs sups parts g0 t ts ver ix).ops
      = period_ops_spec bg fams offs whs sups parts g0
          (cfg.BASE_DATE + 30 * (t : ℤ)) ts ver
          (genTD_period cfg rng bg fams offs whs sups parts g0
            t ts ver ix).graph := by
  simp only [period_ops_spec, genTD_period]
  rw [upd_families_ops, upd_offerings_ops, upd_warehouses_ops,
    upd_suppliers_ops, upd_parts_ops, upd_edges_ops]
  simp [List.zip_map']

/-- Every element of the chain is a `genTD_period` result for its own key,
at the timestamp the loop reaches for that period. -/
theorem genTD_chain_elem (bg : BG) (fams : List Family) (offs : List Offering)
    (whs : List Warehouse) (sups : List Supplier) (parts : List Part)
    (g0 : Graph) (ver : String) (ts0 ix0 : ℕ) (m : ℕ) :
    ∀ tp ∈ (genTD_chain cfg rng bg fams offs whs sups parts g0 ver ts0 ix0
        m).1,
      ∃ ix, tp.2 = genTD_period cfg rng bg fams offs whs sups parts g0 tp.1
        (ts0 + tp.1) ver ix := by
  induction m with
  | zero => intro tp h; cases h
  | succ m ih =>
      intro tp h
      simp only [genTD_chain] at h
      rcases List.mem_append.mp h with h | h
      · exact ih tp h
      · rcases List.mem_singleton.mp h with rfl
        exact ⟨_, rfl⟩

/-- `calculate_distances` appends nothing to the operations log (and touches
neither the timestamp nor the entity lists). -/
theorem calculate_distances_go_log (whs : List (ℕ × Warehouse)) :
    ∀ s : St, (calculate_distances_go cfg rng whs s).operations_log
        = s.operations_log
      ∧ (calculate_distances_go cfg rng whs s).timestamp = s.timestamp := by
  induction whs with
  | nil => intro s; exact ⟨rfl, rfl⟩
  | cons iw rest ih =>
      intro s
      obtain ⟨i, w⟩ := iw
      simpa [calculate_distances_go] using ih _

/-- `simulate_next_period` appends nothing to the operations log. -/
theorem simulate_next_period_log (s s' : St)
    (hok : simulate_next_period cfg rng s = .ok s') :
    s'.operations_log = s.operations_log := by
  unfold simulate_next_period at hok
  split at hok
  · cases hok
  · injection hok with h
    subst h
    rfl

end C5TemporalLemmas

/-- An empty generator state: no entities, no warehouses, no facilities, so
every wiring pass succeeds immediately. -/
def sW5 : St := SupplyChainGenerator_init 0 2 "NSS_V1"

/-- An empty state carrying a period-0 snapshot, so that
`simulate_next_period` has a latest period to extend. -/
def cexSim : St :=
  { SupplyChainGenerator_init 0 2 "NSS_V1" with
    temporal_graphs := [(0, ⟨0, [], [], [], [], [], [], [], []⟩)] }

/-- The state `simulate_next_period` produces from `cexSim`: period 1 is
stored and `current_period` advances, with no log record. -/
def cexSimNext : St :=
  { cexSim with
    temporal_graphs := dictSet cexSim.temporal_graphs 1
      (update_period_attributes cfgW rngW cexSim.business_group
        cexSim.product_families cexSim.product_offerings cexSim.warehouses_all
        cexSim.suppliers cexSim.parts_all ⟨0, [], [], [], [], [], [], [], []⟩ 1
        cexSim.rngIx).1
    temporal_data := dictSet cexSim.temporal_data 1
      ⟨cfgW.BASE_DATE + 30 * ((1 : ℕ) : ℤ),
       (update_period_attributes cfgW rngW cexSim.business_group
         cexSim.product_families cexSim.product_offerings cexSim.warehouses_all
         cexSim.suppliers cexSim.parts_all ⟨0, [], [], [], [], [], [], [], []⟩ 1
         cexSim.rngIx).2.1⟩
    current_period := 1
    rngIx := (update_period_attributes cfgW rngW cexSim.business_group
      cexSim.product_families cexSim.product_offerings cexSim.warehouses_all
      cexSim.suppliers cexSim.parts_all ⟨0, [], [], [], [], [], [], [], []⟩ 1
      cexSim.rngIx).2.2 }

/-- On the empty state every supplier count is zero, so `_generate_suppliers`
returns the state unchanged. -/
theorem sW5_suppliers_ok : generate_suppliers cfgW rngW sW5 = .ok sW5 := by
  have hd : calculate_node_distribution sW5.total_variable_nodes
      = ⟨0, 0, 0, 0, 0, 0, 0, 0, 0, 0, 0, 0, 0, 0⟩ := by
    rw [show sW5.total_variable_nodes = 0 from rfl]
    simp only [calculate_node_distribution, NodeDist.mk.injEq]
    norm_num
  simp only [generate_suppliers, hd]
  rfl

/-- A state whose business-group dict revenue is `100`, with a matching
period-0 snapshot. -/
def cex5 : St :=
  { SupplyChainGenerator_init 0 2 "NSS_V1" with
    business_group := ⟨"BG_001", "Etch", "Etch Business Unit", 100⟩
    temporal_graphs := [(0, ⟨100, [], [], [], [], [], [], [], []⟩)] }

/-- **C5.**  The corrected log correspondence.  During *generation* every
structural or attribute change does append exactly one record: the business
hierarchy, supplier, warehouse, facility and part factories append one
`create` record (with the full payload) per created node, the four wiring
passes append one `create` record per created edge (pass 2 additionally pairs
each edge with exactly one `update` record for the warehouse's changed
running `current_capacity`), and pass 5 appends one empty-payload `create`
record per hierarchy edge.  Under *full regeneration* every period appends
exactly the records read off its stored changes — one `update` per changed
node attribute set and per changed edge attribute, carrying only the changed
fields.  But the claim's universal half is false: `_calculate_distances`
mutates the per-warehouse `distances` attribute and logs nothing, and the
*incremental* mode (`simulate_next_period`) stores a whole new period of
changed attribute values while appending nothing to the log. -/
theorem C5_log_correspondence (cfg : Cfg) (rng : ℕ → ℚ)
    (s2 s2' s3 s3' s4 s4' s5 s5' s6 s6' sim sim' : St)
    (hok2 : generate_suppliers cfg rng s2 = .ok s2')
    (hok3 : connect_suppliers_to_warehouses cfg rng s3 = .ok s3')
    (hok4 : connect_warehouses_to_parts cfg rng s4 = .ok s4')
    (hok5 : connect_parts_to_facilities cfg rng s5 = .ok s5')
    (hok6 : connect_facilities_to_products cfg rng s6 = .ok s6')
    (hsim : simulate_next_period cfg rng sim = .ok sim') :
    (∀ s : St, (generate_business_hierarchy cfg rng s).operations_log
        = s.operations_log
          ++ mk_node_op "create"
              (generate_business_hierarchy cfg rng s).business_group.id
              "BUSINESS_GROUP"
              (bg_props (generate_business_hierarchy cfg rng s).business_group)
              s.timestamp s.version
            :: (((generate_business_hierarchy cfg rng s).product_families.drop
                  s.product_families.length).map
                (fun pf => mk_node_op "create" pf.id "PRODUCT_FAMILY"
                  (family_props pf) s.timestamp s.version)
              ++ ((generate_business_hierarchy cfg rng s).product_offerings.drop
                  s.product_offerings.length).map
                (fun po => mk_node_op "create" po.id "PRODUCT_OFFERING"
                  (offering_props po) s.timestamp s.version)))
    ∧ (∃ new, s2'.suppliers = s2.suppliers ++ new
        ∧ s2'.operations_log = s2.operations_log
            ++ new.map (fun p => mk_node_op "create" p.id "SUPPLIERS"
                (supplier_props p) s2.timestamp s2.version))
    ∧ (∀ s : St, (generate_warehouses cfg rng s).operations_log
        = s.operations_log
          ++ (((generate_warehouses cfg rng s).warehouses_supplier.drop
                s.warehouses_supplier.length).map
              (fun w => mk_node_op "create" w.id "WAREHOUSE"
                (warehouse_props w) s.timestamp s.version)
            ++ ((generate_warehouses cfg rng s).warehouses_subassembly.drop
                s.warehouses_subassembly.length).map
              (fun w => mk_node_op "create" w.id "WAREHOUSE"
                (warehouse_props w) s.timestamp s.version)
            ++ ((generate_warehouses cfg rng s).warehouses_lam.drop
                s.warehouses_lam.length).map
              (fun w => mk_node_op "create" w.id "WAREHOUSE"
                (warehouse_props w) s.timestamp s.version)))
    ∧ (∀ s : St, (generate_facilities cfg rng s).operations_log
        = s.operations_log
          ++ (((generate_facilities cfg rng s).facilities_external.drop
                s.facilities_external.length).map
              (fun f => mk_node_op "create" f.id "FACILITY"
                (facility_props f) s.timestamp s.version)
            ++ ((generate_facilities cfg rng s).facilities_lam.drop
                s.facilities_lam.length).map
              (fun f => mk_node_op "create" f.id "FACILITY"
                (facility_props f) s.timestamp s.version)))
    ∧ (∀ s : St, (generate_parts cfg rng s).operations_log
        = s.operations_log
          ++ (((generate_parts cfg rng s).parts_raw.drop
                s.parts_raw.length).map
              (fun p => mk_node_op "create" p.id "PARTS" (part_props p)
                s.timestamp s.version)
            ++ ((generate_parts cfg rng s).parts_subassembly.drop
                s.parts_subassembly.length).map
              (fun p => mk_node_op "create" p.id "PARTS" (part_props p)
                s.timestamp s.version)))
    ∧ (∃ E, s3'.G.edges = s3.G.edges ++ E
        ∧ s3'.operations_log = s3.operations_log
            ++ E.map (s2w_rec s3.timestamp s3.version))
    ∧ (∃ blocks : List (String × List Edge),
        s4'.G.edges = s4.G.edges ++ blocks.flatMap Prod.snd
        ∧ s4'.operations_log = s4.operations_log
            ++ blocks.flatMap
              (fun b => w2p_ops_spec b.1 s4.timestamp s4.version b.2 0))
    ∧ (∃ E, s5'.G.edges = s5.G.edges ++ E
        ∧ s5'.operations_log = s5.operations_log
            ++ E.map (p3_rec s5.timestamp s5.version))
    ∧ (∃ E, s6'.G.edges = s6.G.edges ++ E
        ∧ s6'.operations_log = s6.operations_log
            ++ E.map (p4_rec s6.timestamp s6.version))
    ∧ (∀ s : St, ∃ E1 E2,
        (connect_hierarchy cfg s).G.edges = s.G.edges ++ (E1 ++ E2)
        ∧ (connect_hierarchy cfg s).operations_log = s.operations_log
            ++ (E1.map (fun e => mk_edge_op "create" e.source_id e.target_id []
                  "BUSINESS_GROUP_PROUDUCT_FAMILY" s.timestamp s.version)
              ++ E2.map (fun e => mk_edge_op "create" e.source_id e.target_id []
                  "PRODUCT_FAMILY_PRODUCT_OFFERING" s.timestamp s.version)))
    ∧ (∀ s : St, (regenerate_all_periods cfg rng s).operations_log
        = s.operations_log
          ++ (St.chain cfg rng
              { s with
                temporal_graphs := []
                temporal_data := []
                current_period := 0 }).1.flatMap
            (fun tp => tp.2.ops))
    ∧ (∀ s : St, ∀ tp ∈ (St.chain cfg rng s).1,
        ∃ ix, tp.2 = genTD_period cfg rng s.business_group s.product_families
          s.product_offerings s.warehouses_all s.suppliers s.parts_all s.G
          tp.1 (s.timestamp + tp.1) s.version ix)
    ∧ (∀ (bg : BG) (fams : List Family) (offs : List Offering)
        (whs : List Warehouse) (sups : List Supplier) (parts : List Part)
        (g0 : Graph) (t ts : ℕ) (ver : String) (ix : ℕ),
        (genTD_period cfg rng bg fams offs whs sups parts g0 t ts ver ix).ops
          = period_ops_spec bg fams offs whs sups parts g0
              (cfg.BASE_DATE + 30 * (t : ℤ)) ts ver
              (genTD_period cfg rng bg fams offs whs sups parts g0
                t ts ver ix).graph)
    ∧ (∀ s : St, (calculate_distances cfg rng s).operations_log
        = s.operations_log)
    ∧ sim'.operations_log = sim.operations_log := by
  refine ⟨?_, ?_, ?_, ?_, ?_, ?_, ?_, ?_, ?_, ?_, ?_, ?_, ?_, ?_, ?_⟩
  · intro s
    simp only [generate_business_hierarchy, List.drop_left, gen_families_ops,
      gen_offerings_out_ops]
  · simp only [generate_suppliers] at hok2
    split at hok2
    · cases hok2
    · rename_i c1 s1 heq1
      split at hok2
      · cases hok2
      · rename_i c2 s2m heq2
        split at hok2
        · cases hok2
        · rename_i c3 s3m heq3
          injection hok2 with h
          subst h
          obtain ⟨n1, ha1, hb1, hc1, hd1⟩ :=
            gen_suppliers_cat_log cfg rng "small" _ _ _ _ _ heq1
          obtain ⟨n2, ha2, hb2, hc2, hd2⟩ :=
            gen_suppliers_cat_log cfg rng "medium" _ _ _ _ _ heq2
          obtain ⟨n3, ha3, hb3, hc3, hd3⟩ :=
            gen_suppliers_cat_log cfg rng "large" _ _ _ _ _ heq3
          refine ⟨n1 ++ (n2 ++ n3), ?_, ?_⟩
          · rw [ha3, ha2, ha1, List.append_assoc, List.append_assoc]
          · rw [hb3, hb2, hb1, hc1, hd1, hc2, hc1, hd2, hd1]
            simp [List.append_assoc]
  · intro s
    simp only [generate_warehouses, List.drop_left, gen_warehouses_cat_ops]
  · intro s
    simp only [generate_facilities, List.drop_left, gen_facilities_cat_ops]
  · intro s
    simp only [generate_parts, List.drop_left, gen_parts_cat_ops]
  · obtain ⟨E, hE, hL, _, _⟩ := connect_suppliers_go_log cfg rng s3.suppliers
      s3 s3' hok3
    exact ⟨E, hE, hL⟩
  · obtain ⟨blocks, hE, hL, _, _⟩ := connect_warehouses_go_log cfg rng
      s4.warehouses_all.enum s4 s4' hok4
    exact ⟨blocks, hE, hL⟩
  · simp only [connect_parts_to_facilities] at hok5
    rcases hq : cptf_external cfg rng s5.facilities_external s5
      with e1 | s5m <;> rw [hq] at hok5
    · cases hok5
    obtain ⟨E1, hE1, hL1, ht1, hv1, _⟩ :=
      cptf_external_log cfg rng s5.facilities_external s5 s5m hq
    obtain ⟨E2, hE2, hL2, ht2, hv2⟩ :=
      cptf_lam_log cfg rng s5m.facilities_lam s5m s5' hok5
    refine ⟨E1 ++ E2, ?_, ?_⟩
    · rw [hE2, hE1, List.append_assoc]
    · rw [hL2, hL1, ht1, hv1]
      simp [List.append_assoc]
  · obtain ⟨E, hE, hL, _, _⟩ := cfp_go_log cfg rng s6.facilities_lam s6 s6'
      hok6
    exact ⟨E, hE, hL⟩
  · exact connect_hierarchy_log cfg
  · intro s
    simp only [regenerate_all_periods]
    rw [generate_temporal_data_spec]
  · intro s tp h
    exact genTD_chain_elem cfg rng _ _ _ _ _ _ _ _ _ _ _ tp h
  · exact genTD_period_ops cfg rng
  · exact fun s => (calculate_distances_go_log cfg rng s.warehouses_all.enum
      s).1
  · exact simulate_next_period_log cfg rng sim sim' hsim

/-- C5 as frozen is false: from `cex5`, whose period-0 business-group revenue
is `100`, the incremental mode stores a period-1 snapshot whose
business-group revenue is `200` — an attribute change — while the operations
log comes back exactly as it was (here: empty), with no record of the
change. -/
theorem C5_counterexample :
    (simulate_next_period cfg3 rngHalf cex5).map
        (fun s2 => ((dictGet s2.temporal_graphs 1).map Graph.bgRevenue,
          s2.operations_log))
      = .ok (some (200 : ℚ), cex5.operations_log)
    ∧ (dictGet cex5.temporal_graphs 0).map Graph.bgRevenue = some (100 : ℚ)
    ∧ (100 : ℚ) ≠ 200 := by
  have h2 : tv_config cfg3 "revenue" = ⟨0, 1⟩ := by
    simp [tv_config, cfg3, cfgW]
  have hs : seasonal_factor cfg3 "revenue" 1 = 1 := by simp [seasonal_factor]
  refine ⟨?_, by rfl, by norm_num⟩
  simp only [cex5, SupplyChainGenerator_init, simulate_next_period, dictLast,
    update_period_attributes, update_families, update_product_attributes,
    update_warehouse_attributes, update_supplier_attributes,
    update_part_attributes, update_edge_attributes, St.warehouses_all,
    St.parts_all, dictSet, dictGet, Except.map]
  norm_num [generate_temporal_value, h2, hs, pyuniform, rngHalf, dictSet,
    dictGet]

/-- Concrete instantiation of `C5_log_correspondence` at the empty state
(every wiring pass succeeds there) and at `cexSim` for the incremental mode:
neither the incremental extension nor `_calculate_distances` appends
anything. -/
theorem C5_witness :
    cexSimNext.operations_log = cexSim.operations_log
    ∧ (calculate_distances cfgW rngW cexSim).operations_log
        = cexSim.operations_log := by
  have h := C5_log_correspondence cfgW rngW sW5 sW5 sW5 sW5 sW5 sW5 sW5 sW5
    sW5 sW5 cexSim cexSimNext sW5_suppliers_ok rfl rfl rfl rfl (by rfl)
  exact ⟨h.2.2.2.2.2.2.2.2.2.2.2.2.2.2,
    h.2.2.2.2.2.2.2.2.2.2.2.2.2.1 cexSim⟩

end SupplyChain
